import Mathlib

/-!
# Btreefilesystem: a shallow embedding of `fs1.c`

The image is a host file that the C program reads and writes through `fseek`,
`fread` and `fwrite`.  Here a byte string is a natural number read in base 256
(byte `i` is digit `i`), so the whole file content is one `Nat`, a C struct held
in memory is the `Nat` of its bytes, and a field is a slice of that number.

Conventions of the embedding:
* a C `int` is an `Int`; it is stored in four little-endian bytes in two's
  complement (`ofInt32`) and read back with `toInt32`; an `unsigned` is the
  `Nat` of its four bytes;
* `/` and `%` of C truncate toward zero (`Int.tdiv`, `Int.tmod`);
* the image file is unbounded: bytes at and past its size read as what is
  stored there (zero when never written);
* `fseek` to a negative offset fails and leaves the position where it was;
* a local variable the C code does not initialise starts as the bytes `junk`;
* loops that the C code does not bound take a `fuel`; the result is `none`
  when the fuel runs out (or when the process exits in `get_inode`).
-/

namespace Btreefs

/-! ## Bytes -/

/-- The number whose `len` lowest bytes are all `0xFF`. -/
def mask (len : Nat) : Nat := (1 <<< (8 * len)) - 1

/-- Bytes `off .. off+len` of the byte string `m`. -/
def getBytes (m off len : Nat) : Nat := (m &&& mask (off + len)) >>> (8 * off)

/-- The byte string `m` with bytes `off .. off+len` replaced by the `len` lowest bytes of `v`. -/
def setBytes (m off len v : Nat) : Nat :=
  m ^^^ ((getBytes m off len ^^^ (v &&& mask len)) <<< (8 * off))

/-- Value of a 32-bit two's complement word. -/
def toInt32 (w : Nat) : Int :=
  if w % 4294967296 < 2147483648 then ((w % 4294967296 : Nat) : Int)
  else ((w % 4294967296 : Nat) : Int) - 4294967296

/-- The 32-bit word of a C `int` (conversion to `unsigned`). -/
def ofInt32 (i : Int) : Nat := (i % 4294967296).toNat

/-- Wrap-around of an `int` computation to 32 bits. -/
def wrap32 (i : Int) : Int := toInt32 (ofInt32 i)

/-- Read the `int` at byte offset `off` of a struct. -/
def getInt (m off : Nat) : Int := toInt32 (getBytes m off 4)

/-- Store the `int` `v` at byte offset `off` of a struct. -/
def setInt (m off : Nat) (v : Int) : Nat := setBytes m off 4 (ofInt32 v)

/-- Read the `unsigned` at byte offset `off` of a struct. -/
def getU32 (m off : Nat) : Nat := getBytes m off 4

/-- Bytes of a C string (without the terminating NUL), lowest address first. -/
def packStr : List Nat → Nat
  | [] => 0
  | c :: cs => c % 256 + 256 * packStr cs

/-- Effect of `strcpy(dst + off, s)`: the characters of `s` and a NUL. -/
def strcpy (m off : Nat) (s : List Nat) : Nat := setBytes m off (s.length + 1) (packStr s)

/-- Result of `strcmp(m + off, s) == 0` for a string `s` without NUL: the bytes at `off`
are the characters of `s` followed by a NUL. -/
def strcmp_eq (m off : Nat) (s : List Nat) : Bool :=
  getBytes m off (s.length + 1) == packStr s

/-- The C string stored at `off` (read up to `n` characters, stopping at a NUL). -/
def cstring (m off : Nat) : Nat → List Nat
  | 0 => []
  | n + 1 => if getBytes m off 1 = 0 then [] else getBytes m off 1 :: cstring m (off + 1) n

/-! ## The stream `FILE *p` -/

/-- An open stream: content, size in bytes and current position. -/
structure FILE where
  data : Nat
  size : Nat
  pos : Nat
deriving DecidableEq, Repr

/-- Model of `fseek(p, off, SEEK_SET)`; a negative offset is refused. -/
def fseek : FILE → Int → FILE
  | ⟨data, size, pos⟩, off => if off < 0 then ⟨data, size, pos⟩ else ⟨data, size, off.toNat⟩

/-- Model of `fread(&buf, len, 1, p)`: the bytes read and the advanced stream. -/
def fread : FILE → Nat → Nat × FILE
  | ⟨data, size, pos⟩, len => (getBytes data pos len, ⟨data, size, pos + len⟩)

/-- Model of `fwrite(&buf, len, 1, p)`. -/
def fwrite : FILE → Nat → Nat → FILE
  | ⟨data, size, pos⟩, len, v =>
    ⟨setBytes data pos len v, if len = 0 then size else max size (pos + len), pos + len⟩

/-! ## Struct layouts

`struct superblock`: magic 0, label 8, blocksize 16, blocks 20, n_inodes 24,
inodes 28, root 32, freeblocksmap 36, idcounter 40, padding 44..4096. -/

def BS : Nat := 4096

def MAGIC : List Nat := [70, 97, 83, 84, 100, 69, 118, 76]

def NEWLABEL : List Nat := [78, 69, 87, 76, 65, 66, 69, 76]

def sb_magic (sb : Nat) : Nat := getBytes sb 0 8
def sb_label (sb : Nat) : Nat := getBytes sb 8 8
def sb_blocksize (sb : Nat) : Int := getInt sb 16
def sb_blocks (sb : Nat) : Int := getInt sb 20
def sb_n_inodes (sb : Nat) : Int := getInt sb 24
def sb_inodes (sb : Nat) : Int := getInt sb 28
def sb_root (sb : Nat) : Int := getInt sb 32
def sb_freeblocksmap (sb : Nat) : Int := getInt sb 36
def sb_idcounter (sb : Nat) : Int := getInt sb 40

/-- A key of the B+ tree (`struct Key`): two `unsigned`. -/
structure Key where
  dir_id : Nat
  id : Nat
deriving DecidableEq, Repr

/-! `struct inode`: `f[i]` at `4 * i`, 64 bytes. -/

def in_f (ino : Nat) (i : Nat) : Int := getInt ino (4 * i)
def in_set_f (ino : Nat) (i : Nat) (v : Int) : Nat := setInt ino (4 * i) v

/-! `struct stat`: k.dir_id 0, k.id 4, inode 8, type 12, lastblock 16,
lastblockbytes 20, uid 24, gid 26, name 28, ctime 284, ltime 309, mtime 334,
perm 359, blocks 364, padding 368..4096. -/

def st_key (s : Nat) : Key := ⟨getU32 s 0, getU32 s 4⟩
def st_inode (s : Nat) : Int := getInt s 8
def st_type (s : Nat) : Int := getInt s 12
def st_lastblock (s : Nat) : Int := getInt s 16
def st_lastblockbytes (s : Nat) : Int := getInt s 20
def st_blocks (s : Nat) : Int := getInt s 364

/-! `struct node`: parent 0, isLeaf 4, size 8, key[i] at `12 + 8 * i`
(i < 339), link[i] at `2724 + 4 * i` (i < 340), left 4084, right 4088,
padding 4092..4096. -/

def nd_parent (n : Nat) : Int := getInt n 0
def nd_isLeaf (n : Nat) : Int := getInt n 4
def nd_size (n : Nat) : Int := getInt n 8
def nd_key (n : Nat) (i : Nat) : Key := ⟨getU32 n (12 + 8 * i), getU32 n (16 + 8 * i)⟩
def nd_link (n : Nat) (i : Nat) : Int := getInt n (2724 + 4 * i)
def nd_left (n : Nat) : Int := getInt n 4084
def nd_right (n : Nat) : Int := getInt n 4088

def nd_set_parent (n : Nat) (v : Int) : Nat := setInt n 0 v
def nd_set_isLeaf (n : Nat) (v : Int) : Nat := setInt n 4 v
def nd_set_size (n : Nat) (v : Int) : Nat := setInt n 8 v
def nd_set_key (n : Nat) (i : Nat) (k : Key) : Nat :=
  setBytes (setBytes n (12 + 8 * i) 4 k.dir_id) (16 + 8 * i) 4 k.id
def nd_set_link (n : Nat) (i : Nat) (v : Int) : Nat := setInt n (2724 + 4 * i) v
def nd_set_left (n : Nat) (v : Int) : Nat := setInt n 4084 v
def nd_set_right (n : Nat) (v : Int) : Nat := setInt n 4088 v

/-! ## Free-block bitmap -/

/-- Model of `use_block`: toggles the bit of block `i` (XOR on one byte). -/
def use_block (p : FILE) (i : Int) : FILE :=
  let b := i.tdiv 32768 + 2
  let m := (i.tmod 32768).tdiv 8
  let x := (i.tmod 32768).tmod 8
  let loc := b * 4096 + m
  let p1 := fseek p loc
  let r := fread p1 1
  let a := if x < 0 then r.1 else r.1 ^^^ (1 <<< x.toNat)
  let p2 := fseek r.2 loc
  fwrite p2 1 a

/-- Model of `free_block`: the same toggle. -/
def free_block (p : FILE) (i : Int) : FILE := use_block p i

/-- Model of `check_block`: whether the bit of block `i` is set. -/
def check_block (p : FILE) (i : Int) : Bool × FILE :=
  let b := i.tdiv 32768 + 2
  let m := (i.tmod 32768).tdiv 8
  let x := (i.tmod 32768).tmod 8
  let loc := b * 4096 + m
  let p1 := fseek p loc
  let r := fread p1 1
  (Nat.testBit r.1 x.toNat, r.2)

/-- The `for` loop of `get_free_block`: `n` bounds the number of iterations. -/
def get_free_block_loop : Nat → FILE → Int → Int → Int × FILE
  | 0, p, fb, _ => (fb, p)
  | n + 1, p, fb, blocks =>
    if fb < blocks then
      let c := check_block p fb
      if c.1 = false then (fb, c.2) else get_free_block_loop n c.2 (fb + 1) blocks
    else (fb, p)

/-- Model of `get_free_block`. -/
def get_free_block (p : FILE) (sb : Nat) : Int × FILE :=
  let start := 2 + sb_freeblocksmap sb
  let r := get_free_block_loop (sb_blocks sb - start).toNat p start (sb_blocks sb)
  if r.1 = sb_blocks sb then (-1, r.2) else r

/-- The `while` loop of `init_freemap` that marks blocks `i .. i+n`. -/
def use_blocks : Nat → FILE → Int → FILE
  | 0, p, _ => p
  | n + 1, p, i => use_blocks n (use_block p i) (i + 1)

/-- Model of `init_freemap`: zero the bitmap blocks, mark blocks `0 .. freeblocks+2`. -/
def init_freemap (p : FILE) (blocks : Int) : Int × FILE :=
  let freeblocks := if blocks.tmod 32768 ≠ 0 then blocks.tdiv 32768 + 1 else blocks.tdiv 32768
  let p1 := fseek p 8192
  let p2 := fwrite p1 (freeblocks.toNat * 4096) 0
  (freeblocks, use_blocks (freeblocks + 2).toNat p2 0)

/-! ## Superblock -/

/-- Model of `update_sb`: write the superblock to block 0 and to block 1. -/
def update_sb (p : FILE) (sb : Nat) : FILE :=
  fwrite (fseek (fwrite (fseek p 0) 4096 sb) 4096) 4096 sb

/-- The `for` loop of `init_inodes` over the blocks `i .. i+n` of the inode region. -/
def init_inodes_loop : Nat → FILE → Int → Nat → FILE
  | 0, p, _, _ => p
  | n + 1, p, i, ino =>
    init_inodes_loop n (use_block (fwrite (fseek p (wrap32 (4096 * i))) 4096 ino) i) (i + 1) ino

/-- The array `in[64]` of `init_inodes`: `f[0] = -1` in every element, the rest as found. -/
def init_inodes_array : Nat → Nat → Nat
  | 0, ino => ino
  | n + 1, ino => init_inodes_array n (setInt ino (64 * n) (-1))

/-- Model of `init_inodes`. -/
def init_inodes (p : FILE) (sb : Nat) (junk : Nat) : FILE :=
  let ino := init_inodes_array 64 junk
  let inode_blocks := (sb_n_inodes sb).tdiv (sb_inodes sb)
  let start := 2 + sb_freeblocksmap sb
  init_inodes_loop inode_blocks.toNat p start ino

/-- The superblock that `makefs` builds for an image of `size` bytes with `f` bitmap blocks. -/
def makefs_sb (size : Nat) (f : Int) (junk : Nat) : Nat :=
  let s1 := strcpy junk 0 MAGIC
  let s2 := strcpy s1 8 NEWLABEL
  let s3 := setInt s2 16 4096
  let blocks := toInt32 (size / 4096)
  let s4 := setInt s3 20 blocks
  let s5 := setInt s4 24 (if blocks.tmod 10 ≠ 0 then blocks.tdiv 10 + 1 else blocks.tdiv 10)
  let s6 := setInt s5 32 (-1)
  let s7 := setInt s6 28 64
  let s8 := setInt s7 36 f
  setInt s8 40 2

/-- Model of `makefs`: returns the stream and the superblock it wrote. -/
def makefs (p : FILE) (junk : Nat) : FILE × Nat :=
  let blocks := toInt32 (p.size / 4096)
  let r := init_freemap p blocks
  let sb := makefs_sb p.size r.1 junk
  let p1 := init_inodes r.2 sb junk
  (fseek (update_sb p1 sb) 0, sb)

/-- Model of `setlabel`. -/
def setlabel (p : FILE) (label : List Nat) : FILE :=
  let r := fread (fseek p 0) 4096
  let p1 := fseek r.2 0
  let sb := strcpy r.1 8 label
  fwrite (fwrite p1 4096 sb) 4096 sb

/-- Model of `get_id`: `"/"` is `[47]`. -/
def get_id (name : List Nat) (p : FILE) (sb : Nat) : Int × FILE × Nat :=
  if name = [47] then (1, p, sb)
  else
    let id := sb_idcounter sb
    let sb1 := setInt sb 40 (wrap32 (id + 1))
    (id, update_sb p sb1, sb1)

/-! ## B+ tree -/

/-- Model of `comparator`: differences of `unsigned` fields converted to `int`. -/
def comparator (a b : Key) : Int :=
  if (a.dir_id + 4294967296 - b.dir_id) % 4294967296 = 0 then
    toInt32 ((a.id + 4294967296 - b.id) % 4294967296)
  else toInt32 ((a.dir_id + 4294967296 - b.dir_id) % 4294967296)

/-- The initialising `for` loop of `get_node`: keys and links `0 .. n` set to `-1`. -/
def get_node_fill : Nat → Nat → Nat
  | 0, nn => nn
  | n + 1, nn =>
    nd_set_link (nd_set_key (get_node_fill n nn) n ⟨4294967295, 4294967295⟩) n (-1)

/-- The node that `get_node` writes. -/
def get_node_init (junk : Nat) : Nat :=
  let n1 := nd_set_parent junk (-1)
  let n2 := nd_set_isLeaf n1 0
  let n3 := nd_set_size n2 0
  let n4 := nd_set_left n3 (-1)
  let n5 := nd_set_right n4 (-1)
  nd_set_link (get_node_fill 339 n5) 339 (-1)

/-- Model of `get_node`: allocate a block and write an empty node; returns its byte offset. -/
def get_node (p : FILE) (sb : Nat) (junk : Nat) : Int × FILE :=
  let r := get_free_block p sb
  if r.1 = -1 then (-1, r.2)
  else
    let p1 := use_block r.2 r.1
    let fb := wrap32 (r.1 * 4096)
    (fb, fwrite (fseek p1 fb) 4096 (get_node_init junk))

/-- The search `for (i = 0; i < n.size; ++i) if (comparator(&k, &n.key[i]) < 0) break;`
started at `i` with at most `fuel` iterations: the final `i`. -/
def key_scan (n : Nat) (k : Key) : Nat → Nat → Nat
  | 0, i => i
  | fuel + 1, i =>
    if (i : Int) < nd_size n then
      if comparator k (nd_key n i) < 0 then i else key_scan n k fuel (i + 1)
    else i

/-- Seek to `curr` and read one node. -/
def read_node (p : FILE) (curr : Int) : Nat × FILE := fread (fseek p curr) 4096

/-- The loop `while (n.isLeaf != 1)` of `insert`: the stream, the node buffer `n` and `curr`
when the loop ends.  After a `break` the test `i == n.size` reads the size of the node
just loaded. -/
def insert_descend (k : Key) : Nat → FILE → Nat → Int → Option (FILE × Nat × Int)
  | 0, _, _, _ => none
  | fuel + 1, p, n, curr =>
    if nd_isLeaf n = 1 then some (p, n, curr)
    else
      let i := key_scan n k (nd_size n).toNat 0
      let s1 : FILE × Nat × Int :=
        if (i : Int) < nd_size n then
          let r := read_node p (nd_link n i)
          (r.2, r.1, nd_link n i)
        else (p, n, curr)
      let s2 : FILE × Nat × Int :=
        if (i : Int) = nd_size s1.2.1 then
          let r := read_node s1.1 (nd_link s1.2.1 i)
          (r.2, r.1, nd_link s1.2.1 i)
        else s1
      insert_descend k fuel s2.1 s2.2.1 s2.2.2

/-- The shifting loop `for (j = n.size; j > i; --j)` of the leaf insert, `c` iterations
from `j` downward. -/
def leaf_shift : Nat → Nat → Nat → Nat
  | 0, n, _ => n
  | c + 1, n, j =>
    leaf_shift c (nd_set_link (nd_set_key n j (nd_key n (j - 1))) j (nd_link n (j - 1))) (j - 1)

/-- State of the two distributing loops of a split: source index, target index, flag and
the node being filled. -/
structure SplitSt where
  i : Nat
  j : Nat
  flag : Bool
  tmp : Nat

/-- First distributing loop of the leaf split: `for (i = 0, j = 0; j < bound;)`. -/
def leaf_split1 (n : Nat) (k : Key) (block : Int) (bound : Int) : Nat → SplitSt → SplitSt
  | 0, s => s
  | fuel + 1, s =>
    if (s.j : Int) < bound then
      if s.flag = false ∧ comparator k (nd_key n s.i) < 0 then
        leaf_split1 n k block bound fuel
          ⟨s.i, s.j + 1, true, nd_set_link (nd_set_key s.tmp s.j k) s.j block⟩
      else
        leaf_split1 n k block bound fuel
          ⟨s.i + 1, s.j + 1, s.flag,
            nd_set_link (nd_set_key s.tmp s.j (nd_key n s.i)) s.j (nd_link n s.i)⟩
    else s

/-- Second distributing loop of the leaf split: `for (j = 0; i < n.size;)`. -/
def leaf_split2 (n : Nat) (k : Key) (block : Int) : Nat → SplitSt → SplitSt
  | 0, s => s
  | fuel + 1, s =>
    if (s.i : Int) < nd_size n then
      if s.flag = false ∧ comparator k (nd_key n s.i) < 0 then
        leaf_split2 n k block fuel
          ⟨s.i, s.j + 1, true, nd_set_link (nd_set_key s.tmp s.j k) s.j block⟩
      else
        leaf_split2 n k block fuel
          ⟨s.i + 1, s.j + 1, s.flag,
            nd_set_link (nd_set_key s.tmp s.j (nd_key n s.i)) s.j (nd_link n s.i)⟩
    else s

/-- State of the distributing loops of `promote`: target index `i`, source index `j`, flag,
the node being filled, the node `n` being split (its links are patched on the way) and the
local variable `parent`. -/
structure PromSt where
  i : Nat
  j : Nat
  flag : Bool
  tmp : Nat
  n : Nat
  parent : Int

/-- One distributing loop of the internal split of `promote`; `first` selects the loop
condition (`i < bound` for the first loop, `j < n.size` for the second) and `side` is the
offset (`L` or `R`) that `parent` takes when the key lands in this half. -/
def promote_split (k : Key) (l r : Int) (bound : Int) (first : Bool) (side : Int) :
    Nat → PromSt → PromSt
  | 0, s => s
  | fuel + 1, s =>
    if (if first then (s.i : Int) < bound else (s.j : Int) < nd_size s.n) then
      if s.flag = false ∧ comparator k (nd_key s.n s.j) < 0 then
        promote_split k l r bound first side fuel
          ⟨s.i + 1, s.j, true,
            nd_set_link (nd_set_link (nd_set_key s.tmp s.i k) s.i l) (s.i + 1) r,
            nd_set_link s.n s.j r, side⟩
      else
        promote_split k l r bound first side fuel
          ⟨s.i + 1, s.j + 1, s.flag,
            nd_set_link (nd_set_key s.tmp s.i (nd_key s.n s.j)) s.i (nd_link s.n s.j),
            s.n, s.parent⟩
    else s

/-- The shifting loop `for (j = n.size; j > i; --j)` of `promote`, `c` iterations from `j`
downward: `n.key[j] = n.key[j-1]; n.link[j+1] = n.link[j];`. -/
def inner_shift : Nat → Nat → Nat → Nat
  | 0, n, _ => n
  | c + 1, n, j =>
    inner_shift c (nd_set_link (nd_set_key n j (nd_key n (j - 1))) (j + 1) (nd_link n j)) (j - 1)

/-- Model of `promote`: the returned offset, the stream and the in-memory superblock. -/
def promote (junk : Nat) : Nat → Key → Int → Int → Int → FILE → Nat → Option (Int × FILE × Nat)
  | 0, _, _, _, _, _, _ => none
  | fuel + 1, k, parent, l, r, p, sb =>
    if parent = -1 then
      let g := get_node p sb junk
      if g.1 = -1 then some (-1, g.2, sb)
      else
        let rn := read_node g.2 g.1
        let n1 := nd_set_parent rn.1 (-1)
        let n2 := nd_set_isLeaf n1 0
        let n3 := nd_set_key n2 0 k
        let n4 := nd_set_link n3 0 l
        let n5 := nd_set_link n4 1 r
        let n6 := nd_set_left n5 (-1)
        let n7 := nd_set_right n6 (-1)
        let n8 := nd_set_size n7 1
        let p1 := fwrite (fseek rn.2 g.1) 4096 n8
        let sb1 := setInt sb 32 g.1
        some (g.1, update_sb p1 sb1, sb1)
    else
      let rn := read_node p parent
      let n := rn.1
      if nd_size n < 339 then
        let i := key_scan n k (nd_size n).toNat 0
        let n1 := inner_shift ((nd_size n).toNat - i) n (nd_size n).toNat
        let n2 := nd_set_key n1 i k
        let n3 := nd_set_link n2 i l
        let n4 := nd_set_link n3 (i + 1) r
        let n5 := nd_set_size n4 (wrap32 (nd_size n4 + 1))
        some (parent, fwrite (fseek rn.2 parent) 4096 n5, sb)
      else
        let gl := get_node rn.2 sb junk
        let gr := get_node gl.2 sb junk
        if gl.1 = -1 ∨ gr.1 = -1 then some (parent, gr.2, sb)
        else
          let t1 := read_node gr.2 gl.1
          let t2 := read_node t1.2 gr.1
          let bound := (nd_size n).tdiv 2 + 1
          let s1 := promote_split k l r bound true gl.1 bound.toNat ⟨0, 0, false, t1.1, n, parent⟩
          let tmp1a := if s1.flag = false then nd_set_link s1.tmp s1.i (nd_link s1.n s1.j) else s1.tmp
          let mid : Bool := s1.flag = false ∧ comparator k (nd_key s1.n s1.j) < 0
          let ktmp : Key := if mid then k else ⟨getU32 junk 0, getU32 junk 4⟩
          let tmp1b := if mid then nd_set_link tmp1a s1.i l else tmp1a
          let tmp2a := if mid then nd_set_key (nd_set_link t2.1 0 r) 0 (nd_key s1.n s1.j) else t2.1
          let s2 := promote_split k l r bound false gr.1 ((nd_size n).toNat + 1)
            ⟨if mid then 1 else 0, if mid then s1.j + 1 else s1.j, if mid then true else s1.flag,
              tmp2a, s1.n, if mid then -1 else s1.parent⟩
          let tmp2b := if s2.flag = false then nd_set_link s2.tmp s2.i (nd_link s2.n s2.j) else s2.tmp
          let p1 := free_block t2.2 s2.parent
          match promote junk fuel ktmp (nd_parent s2.n) gl.1 gr.1 p1 sb with
          | none => none
          | some (res, p2, sb1) =>
            let tmp1c := nd_set_parent tmp1b res
            let tmp2c := nd_set_parent tmp2b res
            let p3 := fwrite (fseek p2 gl.1) 4096 tmp1c
            let p4 := fwrite (fseek p3 gr.1) 4096 tmp2c
            some (s2.parent, p4, sb1)

/-- Model of `insert`: the stream and the in-memory superblock afterwards. -/
def insert (junk : Nat) (fuel : Nat) (p : FILE) (id dir_id block : Int) (sb : Nat) :
    Option (FILE × Nat) :=
  let k : Key := ⟨ofInt32 dir_id, ofInt32 id⟩
  if sb_root sb = -1 then
    let g := get_node p sb junk
    if g.1 = -1 then some (g.2, sb)
    else
      let sb1 := setInt sb 32 g.1
      let rn := read_node g.2 g.1
      let n1 := nd_set_parent rn.1 (-1)
      let n2 := nd_set_isLeaf n1 1
      let n3 := nd_set_size n2 1
      let n4 := nd_set_key n3 0 k
      let n5 := nd_set_link n4 0 block
      let n6 := nd_set_left n5 (-1)
      let n7 := nd_set_right n6 (-1)
      let p1 := fwrite (fseek rn.2 g.1) 4096 n7
      some (update_sb p1 sb1, sb1)
  else
    let rn := read_node p (sb_root sb)
    match insert_descend k fuel rn.2 rn.1 (sb_root sb) with
    | none => none
    | some (p1, n, curr) =>
      if nd_size n < 339 then
        let i := key_scan n k (nd_size n).toNat 0
        let n1 := leaf_shift ((nd_size n).toNat - i) n (nd_size n).toNat
        let n2 := nd_set_key n1 i k
        let n3 := nd_set_link n2 i block
        let n4 := nd_set_size n3 (wrap32 (nd_size n3 + 1))
        some (fwrite (fseek p1 curr) 4096 n4, sb)
      else
        let gl := get_node p1 sb junk
        let gr := get_node gl.2 sb junk
        if gl.1 = -1 ∨ gr.1 = -1 then some (gr.2, sb)
        else
          let l := gl.1
          let r := gr.1
          let t1 := read_node gr.2 l
          let tmp1 := nd_set_isLeaf (nd_set_parent (nd_set_right (nd_set_left t1.1 (nd_left n)) r)
            (nd_parent n)) 1
          let t2 := read_node t1.2 r
          let tmp2 := nd_set_isLeaf (nd_set_parent (nd_set_left (nd_set_right t2.1 (nd_right n)) l)
            (nd_parent n)) 1
          let bound := (nd_size n).tdiv 2 + 1
          let s1 := leaf_split1 n k block bound bound.toNat ⟨0, 0, false, tmp1⟩
          let tmp1a := nd_set_size s1.tmp s1.j
          let s2 := leaf_split2 n k block ((nd_size n).toNat + 1) ⟨s1.i, 0, s1.flag, tmp2⟩
          let s3 : SplitSt :=
            if s2.flag = false then
              ⟨s2.i, s2.j + 1, true, nd_set_link (nd_set_key s2.tmp s2.j k) s2.j block⟩
            else s2
          let tmp2a := nd_set_size (nd_set_parent s3.tmp (nd_parent n)) s3.j
          let p2 := free_block t2.2 curr
          match promote junk fuel (nd_key tmp2a 0) (nd_parent n) l r p2 sb with
          | none => none
          | some (res, p3, sb1) =>
            let tmp1b := nd_set_parent tmp1a res
            let tmp2b := nd_set_parent tmp2a res
            let tmp2c := nd_set_right (nd_set_left tmp2b l) (nd_right n)
            let p4 := fwrite (fseek p3 r) 4096 tmp2c
            let tmp1c := nd_set_right (nd_set_left tmp1b (nd_left n)) r
            let p5 := fwrite (fseek p4 l) 4096 tmp1c
            let p6 :=
              if nd_left n ≠ -1 then
                let q := fread (fseek p5 (nd_left n)) 4096
                fwrite (fseek q.2 (nd_left n)) 4096 (nd_set_right q.1 l)
              else p5
            let p7 :=
              if nd_right n ≠ -1 then
                let q := fread (fseek p6 (nd_right n)) 4096
                fwrite (fseek q.2 (nd_left n)) 4096 (nd_set_left q.1 r)
              else p6
            some (p7, sb1)

/-! ## Inode table -/

/-- The scanning loop of `get_inode` from slot `i`, at most `n` slots. -/
def get_inode_loop (start : Int) : Nat → FILE → Int → Int × FILE
  | 0, p, _ => (-1, p)
  | n + 1, p, i =>
    let r := fread (fseek p (start + 64 * i)) 64
    if in_f r.1 0 = -1 then (wrap32 (start + i * 64), r.2)
    else get_inode_loop start n r.2 (i + 1)

/-- Model of `get_inode`; `none` when the process exits because `n_inodes` is zero. -/
def get_inode (p : FILE) (sb : Nat) : Option (Int × FILE) :=
  if sb_n_inodes sb = 0 then none
  else
    let start := wrap32 ((2 + sb_freeblocksmap sb) * 4096)
    some (get_inode_loop start (sb_n_inodes sb).toNat (fseek p start) 0)

/-! ## Namespace operations -/

/-- Model of `init_stat`; `t` is the 24-character string that `get_time` returns. -/
def init_stat (s : Nat) (k : Key) (inode_loc : Int) (type : Int) (name : List Nat)
    (t : List Nat) : Nat :=
  let s1 := setBytes (setBytes s 0 4 k.dir_id) 4 4 k.id
  let s2 := setInt s1 8 inode_loc
  let s3 := setInt s2 12 type
  let s4 := setBytes s3 24 2 1000
  let s5 := setBytes s4 26 2 100
  let s6 := strcpy s5 28 name
  let s7 := strcpy s6 284 t
  let s8 := strcpy s7 309 t
  let s9 := strcpy s8 334 t
  setBytes (setBytes (setBytes s9 359 1 7) 360 1 5) 361 1 5

/-- The search `for (i = 0; i < n.size; ++i) if (dir_id < n.key[i].dir_id) break;` of
`find` and `ls` (an unsigned comparison), started at `i`: the final `i`. -/
def dir_scan (n : Nat) (dir_id : Int) : Nat → Nat → Nat
  | 0, i => i
  | fuel + 1, i =>
    if (i : Int) < nd_size n then
      if ofInt32 dir_id < (nd_key n i).dir_id then i else dir_scan n dir_id fuel (i + 1)
    else i

/-- The loop `while (n.isLeaf == 0)` of `find` and `ls`. -/
def find_descend (dir_id : Int) : Nat → FILE → Nat → Int → Option (FILE × Nat × Int)
  | 0, _, _, _ => none
  | fuel + 1, p, n, curr =>
    if nd_isLeaf n ≠ 0 then some (p, n, curr)
    else
      let i := dir_scan n dir_id (nd_size n).toNat 0
      let curr1 := if (i : Int) < nd_size n ∨ (i : Int) = nd_size n then nd_link n i else curr
      let r := read_node p curr1
      find_descend dir_id fuel r.2 r.1 curr1

/-- The loop `while (n.key[0].dir_id == dir_id)` of `find` and `ls` that walks left. -/
def find_left (dir_id : Int) : Nat → FILE → Nat → Int → Option (FILE × Nat × Int)
  | 0, _, _, _ => none
  | fuel + 1, p, n, curr =>
    if (nd_key n 0).dir_id = ofInt32 dir_id then
      if nd_left n = -1 then some (p, n, curr)
      else
        let r := read_node p (nd_left n)
        find_left dir_id fuel r.2 r.1 (nd_left n)
    else some (p, n, curr)

/-- The `for` loop of `find` over the keys `i ..` of one leaf: `some v` when it returns `v`
from inside the loop, `none` when the loop runs to its end. -/
def find_leaf (n : Nat) (dir_id : Int) (name : List Nat) (type : Int) (id_or_loc : Int) :
    Nat → FILE → Nat → Option Int × FILE
  | 0, p, _ => (none, p)
  | fuel + 1, p, i =>
    if (i : Int) < nd_size n then
      if (nd_key n i).dir_id = ofInt32 dir_id then
        let ri := fread (fseek p (nd_link n i)) 64
        let rs := fread (fseek ri.2 (in_f ri.1 0)) 4096
        if strcmp_eq rs.1 28 name = true ∧ st_type rs.1 = type then
          (some (if id_or_loc = 0 then toInt32 (st_key rs.1).id else nd_link n i), rs.2)
        else find_leaf n dir_id name type id_or_loc fuel rs.2 (i + 1)
      else find_leaf n dir_id name type id_or_loc fuel p (i + 1)
    else (none, p)

/-- The key `n.key[i]` for an `int` index (`n.key[n.size - 1]`). -/
def nd_keyI (n : Nat) (i : Int) : Key :=
  ⟨getU32 n (12 + 8 * i).toNat, getU32 n (16 + 8 * i).toNat⟩

/-- The loop `while (1)` of `find` over the leaves. -/
def find_scan (dir_id : Int) (name : List Nat) (type : Int) (id_or_loc : Int) :
    Nat → FILE → Nat → Option (Int × FILE)
  | 0, _, _ => none
  | fuel + 1, p, n =>
    let r := find_leaf n dir_id name type id_or_loc (nd_size n).toNat p 0
    match r.1 with
    | some v => some (v, r.2)
    | none =>
      if nd_right n = -1 then some (-1, r.2)
      else if (nd_keyI n (nd_size n - 1)).dir_id = ofInt32 dir_id then
        let q := read_node r.2 (nd_right n)
        find_scan dir_id name type id_or_loc fuel q.2 q.1
      else some (-1, r.2)

/-- Model of `find`: with `id_or_loc = 0` the id stored in the stat block of the entry, else
the inode offset stored in the leaf; `-1` when nothing matches. -/
def find (fuel : Nat) (p : FILE) (sb : Nat) (dir_id : Int) (name : List Nat) (type : Int)
    (id_or_loc : Int) : Option (Int × FILE) :=
  if sb_root sb = -1 then some (-1, p)
  else
    let rn := read_node p (sb_root sb)
    match find_descend dir_id fuel rn.2 rn.1 (sb_root sb) with
    | none => none
    | some (p1, n1, c1) =>
      match find_left dir_id fuel p1 n1 c1 with
      | none => none
      | some (p2, n2, _) => find_scan dir_id name type id_or_loc fuel p2 n2

/-- One line printed by `ls`, with the key and link of the leaf entry it was printed for. -/
structure LsRow where
  key : Key
  link : Int
  isFile : Bool
  name : List Nat
  ltime : List Nat
deriving DecidableEq, Repr

/-- The `for` loop of `ls` over the keys `i ..` of one leaf: the rows printed. -/
def ls_leaf (n : Nat) (dir_id : Int) : Nat → FILE → Nat → List LsRow × FILE
  | 0, p, _ => ([], p)
  | fuel + 1, p, i =>
    if (i : Int) < nd_size n then
      if (nd_key n i).dir_id = ofInt32 dir_id then
        let ri := fread (fseek p (nd_link n i)) 64
        let rs := fread (fseek ri.2 (in_f ri.1 0)) 4096
        let rest := ls_leaf n dir_id fuel rs.2 (i + 1)
        (⟨nd_key n i, nd_link n i, decide (st_type rs.1 = 4), cstring rs.1 28 4068,
          cstring rs.1 309 3787⟩ :: rest.1, rest.2)
      else ls_leaf n dir_id fuel p (i + 1)
    else ([], p)

/-- The loop `while (1)` of `ls` over the leaves. -/
def ls_scan (dir_id : Int) : Nat → FILE → Nat → Option (List LsRow × FILE)
  | 0, _, _ => none
  | fuel + 1, p, n =>
    let r := ls_leaf n dir_id (nd_size n).toNat p 0
    if nd_right n = -1 then some r
    else
      let q := read_node r.2 (nd_right n)
      if (nd_key q.1 0).dir_id ≠ ofInt32 dir_id then some (r.1, q.2)
      else
        match ls_scan dir_id fuel q.2 q.1 with
        | none => none
        | some rest => some (r.1 ++ rest.1, rest.2)

/-- Model of `ls`: the rows it prints, in order. -/
def ls (fuel : Nat) (p : FILE) (sb : Nat) (dir_id : Int) : Option (List LsRow × FILE) :=
  if sb_root sb = -1 then some ([], p)
  else
    let rn := read_node p (sb_root sb)
    match find_descend dir_id fuel rn.2 rn.1 (sb_root sb) with
    | none => none
    | some (p1, n1, c1) =>
      match find_left dir_id fuel p1 n1 c1 with
      | none => none
      | some (p2, n2, _) => ls_scan dir_id fuel p2 n2

/-- The part of `new_empty_file_dir` that creates one entry with key `k`: inode slot, stat
block, inode and stat written, key inserted.  The flag is `false` when no block is free
(the C function then returns `-1`), else the `Int` is `inode_loc`; `ino` and `s` are the
local structs `in` and `s`. -/
def create_entry (junk fuel : Nat) (t : List Nat) (p : FILE) (sb : Nat) (ino s : Nat) (k : Key)
    (type : Int) (name : List Nat) : Option (Bool × Int × FILE × Nat × Nat × Nat) :=
  match get_inode p sb with
  | none => none
  | some gi =>
    let inode_loc := gi.1
    let gb := get_free_block gi.2 sb
    if gb.1 = -1 then some (false, inode_loc, gb.2, sb, ino, s)
    else
      let p1 := use_block gb.2 gb.1
      let stat_loc := wrap32 (gb.1 * 4096)
      let ino1 := in_set_f (in_set_f ino 0 stat_loc) 1 (-1)
      let s1 := init_stat s k inode_loc type name t
      let p2 := fwrite (fseek p1 inode_loc) 64 ino1
      let p3 := fwrite (fseek p2 stat_loc) 4096 s1
      match insert junk fuel p3 (toInt32 k.id) (toInt32 k.dir_id) inode_loc sb with
      | none => none
      | some (p4, sb1) => some (true, inode_loc, p4, sb1, ino1, s1)

/-- Model of `new_empty_file_dir`: the returned `int`, the stream and the in-memory
superblock.  `".."` is `[46, 46]`. -/
def new_empty_file_dir (junk fuel : Nat) (t : List Nat) (p : FILE) (sb : Nat) (name : List Nat)
    (dir_id : Int) (type : Int) : Option (Int × FILE × Nat) :=
  match find fuel p sb dir_id name type 0 with
  | none => none
  | some (found, p0) =>
    if found ≠ -1 then some (-2, p0, sb)
    else
      let g := get_id name p0 sb
      let k : Key := ⟨ofInt32 dir_id, ofInt32 g.1⟩
      match create_entry junk fuel t g.2.1 g.2.2 junk junk k type name with
      | none => none
      | some (ok1, loc1, p1, sb1, ino1, s1) =>
        if ok1 = false then some (-1, p1, sb1)
        else if type = 2 then
          let k2 : Key := ⟨k.id, ofInt32 dir_id⟩
          match create_entry junk fuel t p1 sb1 ino1 s1 k2 type [46, 46] with
          | none => none
          | some (ok2, loc2, p2, sb2, _, _) =>
            if ok2 = false then some (-1, p2, sb2)
            else some (loc2, fwrite (fseek p2 0) 4096 sb2, sb2)
        else some (loc1, fwrite (fseek p1 0) 4096 sb1, sb1)

/-- The name `batch_file_<i>` that `sprintf` builds. -/
def batch_name (i : Nat) : List Nat :=
  [98, 97, 116, 99, 104, 95, 102, 105, 108, 101, 95] ++ (Nat.toDigits 10 i).map Char.toNat

/-- Model of `batch_create_files`: the loop from `i` while `i < n`. -/
def batch_create_files (junk fuel : Nat) (t : List Nat) (dir_id : Int) :
    Nat → FILE → Nat → Nat → Nat → Option (FILE × Nat)
  | 0, _, _, _, _ => none
  | steps + 1, p, sb, i, n =>
    if i < n then
      match new_empty_file_dir junk fuel t p sb (batch_name i) dir_id 4 with
      | none => none
      | some (tmp, p1, sb1) =>
        batch_create_files junk fuel t dir_id steps p1 sb1 (i + 1) (if tmp = -2 then n + 1 else n)
    else some (p, sb)

/-- A run of `get_id` calls on one image, the superblock read from block 0 before each call
(as `main` does before each command): the ids returned, in order. -/
def get_id_run : List (List Nat) → FILE → List Int
  | [], _ => []
  | name :: rest, p =>
    let r := fread (fseek p 0) 4096
    let g := get_id name r.2 r.1
    g.1 :: get_id_run rest g.2.1

/-- Byte offset of the bitmap byte that holds the bit of block `n`. -/
def bit_loc (n : Nat) : Nat := (n / 32768 + 2) * 4096 + n % 32768 / 8

/-! ## Example images -/

/-- The string "Thu Jan  1 00:00:00 1970" (24 characters), a value of `get_time`. -/
def sample_time : List Nat :=
  [84, 104, 117, 32, 74, 97, 110, 32, 32, 49, 32, 48, 48, 58, 48, 48, 58, 48, 48, 32, 49, 57, 55, 48]

/-- A zero-filled host file of 640 blocks (2.5 MiB) after `makefs`: stream and superblock. -/
def fresh640 : FILE × Nat := makefs ⟨0, 2621440, 0⟩ 0

/-- The call `new_empty_file_dir("a", 1, 4)` on `fresh640`. -/
def fresh640_create_a : Option (Int × FILE × Nat) :=
  new_empty_file_dir 0 4 sample_time fresh640.1 fresh640.2 [97] 1 4

/-- Stream and superblock after `fresh640_create_a`. -/
def fresh640_a : FILE × Nat := (fresh640_create_a.getD (0, fresh640)).2

/-- A host file of 256 blocks (1 MiB) whose bytes are all `0xFF`, after `makefs`. -/
def ones256 : FILE × Nat := makefs ⟨mask 1048576, 1048576, 0⟩ 0

/-- The call `new_empty_file_dir("a", 1, 4)` on `ones256`. -/
def ones256_create_a : Option (Int × FILE × Nat) :=
  new_empty_file_dir 0 4 sample_time ones256.1 ones256.2 [97] 1 4

/-- A zero-filled host file of 3840 blocks (15 MiB) after `makefs`: 384 inode slots in
blocks 3..8, first data block 9. -/
def fresh3840 : FILE × Nat := makefs ⟨0, 15728640, 0⟩ 0

/-- Parent directory of creation `j` of `full_image`: 16 files under directory 1000, one
file under 500, 169 files under 5, 152 files under 2000. -/
def full_dir (j : Nat) : Nat :=
  if j < 16 then 1000 else if j = 16 then 500 else if j < 186 then 5 else 2000

/-- Name of creation `j` of `full_image`: `batch_file_<i>` in the three batches, `"x"` for
creation 16. -/
def full_name (j : Nat) : List Nat :=
  if j < 16 then batch_name j else if j = 16 then [120]
  else if j < 186 then batch_name (j - 17) else batch_name (j - 186)

/-- Stat block of creation `j` of `full_image` (`j < 338`): id `2 + j`, inode slot `j`. -/
def full_stat (j : Nat) : Nat :=
  if j < 338 then
    init_stat 0 ⟨full_dir j, 2 + j⟩ (12288 + 64 * (j : Int)) 4 (full_name j) sample_time
  else 0

/-- Inode of creation `j` of `full_image`: its stat block is block 9 for `j = 0` and block
`10 + j` after (block 10 is the root leaf). -/
def full_inode (j : Nat) : Nat :=
  if j < 338 then in_set_f (in_set_f 0 0 (if j = 0 then 36864 else 4096 * (10 + (j : Int)))) 1 (-1)
  else 0

/-- The records `f lo, f (lo + 1), ..`, `2 ^ d` of them and `w` bytes each, as one byte
string. -/
def concat (f : Nat → Nat) (w : Nat) : Nat → Nat → Nat
  | 0, lo => f lo
  | d + 1, lo => concat f w d lo + (concat f w d (lo + 2 ^ d)) <<< (8 * w * 2 ^ d)

/-- Keys and links `i .. i+n` of the root leaf of `full_image`, in key order: the 169 keys
of directory 5, the key `(500, 18)`, the 16 keys of directory 1000, the 152 keys of
directory 2000. -/
def full_leaf : Nat → Nat → Nat → Nat
  | 0, _, nd => nd
  | n + 1, i, nd =>
    let j := if i < 169 then 17 + i else if i = 169 then 16 else if i < 186 then i - 170 else i
    full_leaf n (i + 1) (nd_set_link (nd_set_key nd i ⟨full_dir j, 2 + j⟩) i (12288 + 64 * (j : Int)))

/-- The image that `makefs` on a zero-filled file of 3840 blocks, then
`batch_create_files(16)` under directory 1000, `new_empty_file_dir("x", 500, 4)`,
`batch_create_files(169)` under directory 5 and `batch_create_files(152)` under directory
2000 leave, written down directly: 338 inodes and stat blocks, blocks 9..347 marked, one root
leaf of 338 keys at block 10, `root = 40960`, `idcounter = 340`. -/
def full_image : FILE × Nat :=
  let sb := setInt (setInt fresh3840.2 32 40960) 40 340
  let p1 := use_blocks 339 fresh3840.1 9
  let p2 := fwrite (fseek p1 12288) 21632 (concat full_inode 64 9 0)
  let p3 := fwrite (fseek p2 36864) 4096 (full_stat 0)
  let p4 := fwrite (fseek p3 45056) 1380352 (concat full_stat 4096 9 1)
  let leaf := nd_set_size (nd_set_isLeaf (full_leaf 338 0 (get_node_init 0)) 1) 338
  let p5 := fwrite (fseek p4 40960) 4096 leaf
  (fwrite (fseek (update_sb p5 sb) 0) 4096 sb, sb)

/-- The call `new_empty_file_dir("d", 1, 2)` (mkdir) on `full_image`: the new directory gets
id 340; its first key `(1, 340)` fills the root leaf and its second key `(340, 1)` is the
340th key and splits it. -/
def full_mkdir : Option (Int × FILE × Nat) :=
  new_empty_file_dir 0 8 sample_time full_image.1 full_image.2 [100] 1 2

/-- A zero-filled host file of 256 blocks (1 MiB) after `makefs`: `n_inodes = 26`, no inode
slot holds `-1`. -/
def zeros256 : FILE × Nat := makefs ⟨0, 1048576, 0⟩ 0

/-- The call `new_empty_file_dir("a", 1, 4)` on `zeros256`. -/
def zeros256_create_a : Option (Int × FILE × Nat) :=
  new_empty_file_dir 0 4 sample_time zeros256.1 zeros256.2 [97] 1 4

/-- The call `new_empty_file_dir("/", 1, 2)` on `fresh640`. -/
def fresh640_mkdir_slash : Option (Int × FILE × Nat) :=
  new_empty_file_dir 0 4 sample_time fresh640.1 fresh640.2 [47] 1 2

/-- The calls `new_empty_file_dir("a", 3, 4)` and then `new_empty_file_dir("d", 2, 2)` on
`fresh640`. -/
def fresh640_a_then_d : Option (Int × FILE × Nat) :=
  (new_empty_file_dir 0 4 sample_time fresh640.1 fresh640.2 [97] 3 4).bind fun r =>
    new_empty_file_dir 0 4 sample_time r.2.1 r.2.2 [100] 2 2

/-! ## import and extract -/

/-- Model of `fread(buf, len, 1, f)` on a host file: at most the bytes up to the end of the
file are read, the rest of `buf` keeps what it held. -/
def fread_buf : FILE → Nat → Nat → Nat × FILE
  | ⟨data, size, pos⟩, len, buf =>
    (setBytes buf 0 (min len (size - pos)) (getBytes data pos (min len (size - pos))),
      ⟨data, size, pos + min len (size - pos)⟩)

/-- The values `blocks_req` and `lastblockbytes` that `import` computes from `size`. -/
def import_sizes (size : Int) : Int × Int :=
  if size.tmod 4096 ≠ 0 then (wrap32 (size.tdiv 4096 + 1), size.tmod 4096)
  else (size.tdiv 4096, 4096)

/-- Locals of `import` that its loops update: the image stream, the host stream, the buffer
`block`, `count` and `lastblock`. -/
structure ImpSt where
  p : FILE
  f : FILE
  block : Nat
  count : Int
  lastblock : Int

/-- The part common to the three copying loops of `import`: take a free block, mark it, read
the next 4096 bytes of the host file and write the buffer to the block.  Returns the new
locals and `freeblock` (a byte offset). -/
def import_data_block (sb : Nat) : ImpSt → ImpSt × Int
  | ⟨p, f, block, count, _⟩ =>
    let g := get_free_block p sb
    let p1 := use_block g.2 g.1
    let fb := wrap32 (g.1 * 4096)
    let r := fread_buf f 4096 block
    (⟨fwrite (fseek p1 fb) 4096 r.1, r.2, r.1, wrap32 (count + 1), fb⟩, fb)

/-- The loop `for (i = 1, count = 0; (i < 14) && (count < blocks_req); ++i)` of `import`
from `i`, at most `n` iterations; `ino` is the local `struct inode in`. -/
def import_direct (sb : Nat) (blocks_req : Int) : Nat → Nat → ImpSt → Nat → ImpSt × Nat
  | 0, _, s, ino => (s, ino)
  | n + 1, i, s, ino =>
    if i < 14 ∧ s.count < blocks_req then
      let r := import_data_block sb s
      import_direct sb blocks_req n (i + 1) r.1 (in_set_f (in_set_f ino i r.2) (i + 1) (-1))
    else (s, ino)

/-- The loop `for (i = 0; (i < 1024) && (count < blocks_req); ++i)` that fills the array
`indirect` (`arr`), from `i`, at most `n` iterations. -/
def import_indirect (sb : Nat) (blocks_req : Int) : Nat → Nat → ImpSt → Nat → ImpSt × Nat
  | 0, _, s, arr => (s, arr)
  | n + 1, i, s, arr =>
    if i < 1024 ∧ s.count < blocks_req then
      let r := import_data_block sb s
      import_indirect sb blocks_req n (i + 1) r.1 (setInt arr (4 * i) r.2)
    else (s, arr)

/-- Take a free block, mark it and write the pointer array `arr` to it: the stream and the
block's byte offset. -/
def import_table (sb : Nat) (p : FILE) (arr : Nat) : FILE × Int :=
  let g := get_free_block p sb
  let p1 := use_block g.2 g.1
  let fb := wrap32 (g.1 * 4096)
  (fwrite (fseek p1 fb) 4096 arr, fb)

/-- The outer loop of the double-indirect part of `import`, from `i`, at most `n`
iterations; `darr` is the array `d_indirect`.  An array of 1024 `int`s all `-1` is
`mask 4096`. -/
def import_double (sb : Nat) (blocks_req : Int) : Nat → Nat → ImpSt → Nat → ImpSt × Nat
  | 0, _, s, darr => (s, darr)
  | n + 1, i, s, darr =>
    if i < 1024 ∧ s.count < blocks_req then
      let r := import_indirect sb blocks_req 1024 0 s (mask 4096)
      let tb := import_table sb r.1.p r.2
      import_double sb blocks_req n (i + 1)
        ⟨tb.1, r.1.f, r.1.block, r.1.count, r.1.lastblock⟩ (setInt darr (4 * i) tb.2)
    else (s, darr)

/-- The loop `for (i = 1; i < 16; ++i) in.f[i] = -1;`. -/
def import_clear : Nat → Nat → Nat
  | 0, ino => ino
  | n + 1, ino => in_set_f (import_clear n ino) (n + 1) (-1)

/-- The three copying phases of `import` (direct blocks, single indirect, double indirect)
after the inode has been read and cleared: the locals and the inode `in` at `fclose(f)`.
`lastblock0` is the initial value of the uninitialised local `lastblock`. -/
def import_blocks (sb : Nat) (blocks_req lastblock0 : Int) (p f : FILE) (ino : Nat) :
    ImpSt × Nat :=
  let d := import_direct sb blocks_req 13 1 ⟨p, fseek f 0, 0, 0, lastblock0⟩ ino
  let a : ImpSt × Nat :=
    if d.1.count < blocks_req then
      let x := import_indirect sb blocks_req 1024 0 d.1 (mask 4096)
      let tb := import_table sb x.1.p x.2
      (⟨tb.1, x.1.f, x.1.block, x.1.count, x.1.lastblock⟩, in_set_f d.2 14 tb.2)
    else d
  if a.1.count < blocks_req then
    let x := import_double sb blocks_req 1024 0 a.1 (mask 4096)
    let tb := import_table sb x.1.p x.2
    (⟨tb.1, x.1.f, x.1.block, x.1.count, x.1.lastblock⟩, in_set_f a.2 15 tb.2)
  else a

/-- The end of `import`: the stat block at `in.f[0]` is read, gets `lastblock`,
`lastblockbytes` and `blocks`, and is written back; then the inode is written. -/
def import_finish (p : FILE) (ino : Nat) (inode_loc lastblock lastblockbytes blocks_req : Int) :
    FILE :=
  let rs := fread (fseek p (in_f ino 0)) 4096
  let s1 := setInt (setInt (setInt rs.1 16 lastblock) 20 lastblockbytes) 364 blocks_req
  let p2 := fwrite (fseek rs.2 (in_f ino 0)) 4096 s1
  fwrite (fseek p2 inode_loc) 64 ino

/-- Model of `import`: `f` is the opened host file, whose size `ftell` returns and the `int`
`size` receives; `junk` also gives the initial value of the uninitialised local `lastblock`.
Returns the image stream and the in-memory superblock. -/
def import_file (junk fuel : Nat) (t : List Nat) (p : FILE) (sb : Nat) (f : FILE) (dir_id : Int)
    (name : List Nat) : Option (FILE × Nat) :=
  match new_empty_file_dir junk fuel t p sb name dir_id 4 with
  | none => none
  | some (inode_loc, p1, sb1) =>
    let r := fread (fseek p1 inode_loc) 64
    let b := import_blocks sb1 (import_sizes (toInt32 f.size)).1 (getInt junk 0) r.2 f
      (import_clear 15 r.1)
    some (import_finish b.1.p b.2 inode_loc b.1.lastblock (import_sizes (toInt32 f.size)).2
      (import_sizes (toInt32 f.size)).1, sb1)

/-- Locals of `extract` that its loops update: the image stream, the host file being
written, `count`, and whether the function has returned (the last block was written). -/
structure ExtSt where
  p : FILE
  g : FILE
  count : Int
  done : Bool

/-- The body common to the three copying loops of `extract` for the block at offset `loc`:
the last block (`loc == lb`) is written with `lbb` bytes and the function returns, any other
block is written whole. -/
def extract_block (lb lbb : Int) (loc : Int) : ExtSt → ExtSt
  | ⟨p, g, count, _⟩ =>
    let r := fread (fseek p loc) 4096
    if loc = lb then ⟨r.2, fwrite g lbb.toNat r.1, wrap32 (count + 1), true⟩
    else ⟨r.2, fwrite g 4096 r.1, wrap32 (count + 1), false⟩

/-- A loop `for (i = ..; (i < bound) && (arr[i] != -1) && (count < blocks); ++i)` of
`extract` over the `int` array `arr` (the inode or an indirect block), from `i`, at most `n`
iterations. -/
def extract_loop (lb lbb blocks : Int) (arr : Nat) (bound : Nat) : Nat → Nat → ExtSt → ExtSt
  | 0, _, s => s
  | n + 1, i, s =>
    if s.done = false ∧ i < bound ∧ getInt arr (4 * i) ≠ -1 ∧ s.count < blocks then
      extract_loop lb lbb blocks arr bound n (i + 1) (extract_block lb lbb (getInt arr (4 * i)) s)
    else s

/-- The outer loop of the double-indirect part of `extract` over `d_indirect` (`darr`). -/
def extract_double (lb lbb blocks : Int) (darr : Nat) : Nat → Nat → ExtSt → ExtSt
  | 0, _, s => s
  | n + 1, i, s =>
    if s.done = false ∧ i < 1024 ∧ getInt darr (4 * i) ≠ -1 ∧ s.count < blocks then
      let r := fread (fseek s.p (getInt darr (4 * i))) 4096
      extract_double lb lbb blocks darr n (i + 1)
        (extract_loop lb lbb blocks r.1 1024 1024 0 ⟨r.2, s.g, s.count, s.done⟩)
    else s

/-- Model of `extract`: the host file written (`none` when `find` returns `-1` and no file
is opened) and the image stream. -/
def extract (fuel : Nat) (p : FILE) (sb : Nat) (dir_id : Int) (name : List Nat) :
    Option (Option FILE × FILE) :=
  match find fuel p sb dir_id name 4 1 with
  | none => none
  | some (inode_loc, p0) =>
    if inode_loc = -1 then some (none, p0)
    else
      let ri := fread (fseek p0 inode_loc) 64
      let rs := fread (fseek ri.2 (in_f ri.1 0)) 4096
      let lb := st_lastblock rs.1
      let lbb := st_lastblockbytes rs.1
      let blocks := st_blocks rs.1
      let s1 := extract_loop lb lbb blocks ri.1 14 13 1 ⟨rs.2, ⟨0, 0, 0⟩, 0, false⟩
      let s2 : ExtSt :=
        if s1.done = false ∧ in_f ri.1 14 ≠ -1 ∧ s1.count < blocks then
          let r := fread (fseek s1.p (in_f ri.1 14)) 4096
          extract_loop lb lbb blocks r.1 1024 1024 0 ⟨r.2, s1.g, s1.count, s1.done⟩
        else s1
      let s3 : ExtSt :=
        if s2.done = false ∧ in_f ri.1 15 ≠ -1 ∧ s2.count < blocks then
          let r := fread (fseek s2.p (in_f ri.1 15)) 4096
          extract_double lb lbb blocks r.1 1024 0 ⟨r.2, s2.g, s2.count, s2.done⟩
        else s2
      some (some s3.g, s3.p)


/-- A host file of `n` bytes, every byte the character `A` (65). -/
def host_As (n : Nat) : FILE := ⟨65 * ((256 ^ n - 1) / 255), n, 0⟩

/-- The call `import` of the 5-byte host file `AAAAA` as `"h"` under directory 1 on
`ones256`. -/
def ones256_import : Option (FILE × Nat) :=
  import_file 0 8 sample_time ones256.1 ones256.2 (host_As 5) 1 [104]

/-- The call `import` of a 5000-byte host file as `"h"` under directory 1 on `fresh640`. -/
def fresh640_import : Option (FILE × Nat) :=
  import_file 0 8 sample_time fresh640.1 fresh640.2 (host_As 5000) 1 [104]

/-- The call `import` of a zero-filled host file of `2^32 + 5000` bytes as `"h"` under
directory 1 on `fresh640`. -/
def fresh640_import_big : Option (FILE × Nat) :=
  import_file 0 8 sample_time fresh640.1 fresh640.2 ⟨0, 4294972296, 0⟩ 1 [104]

/-- Stream and superblock after `new_empty_file_dir("h", 1, 4)` on `fresh640`, the call
that `import` makes first. -/
def fresh640_h : FILE × Nat :=
  ((new_empty_file_dir 0 8 sample_time fresh640.1 fresh640.2 [104] 1 4).getD (0, fresh640)).2

/-! ## A three-level example tree -/

/-- Key `t` of leaf `c` of `tree_image`: directory 1, id `700 * c + 2 * t + 2`. -/
def tree_key (c t : Nat) : Key := ⟨1, 700 * c + 2 * t + 2⟩

/-- Byte offset of leaf `c` of `tree_image`: block `10 + c`. -/
def tree_off (c : Nat) : Int := 4096 * (10 + (c : Int))

/-- The 8 bytes of a key as stored in a node: `dir_id`, then `id`. -/
def key_bytes (k : Key) : Nat := k.dir_id % 4294967296 + 4294967296 * (k.id % 4294967296)

/-- The key array of leaf 0 of `tree_image`, 512 records of 8 bytes: record `t` is
`tree_key 0 t`. -/
def tree_keys0 : Nat := concat (fun t => key_bytes (tree_key 0 t)) 8 9 0

/-- An array of 512 records of 8 bytes, each holding the number 1. -/
def tree_ones : Nat := concat (fun _ => 1) 8 9 0

/-- The link array of every leaf of `tree_image`, 512 `int`s: link `t` is the inode offset
`12288 + 64 * t` (the inodes themselves are not part of the image: `insert` does not read
them). -/
def tree_links : Nat := concat (fun t => 12288 + 64 * t) 4 9 0

/-- Leaf `c` of `tree_image` (`c < 173`): 170 keys, leaf 1 has 339 (it is full); key `t` is
`tree_key c t`, that of leaf 0 with `700 * c` added to the id; parent is the root at 36864,
left and right are the neighbouring leaves.  Unused keys and links are `-1`, as `get_node`
leaves them. -/
def tree_leaf (c : Nat) : Nat :=
  if c < 173 then
    let size : Nat := if c = 1 then 339 else 170
    let n1 := nd_set_size (nd_set_isLeaf (nd_set_parent (get_node_init 0) 36864) 1) (size : Int)
    let n2 := nd_set_left n1 (if c = 0 then -1 else tree_off (c - 1))
    let n3 := nd_set_right n2 (if c = 172 then -1 else tree_off (c + 1))
    let n4 := setBytes n3 12 (8 * size) (tree_keys0 + 4294967296 * (700 * c) * tree_ones)
    setBytes n4 2724 (4 * size) tree_links
  else 0

/-- Root of `tree_image`: an internal node with 172 keys and 173 links; key `c` is the first
key of leaf `c + 1`, link `c` is the offset of leaf `c`. -/
def tree_root : Nat :=
  let n1 := nd_set_size (get_node_init 0) 172
  let n2 := setBytes n1 12 (8 * 172) (concat (fun c => key_bytes (tree_key (c + 1) 0)) 8 8 0)
  setBytes n2 2724 (4 * 173) (concat (fun c => 40960 + 4096 * c) 4 8 0)

/-- A well-formed B+ tree on a formatted 3840-block image: the root at block 9, the leaves
0..172 at blocks 10..182, all marked in the bitmap; `root = 36864`, `idcounter = 125000`. -/
def tree_image : FILE × Nat :=
  let sb := setInt (setInt fresh3840.2 32 36864) 40 125000
  let p1 := use_blocks 174 fresh3840.1 9
  let p2 := fwrite (fseek p1 36864) 4096 tree_root
  let p3 := fwrite (fseek p2 40960) 708608 (concat tree_leaf 4096 8 0)
  (update_sb p3 sb, sb)

/-- The call `insert(p, 119003, 1, 12288, sb)` on `tree_image`: the key `(1, 119003)`
belongs to leaf 170. -/
def tree_insert_170 : Option (FILE × Nat) := insert 0 8 tree_image.1 119003 1 12288 tree_image.2

/-- The call `insert(p, 703, 1, 12288, sb)` on `tree_image`: the key `(1, 703)` belongs
to leaf 1, which is full and has leaves 0 and 2 as neighbours. -/
def tree_insert_1 : Option (FILE × Nat) := insert 0 8 tree_image.1 703 1 12288 tree_image.2

/-- Rank of key `i` of node `nd` in the lexicographic order of `(dir_id, id)`, both read as
unsigned 32-bit numbers: `dir_id * 2^32 + id`. -/
def key_rank (nd : Nat) (i : Nat) : Nat :=
  getBytes nd (12 + 8 * i) 4 * 4294967296 + getBytes nd (16 + 8 * i) 4

/-- Whether the keys `i .. i+n` of node `nd` are strictly ascending. -/
def keys_ascending (nd : Nat) : Nat → Nat → Bool
  | 0, _ => true
  | n + 1, i => decide (key_rank nd i < key_rank nd (i + 1)) && keys_ascending nd n (i + 1)

/-- Whether none of the keys `i .. i+n-1` of node `nd` has rank `k`. -/
def keys_lack (nd : Nat) (k : Nat) : Nat → Nat → Bool
  | 0, _ => true
  | n + 1, i => decide (key_rank nd i ≠ k) && keys_lack nd k n (i + 1)

/-- Whether the node `nd` is child `i` of the internal node `r` at offset `root` in a
well-formed tree of height two: a leaf of 1 to 339 strictly ascending keys with parent
`root`, whose first key is not below the key of `r` before its link and whose last key is
below the key of `r` after its link, and whose `left` and `right` are the links of `r` next
to its own (`-1` at the ends). -/
def leaf_ok (r : Nat) (root : Int) (i : Nat) (nd : Nat) : Bool :=
  decide (nd_isLeaf nd = 1) && decide (nd_parent nd = root) &&
  decide (1 ≤ nd_size nd) && decide (nd_size nd ≤ 339) &&
  keys_ascending nd ((nd_size nd).toNat - 1) 0 &&
  decide (i = 0 ∨ key_rank r (i - 1) ≤ key_rank nd 0) &&
  decide ((i : Int) = nd_size r ∨ key_rank nd ((nd_size nd).toNat - 1) < key_rank r i) &&
  decide (nd_left nd = if i = 0 then -1 else nd_link r (i - 1)) &&
  decide (nd_right nd = if (i : Int) = nd_size r then -1 else nd_link r (i + 1))

/-- Whether the image holds at offset `root` a well-formed tree of height two: an internal
node of 1 to 339 strictly ascending keys, each of whose `size + 1` links is the offset of a
leaf for which `leaf_ok` holds. -/
def tree_ok (p : FILE) (root : Int) : Bool :=
  decide (nd_isLeaf (getBytes p.data root.toNat 4096) = 0) &&
  decide (1 ≤ nd_size (getBytes p.data root.toNat 4096)) &&
  decide (nd_size (getBytes p.data root.toNat 4096) ≤ 339) &&
  keys_ascending (getBytes p.data root.toNat 4096)
    ((nd_size (getBytes p.data root.toNat 4096)).toNat - 1) 0 &&
  (List.range ((nd_size (getBytes p.data root.toNat 4096)).toNat + 1)).all fun i =>
    decide (0 ≤ nd_link (getBytes p.data root.toNat 4096) i) &&
    leaf_ok (getBytes p.data root.toNat 4096) root i
      (getBytes p.data (nd_link (getBytes p.data root.toNat 4096) i).toNat 4096)

/-- Whether no leaf of the tree of height two at offset `root` holds a key of rank `k`. -/
def tree_lacks (p : FILE) (root : Int) (k : Nat) : Bool :=
  (List.range ((nd_size (getBytes p.data root.toNat 4096)).toNat + 1)).all fun i =>
    keys_lack (getBytes p.data (nd_link (getBytes p.data root.toNat 4096) i).toNat 4096) k
      (nd_size (getBytes p.data (nd_link (getBytes p.data root.toNat 4096) i).toNat 4096)).toNat 0

/-- Whether every leaf of the tree of height two at offset `root` has a first key of rank
above `k`, or a last key of rank below `k`, or no key of rank `k`: for a well-formed tree
(`tree_ok`) this is `tree_lacks`, see `tree_lacks_of_ranges`. -/
def tree_lacks_ranges (p : FILE) (root : Int) (k : Nat) : Bool :=
  (List.range ((nd_size (getBytes p.data root.toNat 4096)).toNat + 1)).all fun i =>
    decide (k < key_rank
      (getBytes p.data (nd_link (getBytes p.data root.toNat 4096) i).toNat 4096) 0) ||
    decide (key_rank (getBytes p.data (nd_link (getBytes p.data root.toNat 4096) i).toNat 4096)
      ((nd_size (getBytes p.data (nd_link (getBytes p.data root.toNat 4096) i).toNat
        4096)).toNat - 1) < k) ||
    keys_lack (getBytes p.data (nd_link (getBytes p.data root.toNat 4096) i).toNat 4096) k
      (nd_size (getBytes p.data (nd_link (getBytes p.data root.toNat 4096) i).toNat 4096)).toNat 0

/-- The number `key_rank nd i`, computed with shifts (`key_rank_shift_eq`). -/
def key_rank_shift (nd i : Nat) : Nat :=
  Nat.add
    (Nat.mul (Nat.mod (Nat.shiftRight nd (Nat.add 96 (Nat.mul 64 i))) 4294967296) 4294967296)
    (Nat.mod (Nat.shiftRight nd (Nat.add 128 (Nat.mul 64 i))) 4294967296)

/-- Whether the keys `0 .. n-1` of node `nd` are strictly ascending and the last of them
has rank below `hi`. -/
def keys_below (nd : Nat) : Nat → Nat → Bool
  | 0, _ => true
  | n + 1, hi => Nat.blt (key_rank_shift nd n) hi && keys_below nd n (key_rank_shift nd n)

/-- The test `leaf_ok` with the ascending keys checked by `keys_below`. -/
def leaf_ok_shift (r : Nat) (root : Int) (i : Nat) (nd : Nat) : Bool :=
  decide (nd_isLeaf nd = 1) && decide (nd_parent nd = root) &&
  decide (1 ≤ nd_size nd) && decide (nd_size nd ≤ 339) &&
  keys_below nd ((nd_size nd).toNat - 1) (key_rank_shift nd ((nd_size nd).toNat - 1)) &&
  decide (i = 0 ∨ key_rank r (i - 1) ≤ key_rank nd 0) &&
  decide ((i : Int) = nd_size r ∨ key_rank nd ((nd_size nd).toNat - 1) < key_rank r i) &&
  decide (nd_left nd = if i = 0 then -1 else nd_link r (i - 1)) &&
  decide (nd_right nd = if (i : Int) = nd_size r then -1 else nd_link r (i + 1))

/-- The test `tree_ok` with the ascending keys checked by `keys_below`: it has the value of
`tree_ok` whenever it is true (`tree_ok_of_shift`) and is cheaper to evaluate. -/
def tree_ok_shift (p : FILE) (root : Int) : Bool :=
  decide (nd_isLeaf (getBytes p.data root.toNat 4096) = 0) &&
  decide (1 ≤ nd_size (getBytes p.data root.toNat 4096)) &&
  decide (nd_size (getBytes p.data root.toNat 4096) ≤ 339) &&
  keys_below (getBytes p.data root.toNat 4096)
    ((nd_size (getBytes p.data root.toNat 4096)).toNat - 1)
    (key_rank_shift (getBytes p.data root.toNat 4096)
      ((nd_size (getBytes p.data root.toNat 4096)).toNat - 1)) &&
  (List.range ((nd_size (getBytes p.data root.toNat 4096)).toNat + 1)).all fun i =>
    decide (0 ≤ nd_link (getBytes p.data root.toNat 4096) i) &&
    leaf_ok_shift (getBytes p.data root.toNat 4096) root i
      (getBytes p.data (nd_link (getBytes p.data root.toNat 4096) i).toNat 4096)

/-- A variant of `tree_image` in which a data block follows leaf 170: leaf 171 is moved to
block 183 (offset 749568; root link 171 and the neighbour pointers of leaves 170 and 172
follow it), and block 181 (offset 741376) holds file data, zero except for the four bytes
`38 0 0 0` at offset 2724. -/
def tree_image_data : FILE × Nat :=
  let p1 := use_block tree_image.1 183
  let p2 := fwrite (fseek p1 749568) 4096 (getBytes tree_image.1.data 741376 4096)
  let p3 := fwrite (fseek p2 741376) 4096 (setInt 0 2724 38)
  let p4 := fwrite (fseek p3 36864) 4096 (nd_set_link (getBytes p3.data 36864 4096) 171 749568)
  let p5 := fwrite (fseek p4 737280) 4096 (nd_set_right (getBytes p4.data 737280 4096) 749568)
  let p6 := fwrite (fseek p5 745472) 4096 (nd_set_left (getBytes p5.data 745472 4096) 749568)
  (p6, tree_image.2)

/-- The call `insert(p, 119003, 1, 12288, sb)` on `tree_image_data`. -/
def tree_data_insert : Option (FILE × Nat) :=
  insert 0 8 tree_image_data.1 119003 1 12288 tree_image_data.2

/-! ## The search descent as specified (C21) -/

/-- The step of the search descent in the words of the specification: the link an internal
node `n` gives for the key `k` is `link[i]` for the smallest `i` in `[0, size)` with
`k < key[i]`, and `link[size]` if there is none. -/
def spec_child (n : Nat) (k : Key) : Int :=
  match (List.range (nd_size n).toNat).find? (fun i => decide (comparator k (nd_key n i) < 0)) with
  | some i => nd_link n i
  | none => nd_link n (nd_size n).toNat

/-- The search descent in the words of the specification: from the node at offset `curr`,
one `spec_child` step per internal node, stopping at the first leaf; the offset of that
leaf. -/
def spec_descend (data : Nat) (k : Key) : Nat → Int → Option Int
  | 0, _ => none
  | fuel + 1, curr =>
    if nd_isLeaf (getBytes data curr.toNat 4096) = 1 then some curr
    else spec_descend data k fuel (spec_child (getBytes data curr.toNat 4096) k)

/-- The descent loop of `insert` as `insert` runs it: the root is read, then the loop; the
node buffer `n` and `curr` when the loop ends. -/
def insert_descent (fuel : Nat) (p : FILE) (k : Key) (sb : Nat) : Option (Nat × Int) :=
  (insert_descend k fuel (read_node p (sb_root sb)).2 (read_node p (sb_root sb)).1
    (sb_root sb)).map (fun r => (r.2.1, r.2.2))

/-! ## Sequences of keys and links (C22, C23, C27) -/

/-- Key `j` of the sequence obtained from the keys of node `n` by inserting `k` at index `i`. -/
def ins_key (n : Nat) (k : Key) (i j : Nat) : Key :=
  if j < i then nd_key n j else if j = i then k else nd_key n (j - 1)

/-- Link `j` of the sequence obtained from the links of node `n` by inserting `v` at index
`i`. -/
def ins_link (n : Nat) (v : Int) (i j : Nat) : Int :=
  if j < i then nd_link n j else if j = i then v else nd_link n (j - 1)

/-- The first `size` keys of node `n` are strictly ascending: each is below the next in the
order of `comparator`. -/
def sorted_keys (n : Nat) (size : Nat) : Prop :=
  ∀ j, j + 1 < size → comparator (nd_key n j) (nd_key n (j + 1)) < 0

/-- Link `j` of an internal node after the children `l` and `r` have been put at index `i`:
the links below `i` stay, `l` and `r` take the places `i` and `i + 1`, and the old links
above `i` move up by one (the old link `i`, the child that was split, is replaced). -/
def ins_children (n : Nat) (l r : Int) (i j : Nat) : Int :=
  if j < i then nd_link n j else if j = i then l else if j = i + 1 then r else nd_link n (j - 1)

/-! ## An image of more than 2 GiB -/

/-- An image of 524290 blocks (2 GiB + 8 KiB) with 17 bitmap blocks in which the blocks
0 .. 524287 are all marked used and block 524288 is free; `sb` is the superblock stored in
blocks 0 and 1. -/
def huge_image (sb : Nat) : FILE :=
  ⟨setBytes (setBytes (mask 65536 <<< 65536) 0 4096 sb) 4096 4096 sb, 2147491840, 0⟩

/-- The superblock `makefs` builds for an image of 524290 blocks: `root = -1`,
`freeblocksmap = 17`. -/
def huge_sb : Nat := makefs_sb 2147491840 17 0

/-- The superblock `huge_sb` with `root = 36864`. -/
def huge_tree_sb : Nat := setInt huge_sb 32 36864

/-! ## The split of a full leaf (C23) -/

/-- The structs `tmp1` and `tmp2` of `insert` when its distributing loops have ended and
both sizes are set: `n` is the leaf being split, `t1` and `t2` are the nodes read from the
new offsets `l` and `r`. -/
def leaf_split (n : Nat) (k : Key) (block : Int) (l r : Int) (t1 t2 : Nat) : Nat × Nat :=
  let tmp1 := nd_set_isLeaf (nd_set_parent (nd_set_right (nd_set_left t1 (nd_left n)) r)
    (nd_parent n)) 1
  let tmp2 := nd_set_isLeaf (nd_set_parent (nd_set_left (nd_set_right t2 (nd_right n)) l)
    (nd_parent n)) 1
  let bound := (nd_size n).tdiv 2 + 1
  let s1 := leaf_split1 n k block bound bound.toNat ⟨0, 0, false, tmp1⟩
  let s2 := leaf_split2 n k block ((nd_size n).toNat + 1) ⟨s1.i, 0, s1.flag, tmp2⟩
  let s3 : SplitSt :=
    if s2.flag = false then
      ⟨s2.i, s2.j + 1, true, nd_set_link (nd_set_key s2.tmp s2.j k) s2.j block⟩
    else s2
  (nd_set_size s1.tmp s1.j, nd_set_size (nd_set_parent s3.tmp (nd_parent n)) s3.j)

/-- The end of the split in `insert`, after `promote` has returned `res` on the stream `p`:
both new leaves get `parent = res` and their `left` and `right`, `tmp2` is written at `r`
and `tmp1` at `l`, and the neighbours of the old leaf `n` are patched. -/
def leaf_split_write (p : FILE) (n : Nat) (l r res : Int) (tmp1 tmp2 : Nat) : FILE :=
  let tmp1b := nd_set_parent tmp1 res
  let tmp2b := nd_set_parent tmp2 res
  let tmp2c := nd_set_right (nd_set_left tmp2b l) (nd_right n)
  let p4 := fwrite (fseek p r) 4096 tmp2c
  let tmp1c := nd_set_right (nd_set_left tmp1b (nd_left n)) r
  let p5 := fwrite (fseek p4 l) 4096 tmp1c
  let p6 :=
    if nd_left n ≠ -1 then
      let q := fread (fseek p5 (nd_left n)) 4096
      fwrite (fseek q.2 (nd_left n)) 4096 (nd_set_right q.1 l)
    else p5
  let p7 :=
    if nd_right n ≠ -1 then
      let q := fread (fseek p6 (nd_right n)) 4096
      fwrite (fseek q.2 (nd_left n)) 4096 (nd_set_left q.1 r)
    else p6
  p7

/-- Invariant of the distributing loops of the leaf split: `i0` is the index at which the
new key belongs, `base` the number of entries already stored in the other half.  While the key
has not been placed the source index equals the number of entries stored; afterwards it is
one less.  The entries stored so far are those of the sequence with the key inserted. -/
def split_inv (n : Nat) (k : Key) (block : Int) (i0 base : Nat) (s : SplitSt) : Prop :=
  (s.flag = false → s.i = base + s.j ∧ base + s.j ≤ i0) ∧
  (s.flag = true → base + s.j = s.i + 1 ∧ i0 ≤ s.i) ∧
  (∀ t, t < s.j → nd_key s.tmp t = ins_key n k i0 (base + t) ∧
    nd_link s.tmp t = ins_link n block i0 (base + t)) ∧
  nd_isLeaf s.tmp = 1

/-- Rank of a key in the lexicographic order of `(dir_id, id)`. -/
def rank (k : Key) : Nat := k.dir_id * 4294967296 + k.id

/-! ## A tree whose root is full (C25, C26) -/

/-- Leaf `c` of `wide_image` (`c < 340`): 170 keys, leaf 1 has 339 (it is full); key `t` is
`tree_key c t`; parent is the root at 36864, left and right are the neighbouring leaves. -/
def wide_leaf (c : Nat) : Nat :=
  if c < 340 then
    let size : Nat := if c = 1 then 339 else 170
    let n1 := nd_set_size (nd_set_isLeaf (nd_set_parent (get_node_init 0) 36864) 1) (size : Int)
    let n2 := nd_set_left n1 (if c = 0 then -1 else tree_off (c - 1))
    let n3 := nd_set_right n2 (if c = 339 then -1 else tree_off (c + 1))
    let n4 := setBytes n3 12 (8 * size) (tree_keys0 + 4294967296 * (700 * c) * tree_ones)
    setBytes n4 2724 (4 * size) tree_links
  else 0

/-- Root of `wide_image`: a full internal node, 339 keys and 340 links; key `c` is the first
key of leaf `c + 1`, link `c` is the offset of leaf `c`. -/
def wide_root : Nat :=
  let n1 := nd_set_size (get_node_init 0) 339
  let n2 := setBytes n1 12 (8 * 339) (concat (fun c => key_bytes (tree_key (c + 1) 0)) 8 9 0)
  setBytes n2 2724 (4 * 340) (concat (fun c => 40960 + 4096 * c) 4 9 0)

/-- A B+ tree of height two with a full root on a formatted 3840-block image: the root at
block 9, the leaves 0..339 at blocks 10..349, all marked in the bitmap; `root = 36864`,
`idcounter = 250000`. -/
def wide_image : FILE × Nat :=
  let sb := setInt (setInt fresh3840.2 32 36864) 40 250000
  let p1 := use_blocks 341 fresh3840.1 9
  let p2 := fwrite (fseek p1 36864) 4096 wide_root
  let p3 := fwrite (fseek p2 40960) 1392640 (concat wide_leaf 4096 9 0)
  (update_sb p3 sb, sb)

/-- The call `insert(p, 703, 1, 12288, sb)` on `wide_image`: the key `(1, 703)` belongs to
leaf 1, which is full, under the full root. -/
def wide_insert : Option (FILE × Nat) := insert 0 8 wide_image.1 703 1 12288 wide_image.2

/-! ## The lexicographic comparison of keys (C31) -/

/-- Sign of the lexicographic comparison of the pairs `(dir_id, id)` of two keys, in the
words of the specification: `-1` when `a` comes first, `1` when `b` comes first, `0` when the
pairs are equal. -/
def lex_sign (a b : Key) : Int :=
  if a.dir_id < b.dir_id then -1
  else if b.dir_id < a.dir_id then 1
  else if a.id < b.id then -1
  else if b.id < a.id then 1
  else 0

/-! ## import of a name that exists (C32) -/

/-- The call `import` of the same 5000-byte host file as `"h"` under directory 1, made a
second time on the image and superblock that `fresh640_import` leaves. -/
def fresh640_import_again : Option (FILE × Nat) :=
  fresh640_import.bind fun r => import_file 0 8 sample_time r.1 r.2 (host_As 5000) 1 [104]

/-! ## setlabel on a superblock whose blocksize has a non-zero low byte (C15) -/

/-- The image `fresh640` with `blocksize = 4097` stored in block 0. -/
def odd_blocksize_image : FILE := fwrite (fseek fresh640.1 16) 4 4097

/-! ## A full leftmost leaf (C23) -/

/-- Leaf `c` of `edge_image` (`c < 2`): leaf 0 is full (339 keys `(1, 2 t + 2)`, no left
neighbour, right neighbour at 45056), leaf 1 has the 170 keys `(1, 702 + 2 t)` and the left
neighbour at 40960; both have the parent 36864. -/
def edge_leaf (c : Nat) : Nat :=
  let size : Nat := if c = 0 then 339 else 170
  let n1 := nd_set_size (nd_set_isLeaf (nd_set_parent (get_node_init 0) 36864) 1) (size : Int)
  let n2 := nd_set_left n1 (if c = 0 then -1 else 40960)
  let n3 := nd_set_right n2 (if c = 0 then 45056 else -1)
  let n4 := setBytes n3 12 (8 * size) (tree_keys0 + 4294967296 * (700 * c) * tree_ones)
  setBytes n4 2724 (4 * size) tree_links

/-- Root of `edge_image`: an internal node with the key `(1, 702)` and the two leaves. -/
def edge_root : Nat :=
  nd_set_link (nd_set_link (nd_set_key (nd_set_size (get_node_init 0) 1) 0 ⟨1, 702⟩) 0 40960)
    1 45056

/-- A well-formed B+ tree on a formatted 3840-block image: the root at block 9, its two
leaves at blocks 10 and 11, the three blocks marked in the bitmap; `root = 36864`. -/
def edge_image : FILE × Nat :=
  let sb := setInt (setInt fresh3840.2 32 36864) 40 2000
  let p1 := use_blocks 3 fresh3840.1 9
  let p2 := fwrite (fseek p1 36864) 4096 edge_root
  let p3 := fwrite (fseek p2 40960) 4096 (edge_leaf 0)
  let p4 := fwrite (fseek p3 45056) 4096 (edge_leaf 1)
  (update_sb p4 sb, sb)

/-- The call `insert(p, 3, 1, 12288, sb)` on `edge_image`: the key `(1, 3)` belongs to the
full leaf 0. -/
def edge_insert : Option (FILE × Nat) := insert 0 8 edge_image.1 3 1 12288 edge_image.2

/-! ## A parent with keys that differ by more than 2^31 (C27) -/

/-- An internal node with the two keys `(1, 5)` and `(1, 2147483658)`, ascending in
lexicographic order, and the children 40960, 45056 and 49152. -/
def wide_key_parent : Nat :=
  nd_set_link (nd_set_link (nd_set_link (nd_set_key (nd_set_key (nd_set_size
    (get_node_init 0) 2) 0 ⟨1, 5⟩) 1 ⟨1, 2147483658⟩) 0 40960) 1 45056) 2 49152

/-- The image `fresh3840` with `wide_key_parent` stored at offset 36864. -/
def wide_key_image : FILE := fwrite (fseek fresh3840.1 36864) 4096 wide_key_parent

/-! # Theorems

## Byte strings -/

theorem mask_eq (len : Nat) : mask len = 2 ^ (8 * len) - 1 := by
  simp [mask, Nat.one_shiftLeft]

theorem testBit_mask (len i : Nat) : (mask len).testBit i = decide (i < 8 * len) := by
  rw [mask_eq, Nat.testBit_two_pow_sub_one]

theorem testBit_getBytes (m off len i : Nat) :
    (getBytes m off len).testBit i = (decide (i < 8 * len) && m.testBit (8 * off + i)) := by
  unfold getBytes
  rw [Nat.testBit_shiftRight, Nat.testBit_and, testBit_mask]
  by_cases h : i < 8 * len
  · have : 8 * off + i < 8 * (off + len) := by omega
    simp [h, this]
  · have : ¬ 8 * off + i < 8 * (off + len) := by omega
    simp [h, this]

theorem testBit_setBytes (m off len v i : Nat) :
    (setBytes m off len v).testBit i =
      if 8 * off ≤ i ∧ i < 8 * (off + len) then v.testBit (i - 8 * off) else m.testBit i := by
  unfold setBytes
  rw [Nat.testBit_xor, Nat.testBit_shiftLeft, Nat.testBit_xor, testBit_getBytes, Nat.testBit_and,
    testBit_mask]
  by_cases h1 : 8 * off ≤ i
  · by_cases h2 : i < 8 * (off + len)
    · have h3 : i - 8 * off < 8 * len := by omega
      have h4 : 8 * off + (i - 8 * off) = i := by omega
      simp [h1, h2, h3, h4]
    · have h3 : ¬ i - 8 * off < 8 * len := by omega
      simp [h1, h2, h3]
  · have h3 : ¬ i ≥ 8 * off := by omega
    simp [h1, h3]

theorem getBytes_eq_mod (m off len : Nat) :
    getBytes m off len = m / 2 ^ (8 * off) % 2 ^ (8 * len) := by
  apply Nat.eq_of_testBit_eq
  intro i
  rw [testBit_getBytes, Nat.testBit_mod_two_pow, ← Nat.shiftRight_eq_div_pow,
    Nat.testBit_shiftRight]

theorem getBytes_lt (m off len : Nat) : getBytes m off len < 2 ^ (8 * len) := by
  rw [getBytes_eq_mod]
  exact Nat.mod_lt _ (Nat.two_pow_pos _)

theorem getBytes_zero_len (m off : Nat) : getBytes m off 0 = 0 := by
  have := getBytes_lt m off 0
  simpa using this

theorem getBytes_setBytes_same (m off len v : Nat) :
    getBytes (setBytes m off len v) off len = v % 2 ^ (8 * len) := by
  apply Nat.eq_of_testBit_eq
  intro i
  rw [testBit_getBytes, testBit_setBytes, Nat.testBit_mod_two_pow]
  by_cases h : i < 8 * len
  · have h1 : 8 * off ≤ 8 * off + i ∧ 8 * off + i < 8 * (off + len) := by omega
    simp [h, h1]
  · simp [h]

theorem getBytes_setBytes_disjoint (m off len v off' len' : Nat)
    (h : off' + len' ≤ off ∨ off + len ≤ off') :
    getBytes (setBytes m off len v) off' len' = getBytes m off' len' := by
  apply Nat.eq_of_testBit_eq
  intro i
  rw [testBit_getBytes, testBit_getBytes, testBit_setBytes]
  by_cases h1 : i < 8 * len'
  · have h2 : ¬ (8 * off ≤ 8 * off' + i ∧ 8 * off' + i < 8 * (off + len)) := by omega
    simp [h1, h2]
  · simp [h1]

theorem getBytes_setBytes_inside (m off len v off' len' : Nat)
    (h : off ≤ off' ∧ off' + len' ≤ off + len) :
    getBytes (setBytes m off len v) off' len' = getBytes v (off' - off) len' := by
  apply Nat.eq_of_testBit_eq
  intro i
  rw [testBit_getBytes, testBit_getBytes, testBit_setBytes]
  by_cases h1 : i < 8 * len'
  · have h2 : 8 * off ≤ 8 * off' + i ∧ 8 * off' + i < 8 * (off + len) := by omega
    have h3 : 8 * off' + i - 8 * off = 8 * (off' - off) + i := by omega
    simp [h1, h2, h3]
  · simp [h1]

theorem getBytes_getBytes (m a n b k : Nat) (h : b + k ≤ n) :
    getBytes (getBytes m a n) b k = getBytes m (a + b) k := by
  apply Nat.eq_of_testBit_eq
  intro i
  rw [testBit_getBytes, testBit_getBytes, testBit_getBytes]
  by_cases h1 : i < 8 * k
  · have h2 : 8 * b + i < 8 * n := by omega
    have h3 : 8 * a + (8 * b + i) = 8 * (a + b) + i := by omega
    simp [h1, h2, h3]
  · simp [h1]

theorem setBytes_getBytes_self (m off len : Nat) : setBytes m off len (getBytes m off len) = m := by
  apply Nat.eq_of_testBit_eq
  intro i
  rw [testBit_setBytes]
  split
  · rename_i h
    rw [testBit_getBytes]
    have h1 : i - 8 * off < 8 * len := by omega
    have h2 : 8 * off + (i - 8 * off) = i := by omega
    simp [h1, h2]
  · rfl

theorem getBytes_mod (m off len n : Nat) (h : off + len ≤ n) :
    getBytes (m % 2 ^ (8 * n)) off len = getBytes m off len := by
  apply Nat.eq_of_testBit_eq
  intro i
  rw [testBit_getBytes, testBit_getBytes, Nat.testBit_mod_two_pow]
  by_cases h1 : i < 8 * len
  · have h2 : 8 * off + i < 8 * n := by omega
    simp [h1, h2]
  · simp [h1]


theorem ofInt32_lt (i : Int) : ofInt32 i < 4294967296 := by
  unfold ofInt32
  have h := Int.emod_lt_of_pos i (show (0 : Int) < 4294967296 by norm_num)
  have h0 := Int.emod_nonneg i (show (4294967296 : Int) ≠ 0 by norm_num)
  omega

theorem toInt32_ofInt32 (i : Int) (h1 : -2147483648 ≤ i) (h2 : i < 2147483648) :
    toInt32 (ofInt32 i) = i := by
  unfold toInt32 ofInt32
  have h0 := Int.emod_nonneg i (show (4294967296 : Int) ≠ 0 by norm_num)
  have hlt := Int.emod_lt_of_pos i (show (0 : Int) < 4294967296 by norm_num)
  have hm : (i % 4294967296).toNat % 4294967296 = (i % 4294967296).toNat := by
    apply Nat.mod_eq_of_lt; omega
  rw [hm]
  have hc : ((i % 4294967296).toNat : Int) = i % 4294967296 := Int.toNat_of_nonneg h0
  by_cases hi : 0 ≤ i
  · have : i % 4294967296 = i := Int.emod_eq_of_lt hi (by omega)
    rw [if_pos (by omega), hc, this]
  · have : i % 4294967296 = i + 4294967296 := by
      have := Int.emod_emod_of_dvd i (show (4294967296 : Int) ∣ 4294967296 from dvd_refl _)
      have h3 : (i + 4294967296) % 4294967296 = i % 4294967296 := by
        simp
      rw [← h3]
      exact Int.emod_eq_of_lt (by omega) (by omega)
    rw [if_neg (by omega), hc, this]; omega

theorem wrap32_eq (i : Int) (h1 : -2147483648 ≤ i) (h2 : i < 2147483648) : wrap32 i = i :=
  toInt32_ofInt32 i h1 h2

theorem toInt32_natCast (n : Nat) (h : n < 2147483648) : toInt32 n = (n : Int) := by
  unfold toInt32
  have : n % 4294967296 = n := Nat.mod_eq_of_lt (by omega)
  rw [this, if_pos h]

theorem toInt32_range (w : Nat) : -2147483648 ≤ toInt32 w ∧ toInt32 w < 2147483648 := by
  unfold toInt32
  have := Nat.mod_lt w (show 0 < 4294967296 by norm_num)
  split <;> omega

theorem ofInt32_toInt32 (w : Nat) : ofInt32 (toInt32 w) = w % 4294967296 := by
  unfold toInt32 ofInt32
  have := Nat.mod_lt w (show 0 < 4294967296 by norm_num)
  split <;> omega

theorem getInt_setInt_same (m off : Nat) (v : Int) : getInt (setInt m off v) off = wrap32 v := by
  unfold getInt setInt wrap32
  rw [getBytes_setBytes_same]
  have := ofInt32_lt v
  rw [Nat.mod_eq_of_lt (by norm_num; omega)]

theorem getInt_setInt_disjoint (m off off' : Nat) (v : Int) (h : off' + 4 ≤ off ∨ off + 4 ≤ off') :
    getInt (setInt m off v) off' = getInt m off' := by
  unfold getInt setInt
  rw [getBytes_setBytes_disjoint _ _ _ _ _ _ h]

theorem getInt_setBytes_disjoint (m off len v off' : Nat) (h : off' + 4 ≤ off ∨ off + len ≤ off') :
    getInt (setBytes m off len v) off' = getInt m off' := by
  unfold getInt
  rw [getBytes_setBytes_disjoint _ _ _ _ _ _ h]

/-! ## Streams and the superblock -/

theorem fseek_eq (p : FILE) (off : Int) :
    fseek p off = if off < 0 then p else { p with pos := off.toNat } := by
  cases p; rfl

theorem fread_eq (p : FILE) (len : Nat) :
    fread p len = (getBytes p.data p.pos len, { p with pos := p.pos + len }) := by
  cases p; rfl

theorem fwrite_eq (p : FILE) (len v : Nat) :
    fwrite p len v =
      { data := setBytes p.data p.pos len v
        size := if len = 0 then p.size else max p.size (p.pos + len)
        pos := p.pos + len } := by
  cases p; rfl

@[simp] theorem fseek_data (p : FILE) (off : Int) : (fseek p off).data = p.data := by
  rw [fseek_eq]; split <;> rfl

@[simp] theorem fseek_size (p : FILE) (off : Int) : (fseek p off).size = p.size := by
  rw [fseek_eq]; split <;> rfl

theorem fseek_pos (p : FILE) (off : Int) (h : 0 ≤ off) : (fseek p off).pos = off.toNat := by
  rw [fseek_eq, if_neg (by omega)]

@[simp] theorem fread_data (p : FILE) (len : Nat) : (fread p len).2.data = p.data := rfl

@[simp] theorem fread_val (p : FILE) (len : Nat) : (fread p len).1 = getBytes p.data p.pos len := rfl

@[simp] theorem fwrite_data (p : FILE) (len v : Nat) :
    (fwrite p len v).data = setBytes p.data p.pos len v := rfl

theorem update_sb_data (p : FILE) (sb : Nat) :
    (update_sb p sb).data = setBytes (setBytes p.data 0 4096 sb) 4096 4096 sb := by
  simp [update_sb, fseek_eq, fwrite_eq]

theorem update_sb_block0 (p : FILE) (sb : Nat) :
    getBytes (update_sb p sb).data 0 4096 = sb % 2 ^ (8 * 4096) := by
  rw [update_sb_data, getBytes_setBytes_disjoint _ _ _ _ _ _ (by omega), getBytes_setBytes_same]

theorem update_sb_block1 (p : FILE) (sb : Nat) :
    getBytes (update_sb p sb).data 4096 4096 = sb % 2 ^ (8 * 4096) := by
  rw [update_sb_data, getBytes_setBytes_same]

theorem getInt_mod (m off n : Nat) (h : off + 4 ≤ n) :
    getInt (m % 2 ^ (8 * n)) off = getInt m off := by
  unfold getInt; rw [getBytes_mod _ _ _ _ h]

theorem init_freemap_fst (p : FILE) (n : Nat) :
    (init_freemap p (n : Int)).1 = (((n + 32767) / 32768 : Nat) : Int) := by
  unfold init_freemap
  simp only []
  rw [show ((n : Int).tmod 32768) = ((n % 32768 : Nat) : Int) from rfl,
    show ((n : Int).tdiv 32768) = ((n / 32768 : Nat) : Int) from rfl]
  split <;> omega

theorem makefs_sb_fields (size : Nat) (f : Nat) (junk : Nat) (h : size / 4096 < 2147483648)
    (hf : f < 2147483648) :
    sb_magic (makefs_sb size f junk) = packStr MAGIC ∧
    sb_blocksize (makefs_sb size f junk) = 4096 ∧
    sb_blocks (makefs_sb size f junk) = ((size / 4096 : Nat) : Int) ∧
    sb_n_inodes (makefs_sb size f junk) = (((size / 4096 + 9) / 10 : Nat) : Int) ∧
    sb_inodes (makefs_sb size f junk) = 64 ∧
    sb_root (makefs_sb size f junk) = -1 ∧
    sb_freeblocksmap (makefs_sb size f junk) = (f : Int) ∧
    sb_idcounter (makefs_sb size f junk) = 2 := by
  have hb : toInt32 (size / 4096) = ((size / 4096 : Nat) : Int) := toInt32_natCast _ h
  unfold makefs_sb sb_magic sb_blocksize sb_blocks sb_n_inodes sb_inodes sb_root sb_freeblocksmap
    sb_idcounter
  simp only [hb]
  refine ⟨?_, ?_, ?_, ?_, ?_, ?_, ?_, ?_⟩
  · unfold setInt strcpy
    rw [getBytes_setBytes_disjoint _ _ _ _ _ _ (by omega),
      getBytes_setBytes_disjoint _ _ _ _ _ _ (by omega),
      getBytes_setBytes_disjoint _ _ _ _ _ _ (by omega),
      getBytes_setBytes_disjoint _ _ _ _ _ _ (by omega),
      getBytes_setBytes_disjoint _ _ _ _ _ _ (by omega),
      getBytes_setBytes_disjoint _ _ _ _ _ _ (by omega),
      getBytes_setBytes_disjoint _ _ _ _ _ _ (by omega),
      getBytes_setBytes_disjoint _ _ _ _ _ _ (by simp [NEWLABEL]),
      getBytes_setBytes_inside _ _ _ _ _ _ (by simp [MAGIC])]
    decide
  · rw [getInt_setInt_disjoint _ _ _ _ (by omega), getInt_setInt_disjoint _ _ _ _ (by omega),
      getInt_setInt_disjoint _ _ _ _ (by omega), getInt_setInt_disjoint _ _ _ _ (by omega),
      getInt_setInt_disjoint _ _ _ _ (by omega), getInt_setInt_disjoint _ _ _ _ (by omega),
      getInt_setInt_same]
    exact wrap32_eq _ (by omega) (by omega)
  · rw [getInt_setInt_disjoint _ _ _ _ (by omega), getInt_setInt_disjoint _ _ _ _ (by omega),
      getInt_setInt_disjoint _ _ _ _ (by omega), getInt_setInt_disjoint _ _ _ _ (by omega),
      getInt_setInt_disjoint _ _ _ _ (by omega), getInt_setInt_same]
    exact wrap32_eq _ (by omega) (by omega)
  · rw [getInt_setInt_disjoint _ _ _ _ (by omega), getInt_setInt_disjoint _ _ _ _ (by omega),
      getInt_setInt_disjoint _ _ _ _ (by omega), getInt_setInt_disjoint _ _ _ _ (by omega),
      getInt_setInt_same]
    rw [show (((size / 4096 : Nat) : Int).tmod 10) = ((size / 4096 % 10 : Nat) : Int) from rfl,
      show (((size / 4096 : Nat) : Int).tdiv 10) = ((size / 4096 / 10 : Nat) : Int) from rfl]
    split
    · rw [wrap32_eq _ (by omega) (by omega)]; omega
    · rw [wrap32_eq _ (by omega) (by omega)]; omega
  · rw [getInt_setInt_disjoint _ _ _ _ (by omega), getInt_setInt_disjoint _ _ _ _ (by omega),
      getInt_setInt_same]
    exact wrap32_eq _ (by omega) (by omega)
  · rw [getInt_setInt_disjoint _ _ _ _ (by omega), getInt_setInt_disjoint _ _ _ _ (by omega),
      getInt_setInt_disjoint _ _ _ _ (by omega), getInt_setInt_same]
    exact wrap32_eq _ (by omega) (by omega)
  · rw [getInt_setInt_disjoint _ _ _ _ (by omega), getInt_setInt_same]
    exact wrap32_eq _ (by omega) (by omega)
  · rw [getInt_setInt_same]
    exact wrap32_eq _ (by omega) (by omega)

/-! ## makefs (C4) -/

theorem makefs_snd (p : FILE) (junk : Nat) :
    (makefs p junk).2 = makefs_sb p.size (init_freemap p (toInt32 (p.size / 4096))).1 junk := rfl

theorem makefs_block0 (p : FILE) (junk : Nat) :
    getBytes (makefs p junk).1.data 0 4096 = (makefs p junk).2 % 2 ^ (8 * 4096) := by
  unfold makefs
  simp only [fseek_data]
  rw [update_sb_block0]

theorem makefs_block1 (p : FILE) (junk : Nat) :
    getBytes (makefs p junk).1.data 4096 4096 = (makefs p junk).2 % 2 ^ (8 * 4096) := by
  unfold makefs
  simp only [fseek_data]
  rw [update_sb_block1]

/-- C4 (amended): for every image whose block count `size div 4096` fits the `int` field
(below `2^31`), `makefs` leaves the same bytes in block 0 and in block 1, and that superblock
has magic "FaSTdEvL", blocksize 4096, blocks = size div 4096, n_inodes = ceil(blocks/10),
inodes = 64, root = -1, freeblocksmap = ceil(blocks/32768) and idcounter = 2. -/
theorem makefs_writes_superblock (p : FILE) (junk : Nat) (h : p.size / 4096 < 2147483648) :
    getBytes (makefs p junk).1.data 4096 4096 = getBytes (makefs p junk).1.data 0 4096 ∧
    sb_magic (getBytes (makefs p junk).1.data 0 4096) = packStr MAGIC ∧
    sb_blocksize (getBytes (makefs p junk).1.data 0 4096) = 4096 ∧
    sb_blocks (getBytes (makefs p junk).1.data 0 4096) = ((p.size / 4096 : Nat) : Int) ∧
    sb_n_inodes (getBytes (makefs p junk).1.data 0 4096) = (((p.size / 4096 + 9) / 10 : Nat) : Int) ∧
    sb_inodes (getBytes (makefs p junk).1.data 0 4096) = 64 ∧
    sb_root (getBytes (makefs p junk).1.data 0 4096) = -1 ∧
    sb_freeblocksmap (getBytes (makefs p junk).1.data 0 4096)
      = (((p.size / 4096 + 32767) / 32768 : Nat) : Int) ∧
    sb_idcounter (getBytes (makefs p junk).1.data 0 4096) = 2 := by
  have hb : toInt32 (p.size / 4096) = ((p.size / 4096 : Nat) : Int) := toInt32_natCast _ h
  have hs : (makefs p junk).2 = makefs_sb p.size (((p.size / 4096 + 32767) / 32768 : Nat) : Int) junk := by
    rw [makefs_snd, hb, init_freemap_fst]
  have hf := makefs_sb_fields p.size ((p.size / 4096 + 32767) / 32768) junk h (by omega)
  rw [makefs_block1, makefs_block0, hs]
  unfold sb_magic sb_blocksize sb_blocks sb_n_inodes sb_inodes sb_root sb_freeblocksmap
    sb_idcounter at *
  rw [getBytes_mod _ _ _ _ (by omega), getInt_mod _ _ _ (by omega), getInt_mod _ _ _ (by omega),
    getInt_mod _ _ _ (by omega), getInt_mod _ _ _ (by omega), getInt_mod _ _ _ (by omega),
    getInt_mod _ _ _ (by omega), getInt_mod _ _ _ (by omega)]
  exact ⟨rfl, hf⟩

theorem makefs_writes_superblock_witness :
    (2621440 / 4096 < 2147483648) ∧
    (getBytes (makefs ⟨0, 2621440, 0⟩ 0).1.data 4096 4096
        = getBytes (makefs ⟨0, 2621440, 0⟩ 0).1.data 0 4096 ∧
    sb_magic (getBytes (makefs ⟨0, 2621440, 0⟩ 0).1.data 0 4096) = packStr MAGIC ∧
    sb_blocksize (getBytes (makefs ⟨0, 2621440, 0⟩ 0).1.data 0 4096) = 4096 ∧
    sb_blocks (getBytes (makefs ⟨0, 2621440, 0⟩ 0).1.data 0 4096) = ((2621440 / 4096 : Nat) : Int) ∧
    sb_n_inodes (getBytes (makefs ⟨0, 2621440, 0⟩ 0).1.data 0 4096)
      = (((2621440 / 4096 + 9) / 10 : Nat) : Int) ∧
    sb_inodes (getBytes (makefs ⟨0, 2621440, 0⟩ 0).1.data 0 4096) = 64 ∧
    sb_root (getBytes (makefs ⟨0, 2621440, 0⟩ 0).1.data 0 4096) = -1 ∧
    sb_freeblocksmap (getBytes (makefs ⟨0, 2621440, 0⟩ 0).1.data 0 4096)
      = (((2621440 / 4096 + 32767) / 32768 : Nat) : Int) ∧
    sb_idcounter (getBytes (makefs ⟨0, 2621440, 0⟩ 0).1.data 0 4096) = 2) :=
  ⟨by decide, makefs_writes_superblock ⟨0, 2621440, 0⟩ 0 (by decide)⟩

/-- C4 (counterexample): on an image of `(2^32 + 640) * 4096` bytes `makefs` stores
`blocks = 640`, not `size div 4096 = 2^32 + 640`. -/
theorem makefs_blocks_truncated :
    sb_blocks (getBytes (makefs ⟨0, 17592188665856, 0⟩ 0).1.data 0 4096)
      ≠ ((17592188665856 / 4096 : Nat) : Int) := by
  decide!

/-! ## get_id (C8) -/

theorem sb_idcounter_bump (sb : Nat) (h : sb_idcounter sb < 2147483647) :
    sb_idcounter (setInt sb 40 (wrap32 (sb_idcounter sb + 1))) = sb_idcounter sb + 1 := by
  have hr := toInt32_range (getBytes sb 40 4)
  unfold sb_idcounter getInt at *
  have hw : wrap32 (toInt32 (getBytes sb 40 4) + 1) = toInt32 (getBytes sb 40 4) + 1 :=
    wrap32_eq _ (by omega) (by omega)
  have := getInt_setInt_same sb 40 (wrap32 (toInt32 (getBytes sb 40 4) + 1))
  unfold getInt at this
  rw [this, hw, hw]

theorem get_id_run_eq (names : List (List Nat)) :
    ∀ (p : FILE), (∀ n ∈ names, n ≠ [47]) →
      sb_idcounter (getBytes p.data 0 4096) + names.length ≤ 2147483647 →
      get_id_run names p
        = (List.range names.length).map
            (fun (i : Nat) => sb_idcounter (getBytes p.data 0 4096) + (i : Int)) := by
  induction names with
  | nil => intro p _ _; rfl
  | cons name rest ih =>
    intro p hn hc
    have hname : name ≠ [47] := hn name (List.mem_cons_self _ _)
    simp only [List.length_cons] at hc
    push_cast at hc
    unfold get_id_run
    simp only [get_id, if_neg hname, fread_val, fseek_data, fread_data]
    have hpos : (fseek p 0).pos = 0 := by rw [fseek_pos _ _ (le_refl _)]; rfl
    rw [hpos]
    have hcnt : sb_idcounter (getBytes (update_sb (fread (fseek p 0) 4096).2
        (setInt (getBytes p.data 0 4096) 40 (wrap32 (sb_idcounter (getBytes p.data 0 4096) + 1)))).data 0 4096)
        = sb_idcounter (getBytes p.data 0 4096) + 1 := by
      rw [update_sb_block0]
      have := sb_idcounter_bump (getBytes p.data 0 4096) (by omega)
      unfold sb_idcounter at *
      rw [getInt_mod _ _ _ (by omega)]; exact this
    rw [ih _ (fun n h => hn n (List.mem_cons_of_mem _ h)) (by rw [hcnt]; omega), hcnt]
    rw [List.length_cons, List.range_succ_eq_map, List.map_cons, List.map_map]
    simp only [Nat.cast_zero, add_zero, List.cons.injEq, true_and]
    apply List.map_congr_left
    intro i _
    simp only [Function.comp_apply, Nat.cast_succ]
    omega

/-- C8: for a name other than "/" and `idcounter < 2^31 - 1`, `get_id` returns the old
counter and leaves `old + 1` in memory and in the superblocks of block 0 and block 1, which
equal the in-memory superblock; and in a run of such calls on one image the ids returned are
strictly increasing. -/
theorem get_id_increments (name : List Nat) (p : FILE) (sb : Nat) (names : List (List Nat))
    (q : FILE) (h1 : name ≠ [47]) (h2 : sb_idcounter sb < 2147483647)
    (h3 : ∀ n ∈ names, n ≠ [47])
    (h4 : sb_idcounter (getBytes q.data 0 4096) + names.length ≤ 2147483647) :
    (get_id name p sb).1 = sb_idcounter sb ∧
    sb_idcounter (get_id name p sb).2.2 = sb_idcounter sb + 1 ∧
    getBytes (get_id name p sb).2.1.data 0 4096 = (get_id name p sb).2.2 % 2 ^ (8 * 4096) ∧
    getBytes (get_id name p sb).2.1.data 4096 4096 = (get_id name p sb).2.2 % 2 ^ (8 * 4096) ∧
    sb_idcounter (getBytes (get_id name p sb).2.1.data 0 4096) = sb_idcounter sb + 1 ∧
    sb_idcounter (getBytes (get_id name p sb).2.1.data 4096 4096) = sb_idcounter sb + 1 ∧
    List.Pairwise (fun a b => a < b) (get_id_run names q) := by
  have hnew := sb_idcounter_bump sb h2
  simp only [get_id, if_neg h1]
  refine ⟨trivial, hnew, update_sb_block0 _ _, update_sb_block1 _ _, ?_, ?_, ?_⟩
  · rw [update_sb_block0]
    unfold sb_idcounter at *
    rw [getInt_mod _ _ _ (by omega)]; exact hnew
  · rw [update_sb_block1]
    unfold sb_idcounter at *
    rw [getInt_mod _ _ _ (by omega)]; exact hnew
  · rw [get_id_run_eq names q h3 h4, List.pairwise_map]
    apply List.Pairwise.imp _ (List.pairwise_lt_range _)
    intro a b hab
    omega

theorem get_id_increments_witness :
    ([97] : List Nat) ≠ [47] ∧ sb_idcounter 0 < 2147483647 ∧
    (∀ n ∈ [[97], [98], [99]], n ≠ [47]) ∧
    sb_idcounter (getBytes (FILE.mk 0 0 0).data 0 4096)
      + ([[97], [98], [99]] : List (List Nat)).length ≤ 2147483647 ∧
    ((get_id [97] ⟨0, 0, 0⟩ 0).1 = sb_idcounter 0 ∧
    sb_idcounter (get_id [97] ⟨0, 0, 0⟩ 0).2.2 = sb_idcounter 0 + 1 ∧
    getBytes (get_id [97] ⟨0, 0, 0⟩ 0).2.1.data 0 4096
        = (get_id [97] ⟨0, 0, 0⟩ 0).2.2 % 2 ^ (8 * 4096) ∧
    getBytes (get_id [97] ⟨0, 0, 0⟩ 0).2.1.data 4096 4096
        = (get_id [97] ⟨0, 0, 0⟩ 0).2.2 % 2 ^ (8 * 4096) ∧
    sb_idcounter (getBytes (get_id [97] ⟨0, 0, 0⟩ 0).2.1.data 0 4096) = sb_idcounter 0 + 1 ∧
    sb_idcounter (getBytes (get_id [97] ⟨0, 0, 0⟩ 0).2.1.data 4096 4096) = sb_idcounter 0 + 1 ∧
    List.Pairwise (fun a b => a < b) (get_id_run [[97], [98], [99]] ⟨0, 0, 0⟩)) :=
  ⟨by decide, by decide, by decide, by decide,
    get_id_increments [97] ⟨0, 0, 0⟩ 0 [[97], [98], [99]] ⟨0, 0, 0⟩ (by decide) (by decide)
      (by decide) (by decide)⟩

/-! ## Free-block bitmap (C5, C10) -/

theorem fseek_nat (p : FILE) (n : Nat) : fseek p (n : Int) = { p with pos := n } := by
  rw [fseek_eq, if_neg (by omega)]
  simp

theorem bit_loc_cast (n : Nat) :
    ((n : Int).tdiv 32768 + 2) * 4096 + ((n : Int).tmod 32768).tdiv 8 = ((bit_loc n : Nat) : Int) := by
  have h1 : ((n : Int).tdiv 32768) = ((n / 32768 : Nat) : Int) := rfl
  have h2 : ((n : Int).tmod 32768) = ((n % 32768 : Nat) : Int) := rfl
  have h3 : (((n % 32768 : Nat) : Int).tdiv 8) = ((n % 32768 / 8 : Nat) : Int) := rfl
  rw [h2, h3, h1]
  unfold bit_loc
  push_cast
  rfl

theorem bit_idx_cast (n : Nat) : ((n : Int).tmod 32768).tmod 8 = ((n % 8 : Nat) : Int) := by
  have h2 : ((n : Int).tmod 32768) = ((n % 32768 : Nat) : Int) := rfl
  have h4 : (((n % 32768 : Nat) : Int).tmod 8) = ((n % 32768 % 8 : Nat) : Int) := rfl
  rw [h2, h4]
  congr 1
  omega

theorem check_block_nat (p : FILE) (n : Nat) :
    check_block p (n : Int)
      = (Nat.testBit (getBytes p.data (bit_loc n) 1) (n % 8),
          { p with pos := bit_loc n + 1 }) := by
  unfold check_block
  simp only [bit_loc_cast, bit_idx_cast, fseek_nat, fread_eq, Int.toNat_ofNat]

theorem get_free_block_loop_spec (n : Nat) :
    ∀ (p : FILE) (fb : Nat), 
      (get_free_block_loop n p (fb : Int) ((fb + n : Nat) : Int)).2.data = p.data ∧
      ∃ r : Nat, (get_free_block_loop n p (fb : Int) ((fb + n : Nat) : Int)).1 = (r : Int) ∧
        fb ≤ r ∧ r ≤ fb + n ∧
        (∀ b, fb ≤ b → b < r → Nat.testBit (getBytes p.data (bit_loc b) 1) (b % 8) = true) ∧
        (r < fb + n → Nat.testBit (getBytes p.data (bit_loc r) 1) (r % 8) = false) := by
  induction n with
  | zero =>
    intro p fb
    refine ⟨rfl, fb, ?_, le_refl _, le_refl _, ?_, ?_⟩
    · simp [get_free_block_loop]
    · intro b h1 h2; omega
    · intro h; omega
  | succ n ih =>
    intro p fb
    unfold get_free_block_loop
    have hlt : (fb : Int) < ((fb + (n + 1) : Nat) : Int) := by push_cast; omega
    rw [if_pos hlt, check_block_nat]
    simp only []
    by_cases hc : Nat.testBit (getBytes p.data (bit_loc fb) 1) (fb % 8) = false
    · rw [if_pos hc]
      refine ⟨rfl, fb, rfl, le_refl _, by omega, ?_, fun _ => hc⟩
      intro b h1 h2; omega
    · rw [if_neg hc]
      have hc' : Nat.testBit (getBytes p.data (bit_loc fb) 1) (fb % 8) = true := by
        simpa using hc
      have he : ((fb : Int) + 1) = ((fb + 1 : Nat) : Int) := by push_cast; rfl
      have he2 : ((fb + (n + 1) : Nat) : Int) = ((fb + 1 + n : Nat) : Int) := by
        congr 1; omega
      rw [he, he2]
      obtain ⟨hd, r, hr, h1, h2, h3, h4⟩ := ih { p with pos := bit_loc fb + 1 } (fb + 1)
      refine ⟨hd, r, hr, by omega, by omega, ?_, ?_⟩
      · intro b hb1 hb2
        by_cases hbe : b = fb
        · rw [hbe]; exact hc'
        · exact h3 b (by omega) hb2
      · intro h; exact h4 (by omega)

/-- For a superblock with `0 <= freeblocksmap` and `2 + freeblocksmap <= blocks`,
`get_free_block` leaves the image content as it was; it returns `-1` exactly when every block
`b` with `2 + freeblocksmap <= b < blocks` has its bit set; and otherwise it returns the lowest
such `b` whose bit is clear. -/
theorem get_free_block_lowest (p : FILE) (sb : Nat) (f B : Nat)
    (hf : sb_freeblocksmap sb = (f : Int)) (hB : sb_blocks sb = (B : Int)) (h : 2 + f ≤ B) :
    (get_free_block p sb).2.data = p.data ∧
    ((get_free_block p sb).1 = -1 ↔
      ∀ b : Nat, 2 + f ≤ b → b < B → (check_block p (b : Int)).1 = true) ∧
    ((get_free_block p sb).1 ≠ -1 →
      ∃ r : Nat, (get_free_block p sb).1 = (r : Int) ∧ 2 + f ≤ r ∧ r < B ∧
        (check_block p (r : Int)).1 = false ∧
        ∀ b : Nat, 2 + f ≤ b → b < r → (check_block p (b : Int)).1 = true) := by
  obtain ⟨n, hn⟩ : ∃ n, B = 2 + f + n := ⟨B - (2 + f), by omega⟩
  have hstart : (2 : Int) + sb_freeblocksmap sb = ((2 + f : Nat) : Int) := by rw [hf]; push_cast; rfl
  have hfuel : ((((2 + f + n : Nat) : Int)) - ((2 + f : Nat) : Int)).toNat = n := by omega
  obtain ⟨hd, r, hr, h1, h2, h3, h4⟩ := get_free_block_loop_spec n p (2 + f)
  unfold get_free_block
  simp only [hstart]
  rw [hB, hn]
  simp only [check_block_nat, hfuel]
  by_cases hrB : r = 2 + f + n
  · have hres : (get_free_block_loop n p ((2 + f : Nat) : Int) ((2 + f + n : Nat) : Int)).1
        = ((2 + f + n : Nat) : Int) := by rw [hr, hrB]
    rw [if_pos hres]
    refine ⟨hd, ⟨fun _ b hb1 hb2 => h3 b hb1 (by omega), fun _ => rfl⟩, fun hne => absurd rfl hne⟩
  · have hres : ¬ (get_free_block_loop n p ((2 + f : Nat) : Int) ((2 + f + n : Nat) : Int)).1
        = ((2 + f + n : Nat) : Int) := by rw [hr]; intro hc; exact hrB (by exact_mod_cast hc)
    rw [if_neg hres]
    have hlt : r < 2 + f + n := by omega
    refine ⟨hd, ⟨fun hc => ?_, fun hall => ?_⟩, fun _ => ⟨r, hr, h1, hlt, h4 hlt, h3⟩⟩
    · rw [hr] at hc; omega
    · have := hall r h1 hlt
      rw [h4 hlt] at this
      exact absurd this (by decide)

theorem get_free_block_lowest_witness :
    sb_freeblocksmap (makefs ⟨0, 2621440, 0⟩ 0).2 = ((1 : Nat) : Int) ∧
    sb_blocks (makefs ⟨0, 2621440, 0⟩ 0).2 = ((640 : Nat) : Int) ∧ 2 + 1 ≤ 640 ∧
    ((get_free_block (makefs ⟨0, 2621440, 0⟩ 0).1 (makefs ⟨0, 2621440, 0⟩ 0).2).2.data
        = (makefs ⟨0, 2621440, 0⟩ 0).1.data ∧
    ((get_free_block (makefs ⟨0, 2621440, 0⟩ 0).1 (makefs ⟨0, 2621440, 0⟩ 0).2).1 = -1 ↔
      ∀ b : Nat, 2 + 1 ≤ b → b < 640 →
        (check_block (makefs ⟨0, 2621440, 0⟩ 0).1 (b : Int)).1 = true) ∧
    ((get_free_block (makefs ⟨0, 2621440, 0⟩ 0).1 (makefs ⟨0, 2621440, 0⟩ 0).2).1 ≠ -1 →
      ∃ r : Nat, (get_free_block (makefs ⟨0, 2621440, 0⟩ 0).1 (makefs ⟨0, 2621440, 0⟩ 0).2).1
          = (r : Int) ∧ 2 + 1 ≤ r ∧ r < 640 ∧
        (check_block (makefs ⟨0, 2621440, 0⟩ 0).1 (r : Int)).1 = false ∧
        ∀ b : Nat, 2 + 1 ≤ b → b < r →
          (check_block (makefs ⟨0, 2621440, 0⟩ 0).1 (b : Int)).1 = true)) :=
  ⟨by decide!, by decide!, by decide,
    get_free_block_lowest (makefs ⟨0, 2621440, 0⟩ 0).1 (makefs ⟨0, 2621440, 0⟩ 0).2 1 640
      (by decide!) (by decide!) (by decide)⟩

/-- When `blocks < 2 + freeblocksmap` (an image of fewer than three blocks) the loop of
`get_free_block` is not entered and the function returns `2 + freeblocksmap`. -/
theorem get_free_block_tiny (p : FILE) (sb : Nat) (h : sb_blocks sb < 2 + sb_freeblocksmap sb) :
    (get_free_block p sb).1 = 2 + sb_freeblocksmap sb := by
  unfold get_free_block
  have h0 : (sb_blocks sb - (2 + sb_freeblocksmap sb)).toNat = 0 := by omega
  simp only [h0, get_free_block_loop]
  rw [if_neg (by omega)]

/-- C10 (failing input): `makefs` on a zero-filled image of 2 blocks (8192 bytes) writes
`blocks = 2` and `freeblocksmap = 1`; the range `2 + freeblocksmap <= b < blocks` is then
empty, and `get_free_block` returns 3, not `-1`. -/
theorem get_free_block_two_blocks :
    sb_blocks (makefs ⟨0, 8192, 0⟩ 0).2 = 2 ∧
    sb_freeblocksmap (makefs ⟨0, 8192, 0⟩ 0).2 = 1 ∧
    (get_free_block (makefs ⟨0, 8192, 0⟩ 0).1 (makefs ⟨0, 8192, 0⟩ 0).2).1 = 3 := by
  decide!

/-- C5 (failing input): on a zero-filled image of 256 blocks (1 MiB) `makefs` sets
`n_inodes = 26` and `freeblocksmap = 1`, so the inode region is block 3 (slots at byte
offsets `12288 + 64 * i`); afterwards slot 0 has `f[0] = 0`, not `-1`, the bit of block 3 is
clear, and `get_free_block` returns block 3. -/
theorem makefs_skips_partial_inode_block :
    sb_n_inodes (makefs ⟨0, 1048576, 0⟩ 0).2 = 26 ∧
    sb_freeblocksmap (makefs ⟨0, 1048576, 0⟩ 0).2 = 1 ∧
    in_f (getBytes (makefs ⟨0, 1048576, 0⟩ 0).1.data 12288 64) 0 = 0 ∧
    (check_block (makefs ⟨0, 1048576, 0⟩ 0).1 3).1 = false ∧
    (get_free_block (makefs ⟨0, 1048576, 0⟩ 0).1 (makefs ⟨0, 1048576, 0⟩ 0).2).1 = 3 := by
  decide!

/-! ## find is read-only; the Exists guard (C6) -/

theorem read_node_data (p : FILE) (c : Int) :
    (read_node p c).2.data = p.data ∧ (read_node p c).2.size = p.size := by
  simp [read_node, fread_eq]

theorem find_descend_data (dir_id : Int) (fuel : Nat) :
    ∀ (p : FILE) (n : Nat) (curr : Int) (r : FILE × Nat × Int),
      find_descend dir_id fuel p n curr = some r → r.1.data = p.data ∧ r.1.size = p.size := by
  induction fuel with
  | zero => intro p n curr r h; simp [find_descend] at h
  | succ k ih =>
    intro p n curr r h
    unfold find_descend at h
    split at h
    · cases h; exact ⟨rfl, rfl⟩
    · have := ih _ _ _ _ h
      simpa [read_node, fread_eq] using this

theorem find_left_data (dir_id : Int) (fuel : Nat) :
    ∀ (p : FILE) (n : Nat) (curr : Int) (r : FILE × Nat × Int),
      find_left dir_id fuel p n curr = some r → r.1.data = p.data ∧ r.1.size = p.size := by
  induction fuel with
  | zero => intro p n curr r h; simp [find_left] at h
  | succ k ih =>
    intro p n curr r h
    unfold find_left at h
    split at h
    · split at h
      · cases h; exact ⟨rfl, rfl⟩
      · have := ih _ _ _ _ h
        simpa [read_node, fread_eq] using this
    · cases h; exact ⟨rfl, rfl⟩

theorem find_leaf_data (n : Nat) (dir_id : Int) (name : List Nat) (type id_or_loc : Int)
    (fuel : Nat) :
    ∀ (p : FILE) (i : Nat),
      (find_leaf n dir_id name type id_or_loc fuel p i).2.data = p.data ∧
      (find_leaf n dir_id name type id_or_loc fuel p i).2.size = p.size := by
  induction fuel with
  | zero => intro p i; exact ⟨rfl, rfl⟩
  | succ k ih =>
    intro p i
    unfold find_leaf
    split
    · split
      · simp only []
        split
        · simp [fread_eq]
        · have := ih (fread (fseek (fread (fseek p (nd_link n i)) 64).2
            (in_f (fread (fseek p (nd_link n i)) 64).1 0)) 4096).2 (i + 1)
          simpa [fread_eq] using this
      · exact ih p (i + 1)
    · exact ⟨rfl, rfl⟩

theorem find_scan_data (dir_id : Int) (name : List Nat) (type id_or_loc : Int) (fuel : Nat) :
    ∀ (p : FILE) (n : Nat) (r : Int × FILE),
      find_scan dir_id name type id_or_loc fuel p n = some r →
        r.2.data = p.data ∧ r.2.size = p.size := by
  induction fuel with
  | zero => intro p n r h; simp [find_scan] at h
  | succ k ih =>
    intro p n r h
    unfold find_scan at h
    have hl := find_leaf_data n dir_id name type id_or_loc (nd_size n).toNat p 0
    simp only [] at h
    split at h
    · cases h; exact hl
    · split at h
      · cases h; exact hl
      · split at h
        · have := ih _ _ _ h
          simp only [read_node, fread_data, fseek_data, fread_eq, fseek_size] at this
          exact ⟨this.1.trans hl.1, this.2.trans hl.2⟩
        · cases h; exact hl

theorem find_data (fuel : Nat) (p : FILE) (sb : Nat) (dir_id : Int) (name : List Nat)
    (type id_or_loc : Int) (r : Int × FILE)
    (h : find fuel p sb dir_id name type id_or_loc = some r) :
    r.2.data = p.data ∧ r.2.size = p.size := by
  unfold find at h
  split at h
  · cases h; exact ⟨rfl, rfl⟩
  · simp only [] at h
    split at h
    · cases h
    · rename_i p1 n1 c1 hd
      split at h
      · cases h
      · rename_i p2 n2 c2 hl
        have h1 := find_descend_data _ _ _ _ _ _ hd
        have h2 := find_left_data _ _ _ _ _ _ hl
        have h3 := find_scan_data _ _ _ _ _ _ _ _ h
        simp only [read_node, fread_data, fseek_data, fread_eq, fseek_size] at h1
        exact ⟨h3.1.trans (h2.1.trans h1.1), h3.2.trans (h2.2.trans h1.2)⟩

/-- Evaluation of `find` and `ls` on `full_image`, of `new_empty_file_dir("d", 1, 2)` on it,
and of `find` and `ls` on the image that call leaves. -/
theorem full_mkdir_all_eval :
    ((decide (full_mkdir.map (fun r => (sb_root r.2.2, tree_ok r.2.1 (sb_root r.2.2)))
        = some (1441792, true)) &&
    (decide (full_mkdir.map (fun r =>
        (st_type (getBytes r.2.1.data (in_f (getBytes r.2.1.data 33984 64) 0).toNat 4096),
          cstring (getBytes r.2.1.data (in_f (getBytes r.2.1.data 33984 64) 0).toNat 4096) 28 10))
        = some (2, [46, 46])) &&
    decide ((full_mkdir.bind fun r => (find 8 r.2.1 r.2.2 340 [46, 46] 2 1).map fun v => v.1)
        = some (-1)))) &&
    (decide (sb_idcounter full_image.2 = 340) &&
    (decide ((find 8 full_image.1 full_image.2 500 [120] 4 1).map (fun v => v.1) = some 13312) &&
    (decide ((ls 8 full_image.1 full_image.2 500).map (fun v =>
        v.1.map fun row => (row.key, row.link, row.isFile, row.name))
      = some [(⟨500, 18⟩, 13312, true, [120])]) &&
    (decide (full_mkdir.map (fun r => r.1) = some 33984) &&
    (decide ((full_mkdir.bind fun r =>
        (find 8 r.2.1 r.2.2 340 [46, 46] 2 0).map fun v => v.1) = some (-1)) &&
    (decide ((full_mkdir.bind fun r => (ls 8 r.2.1 r.2.2 340).map fun v =>
        v.1.map fun row => (row.key, row.link, row.isFile, row.name))
      = some [(⟨340, 1⟩, 33984, false, [46, 46])]) &&
    (decide ((full_mkdir.bind fun r =>
        (find 8 r.2.1 r.2.2 500 [120] 4 1).map fun v => v.1) = some (-1)) &&
    decide ((full_mkdir.bind fun r => (ls 8 r.2.1 r.2.2 500).map fun v =>
        v.1.map fun row => (row.key, row.link, row.isFile, row.name))
      = some [(⟨500, 18⟩, 13312, false, [])]))))))))) = true := by
  decide!

theorem full_mkdir_eval :
    (decide (sb_idcounter full_image.2 = 340) &&
    (decide ((find 8 full_image.1 full_image.2 500 [120] 4 1).map (fun v => v.1) = some 13312) &&
    (decide ((ls 8 full_image.1 full_image.2 500).map (fun v =>
        v.1.map fun row => (row.key, row.link, row.isFile, row.name))
      = some [(⟨500, 18⟩, 13312, true, [120])]) &&
    (decide (full_mkdir.map (fun r => r.1) = some 33984) &&
    (decide ((full_mkdir.bind fun r =>
        (find 8 r.2.1 r.2.2 340 [46, 46] 2 0).map fun v => v.1) = some (-1)) &&
    (decide ((full_mkdir.bind fun r => (ls 8 r.2.1 r.2.2 340).map fun v =>
        v.1.map fun row => (row.key, row.link, row.isFile, row.name))
      = some [(⟨340, 1⟩, 33984, false, [46, 46])]) &&
    (decide ((full_mkdir.bind fun r =>
        (find 8 r.2.1 r.2.2 500 [120] 4 1).map fun v => v.1) = some (-1)) &&
    decide ((full_mkdir.bind fun r => (ls 8 r.2.1 r.2.2 500).map fun v =>
        v.1.map fun row => (row.key, row.link, row.isFile, row.name))
      = some [(⟨500, 18⟩, 13312, false, [])])))))))) = true :=
  (Bool.and_eq_true_iff.mp full_mkdir_all_eval).2

/-- C1 (failing inputs).  (1) On `full_image` (a 15 MiB image after 338 file creations)
`find(500, "x", 4)` in location mode returns the inode offset 13312 written when that entry
was created; after one more successful call, `new_empty_file_dir("d", 1, 2)`, it returns
`-1`.  (2) On a 1 MiB image of `0xFF` bytes, after `makefs`, the call
`new_empty_file_dir("a", 1, 4)` returns the inode offset 12288 and `find(1, "a", 4)` in
location mode returns `-1`. -/
theorem find_loses_created_entry :
    ((find 8 full_image.1 full_image.2 500 [120] 4 1).map (fun v => v.1) = some 13312 ∧
    full_mkdir.map (fun r => r.1) = some 33984 ∧
    (full_mkdir.bind fun r =>
        (find 8 r.2.1 r.2.2 500 [120] 4 1).map fun v => v.1) = some (-1)) ∧
    (ones256_create_a.map (fun r => r.1) = some 12288 ∧
    (ones256_create_a.bind fun r => (find 4 r.2.1 r.2.2 1 [97] 4 1).map fun v => v.1)
      = some (-1)) := by
  have h := full_mkdir_eval
  simp only [Bool.and_eq_true, decide_eq_true_eq] at h
  exact ⟨⟨h.2.1, h.2.2.2.1, h.2.2.2.2.2.2.1⟩, by decide!⟩

/-- C2 (failing input).  On `full_image`, `ls(500)` prints the one entry created with parent
directory 500, the file `"x"` with key `(500, 18)`; after `new_empty_file_dir("d", 1, 2)`
it prints, for that key, a directory with an empty name. -/
theorem ls_prints_entry_never_created :
    (ls 8 full_image.1 full_image.2 500).map (fun v =>
        v.1.map fun row => (row.key, row.link, row.isFile, row.name))
      = some [(⟨500, 18⟩, 13312, true, [120])] ∧
    full_mkdir.map (fun r => r.1) = some 33984 ∧
    (full_mkdir.bind fun r => (ls 8 r.2.1 r.2.2 500).map fun v =>
        v.1.map fun row => (row.key, row.link, row.isFile, row.name))
      = some [(⟨500, 18⟩, 13312, false, [])] := by
  have h := full_mkdir_eval
  simp only [Bool.and_eq_true, decide_eq_true_eq] at h
  exact ⟨h.2.2.1, h.2.2.2.1, h.2.2.2.2.2.2.2⟩

/-- C7 (failing input).  On `full_image` the call `new_empty_file_dir("d", 1, 2)` succeeds
(it returns the inode offset 33984) and the new directory gets id 340; afterwards the leaf
chain holds the key `(340, 1)` with name ".." and type directory (`ls(340)` prints it), but
`find(340, "..", 2)` in id mode returns `-1`, not the parent id 1. -/
theorem find_misses_dotdot :
    sb_idcounter full_image.2 = 340 ∧
    full_mkdir.map (fun r => r.1) = some 33984 ∧
    (full_mkdir.bind fun r => (ls 8 r.2.1 r.2.2 340).map fun v =>
        v.1.map fun row => (row.key, row.link, row.isFile, row.name))
      = some [(⟨340, 1⟩, 33984, false, [46, 46])] ∧
    (full_mkdir.bind fun r => (find 8 r.2.1 r.2.2 340 [46, 46] 2 0).map fun v => v.1)
      = some (-1) := by
  have h := full_mkdir_eval
  simp only [Bool.and_eq_true, decide_eq_true_eq] at h
  exact ⟨h.1, h.2.2.2.1, h.2.2.2.2.2.1, h.2.2.2.2.1⟩

/-! ## Bitmap bits (C11, C12, C13) -/

theorem bit_loc_eq (n : Nat) : bit_loc n = 8192 + n / 8 := by
  unfold bit_loc; omega

theorem testBit_one_shiftLeft (k i : Nat) : (1 <<< k).testBit i = decide (k = i) := by
  rw [Nat.one_shiftLeft, Nat.testBit_two_pow]

/-- The bit of block `n` is bit `65536 + n` of the image: bit `n % 8` of byte
`8192 + n / 8`. -/
theorem check_block_testBit (p : FILE) (n : Nat) :
    (check_block p (n : Int)).1 = p.data.testBit (65536 + n) := by
  rw [check_block_nat]
  simp only []
  rw [testBit_getBytes, bit_loc_eq]
  have h1 : n % 8 < 8 * 1 := by omega
  have h2 : 8 * (8192 + n / 8) + n % 8 = 65536 + n := by omega
  simp [h1, h2]

theorem use_block_nat (p : FILE) (n : Nat) :
    use_block p (n : Int) =
      { data := p.data ^^^ (1 <<< (65536 + n))
        size := max p.size (bit_loc n + 1)
        pos := bit_loc n + 1 } := by
  unfold use_block
  simp only [bit_loc_cast, bit_idx_cast, fseek_nat, fread_eq, fwrite_eq]
  rw [if_neg (by omega)]
  congr 1
  · apply Nat.eq_of_testBit_eq
    intro i
    rw [testBit_setBytes, Nat.testBit_xor, Nat.testBit_xor, testBit_getBytes,
      testBit_one_shiftLeft, testBit_one_shiftLeft, bit_loc_eq, Int.toNat_ofNat]
    by_cases h : 8 * (8192 + n / 8) ≤ i ∧ i < 8 * (8192 + n / 8 + 1)
    · rw [if_pos h]
      have h1 : i - 8 * (8192 + n / 8) < 8 * 1 := by omega
      have h2 : 8 * (8192 + n / 8) + (i - 8 * (8192 + n / 8)) = i := by omega
      have h3 : (n % 8 = i - 8 * (8192 + n / 8)) ↔ (65536 + n = i) := by omega
      simp [h1, h2, h3]
    · rw [if_neg h]
      have h3 : ¬ (65536 + n = i) := by omega
      simp [h3]

theorem use_block_testBit (p : FILE) (n j : Nat) :
    (use_block p (n : Int)).data.testBit j = xor (p.data.testBit j) (decide (65536 + n = j)) := by
  rw [use_block_nat]
  simp only []
  rw [Nat.testBit_xor, testBit_one_shiftLeft]

theorem check_block_use_block (p : FILE) (n j : Nat) :
    (check_block (use_block p (n : Int)) (j : Int)).1
      = xor (check_block p (j : Int)).1 (decide (n = j)) := by
  rw [check_block_testBit, check_block_testBit, use_block_testBit]
  congr 1
  simp

theorem use_blocks_testBit (k : Nat) : ∀ (p : FILE) (i j : Nat),
    (use_blocks k p (i : Int)).data.testBit j
      = xor (p.data.testBit j) (decide (65536 + i ≤ j ∧ j < 65536 + i + k)) := by
  induction k with
  | zero =>
    intro p i j
    have h : ¬ (65536 + i ≤ j ∧ j < 65536 + i + 0) := by omega
    rw [use_blocks, decide_eq_false h, Bool.xor_false]
  | succ k ih =>
    intro p i j
    have hc : ((i : Int) + 1) = ((i + 1 : Nat) : Int) := by push_cast; rfl
    rw [use_blocks, hc, ih, use_block_testBit]
    by_cases h1 : 65536 + i = j
    · have h2 : ¬ (65536 + (i + 1) ≤ j ∧ j < 65536 + (i + 1) + k) := by omega
      have h3 : 65536 + i ≤ j ∧ j < 65536 + i + (k + 1) := by omega
      simp [h1, h2, h3]
    · by_cases h2 : 65536 + (i + 1) ≤ j ∧ j < 65536 + (i + 1) + k
      · have h3 : 65536 + i ≤ j ∧ j < 65536 + i + (k + 1) := by omega
        simp [h1, h2, h3]
      · have h3 : ¬ (65536 + i ≤ j ∧ j < 65536 + i + (k + 1)) := by omega
        simp [h1, h2, h3]

theorem init_freemap_eq (p : FILE) (n : Nat) :
    init_freemap p (n : Int) =
      ((((n + 32767) / 32768 : Nat) : Int),
        use_blocks ((n + 32767) / 32768 + 2)
          (fwrite (fseek p 8192) ((n + 32767) / 32768 * 4096) 0) 0) := by
  have hf : (if ((n : Int).tmod 32768) ≠ 0 then (n : Int).tdiv 32768 + 1 else (n : Int).tdiv 32768)
      = (((n + 32767) / 32768 : Nat) : Int) := by
    rw [show ((n : Int).tmod 32768) = ((n % 32768 : Nat) : Int) from rfl,
      show ((n : Int).tdiv 32768) = ((n / 32768 : Nat) : Int) from rfl]
    split <;> omega
  unfold init_freemap
  simp only [hf]
  have h2 : ((((n + 32767) / 32768 : Nat) : Int) + 2).toNat = (n + 32767) / 32768 + 2 := by omega
  rw [h2, Int.toNat_ofNat]

theorem init_freemap_testBit (p : FILE) (n j : Nat) :
    (init_freemap p (n : Int)).2.data.testBit j
      = xor (if 65536 ≤ j ∧ j < 65536 + 32768 * ((n + 32767) / 32768) then false
              else p.data.testBit j)
          (decide (65536 ≤ j ∧ j < 65536 + ((n + 32767) / 32768 + 2))) := by
  rw [init_freemap_eq]
  simp only []
  have h0 : ((0 : Int)) = ((0 : Nat) : Int) := rfl
  rw [h0, use_blocks_testBit, fwrite_data, fseek_data, fseek_pos _ _ (by omega), testBit_setBytes]
  have h8 : (8192 : Int).toNat = 8192 := rfl
  rw [h8]
  congr 1
  · by_cases h : 65536 ≤ j ∧ j < 65536 + 32768 * ((n + 32767) / 32768)
    · have h1 : 8 * 8192 ≤ j ∧ j < 8 * (8192 + (n + 32767) / 32768 * 4096) := by omega
      simp [h, h1]
    · have h1 : ¬ (8 * 8192 ≤ j ∧ j < 8 * (8192 + (n + 32767) / 32768 * 4096)) := by omega
      simp [h, h1]

/-- The bits after `init_freemap(blocks)`: it returns `f = ceil(blocks / 32768)`; afterwards
`check_block(i)` is true for every `i < f + 2` and false for every other block index below
`blocks`.  For `blocks = 0` no bitmap block is written, and this needs the byte at offset
8192 (which holds the bits of blocks 0 and 1) to read as zero before the call. -/
theorem init_freemap_bits (p : FILE) (n : Nat)
    (h : n = 0 → getBytes p.data 8192 1 = 0) :
    (init_freemap p (n : Int)).1 = (((n + 32767) / 32768 : Nat) : Int) ∧
    (∀ i : Nat, i < (n + 32767) / 32768 + 2 →
      (check_block (init_freemap p (n : Int)).2 (i : Int)).1 = true) ∧
    (∀ i : Nat, (n + 32767) / 32768 + 2 ≤ i → i < n →
      (check_block (init_freemap p (n : Int)).2 (i : Int)).1 = false) := by
  refine ⟨by rw [init_freemap_eq], fun i hi => ?_, fun i h1 h2 => ?_⟩
  · rw [check_block_testBit, init_freemap_testBit]
    have h3 : 65536 ≤ 65536 + i ∧ 65536 + i < 65536 + ((n + 32767) / 32768 + 2) := by omega
    by_cases hn : n = 0
    · have hz : getBytes p.data 8192 1 = 0 := h hn
      have hb : p.data.testBit (65536 + i) = false := by
        have e := testBit_getBytes p.data 8192 1 i
        have hi8 : i < 8 * 1 := by subst hn; omega
        rw [hz, Nat.zero_testBit, decide_eq_true hi8, Bool.true_and] at e
        have e2 : 8 * 8192 + i = 65536 + i := by omega
        rw [e2] at e
        exact e.symm
      have h4 : ¬ (65536 ≤ 65536 + i ∧ 65536 + i < 65536 + 32768 * ((n + 32767) / 32768)) := by
        subst hn; omega
      rw [if_neg h4, hb, decide_eq_true h3]
      rfl
    · have h4 : 65536 ≤ 65536 + i ∧ 65536 + i < 65536 + 32768 * ((n + 32767) / 32768) := by omega
      rw [if_pos h4, decide_eq_true h3]
      rfl
  · rw [check_block_testBit, init_freemap_testBit]
    have h3 : ¬ (65536 ≤ 65536 + i ∧ 65536 + i < 65536 + ((n + 32767) / 32768 + 2)) := by omega
    have h4 : 65536 ≤ 65536 + i ∧ 65536 + i < 65536 + 32768 * ((n + 32767) / 32768) := by omega
    rw [if_pos h4, decide_eq_false h3]
    rfl

/-- C11 (amended): for every block count `blocks >= 1`, `init_freemap(blocks)` returns
`f = ceil(blocks / 32768)`; afterwards `check_block(i)` is true for every `i < f + 2` and
false for every other block index below `blocks`. -/
theorem init_freemap_marks_reserved (p : FILE) (n : Nat) (hn : 1 ≤ n) :
    (init_freemap p (n : Int)).1 = (((n + 32767) / 32768 : Nat) : Int) ∧
    (∀ i : Nat, i < (n + 32767) / 32768 + 2 →
      (check_block (init_freemap p (n : Int)).2 (i : Int)).1 = true) ∧
    (∀ i : Nat, (n + 32767) / 32768 + 2 ≤ i → i < n →
      (check_block (init_freemap p (n : Int)).2 (i : Int)).1 = false) :=
  init_freemap_bits p n (fun h0 => absurd h0 (by omega))

theorem init_freemap_marks_reserved_witness :
    1 ≤ 640 ∧
    ((init_freemap ⟨0, 2621440, 0⟩ ((640 : Nat) : Int)).1 = (((640 + 32767) / 32768 : Nat) : Int) ∧
    (∀ i : Nat, i < (640 + 32767) / 32768 + 2 →
      (check_block (init_freemap ⟨0, 2621440, 0⟩ ((640 : Nat) : Int)).2 (i : Int)).1 = true) ∧
    (∀ i : Nat, (640 + 32767) / 32768 + 2 ≤ i → i < 640 →
      (check_block (init_freemap ⟨0, 2621440, 0⟩ ((640 : Nat) : Int)).2 (i : Int)).1 = false)) :=
  ⟨by decide, init_freemap_marks_reserved ⟨0, 2621440, 0⟩ 640 (by decide)⟩

/-- C11 (counterexample): for `blocks = 0` on a file of three blocks whose byte 8192 holds
3 (the bits of blocks 0 and 1), `init_freemap` returns `f = 0`, writes no bitmap block, and
its two `use_block` calls clear the two bits: `check_block(0)` and `check_block(1)` are
false.  `makefs` on a file of `2^44` bytes with that byte makes this call, because its `int`
block count is 0. -/
theorem init_freemap_zero_blocks :
    (init_freemap ⟨3 <<< 65536, 12288, 0⟩ 0).1 = 0 ∧
    (check_block (init_freemap ⟨3 <<< 65536, 12288, 0⟩ 0).2 0).1 = false ∧
    (check_block (init_freemap ⟨3 <<< 65536, 12288, 0⟩ 0).2 1).1 = false ∧
    sb_blocks (makefs ⟨3 <<< 65536, 17592186044416, 0⟩ 0).2 = 0 ∧
    (check_block (makefs ⟨3 <<< 65536, 17592186044416, 0⟩ 0).1 0).1 = false ∧
    (check_block (makefs ⟨3 <<< 65536, 17592186044416, 0⟩ 0).1 1).1 = false := by
  decide!

/-- C12: for a block index `i >= 0`, `use_block(i)` changes exactly one bit of the image, bit
`i % 8` of byte `i % 32768 / 8` of block `2 + i / 32768`; it inverts `check_block(i)`, leaves
`check_block(j)` as it was for every `j != i`, and a second `use_block(i)` restores the image
content (and, when the bitmap byte lies inside the file, its size). -/
theorem use_block_toggles_one_bit (p : FILE) (i : Nat) :
    (use_block p (i : Int)).data
      = p.data ^^^ (1 <<< (8 * ((2 + i / 32768) * 4096 + i % 32768 / 8) + i % 8)) ∧
    (check_block (use_block p (i : Int)) (i : Int)).1 = !(check_block p (i : Int)).1 ∧
    (∀ j : Nat, j ≠ i →
      (check_block (use_block p (i : Int)) (j : Int)).1 = (check_block p (j : Int)).1) ∧
    (use_block (use_block p (i : Int)) (i : Int)).data = p.data ∧
    ((2 + i / 32768) * 4096 + i % 32768 / 8 < p.size →
      (use_block (use_block p (i : Int)) (i : Int)).size = p.size) := by
  refine ⟨?_, ?_, fun j hj => ?_, ?_, fun hs => ?_⟩
  · rw [use_block_nat]
    simp only []
    congr 2
    omega
  · rw [check_block_use_block]
    simp
  · rw [check_block_use_block]
    have : ¬ i = j := fun h => hj h.symm
    simp [this]
  · rw [use_block_nat, use_block_nat]
    simp only []
    rw [Nat.xor_assoc, Nat.xor_self, Nat.xor_zero]
  · rw [use_block_nat, use_block_nat]
    simp only [bit_loc_eq]
    omega

/-- C13 (amended): `free_block(i)` inverts the bit of block `i`: afterwards `check_block(i)` is
the negation of what it was, so it is false when the block was allocated and true when the
block was free. -/
theorem free_block_inverts (p : FILE) (i : Nat) :
    (check_block (free_block p (i : Int)) (i : Int)).1 = !(check_block p (i : Int)).1 := by
  unfold free_block
  rw [check_block_use_block]
  simp

/-- C13 (counterexample): on a freshly formatted image of 640 blocks block 100 is free, and
after `free_block(100)` `check_block(100)` returns true. -/
theorem free_block_marks_free_block :
    (check_block fresh640.1 100).1 = false ∧
    (check_block (free_block fresh640.1 100) 100).1 = true := by
  decide!

/-! ## comparator (C14) -/

/-- C14 (failing input): the key `(0, 0)` precedes `(2147483649, 0)` and `(5, 0)` precedes
`(5, 2147483649)`, but `comparator` returns the positive value `2147483647` for both pairs. -/
theorem comparator_wraps :
    comparator ⟨0, 0⟩ ⟨2147483649, 0⟩ = 2147483647 ∧
    comparator ⟨5, 0⟩ ⟨5, 2147483649⟩ = 2147483647 := by
  decide!

/-- For keys whose fields are all below `2^31`, `comparator` is negative, zero or positive
exactly when the first key precedes, equals or follows the second in lexicographic order. -/
theorem comparator_lex (a b : Key)
    (ha : a.dir_id < 2147483648 ∧ a.id < 2147483648)
    (hb : b.dir_id < 2147483648 ∧ b.id < 2147483648) :
    (comparator a b < 0 ↔ a.dir_id < b.dir_id ∨ (a.dir_id = b.dir_id ∧ a.id < b.id)) ∧
    (comparator a b = 0 ↔ a = b) ∧
    (0 < comparator a b ↔ b.dir_id < a.dir_id ∨ (a.dir_id = b.dir_id ∧ b.id < a.id)) := by
  obtain ⟨ad, ai⟩ := a
  obtain ⟨bd, bi⟩ := b
  simp only [] at ha hb
  unfold comparator toInt32
  simp only [Key.mk.injEq]
  split <;> split <;> omega

theorem comparator_lex_witness :
    ((⟨1, 7⟩ : Key).dir_id < 2147483648 ∧ (⟨1, 7⟩ : Key).id < 2147483648) ∧
    ((⟨1, 9⟩ : Key).dir_id < 2147483648 ∧ (⟨1, 9⟩ : Key).id < 2147483648) ∧
    ((comparator ⟨1, 7⟩ ⟨1, 9⟩ < 0 ↔
        (⟨1, 7⟩ : Key).dir_id < (⟨1, 9⟩ : Key).dir_id ∨
          ((⟨1, 7⟩ : Key).dir_id = (⟨1, 9⟩ : Key).dir_id ∧ (⟨1, 7⟩ : Key).id < (⟨1, 9⟩ : Key).id)) ∧
    (comparator ⟨1, 7⟩ ⟨1, 9⟩ = 0 ↔ (⟨1, 7⟩ : Key) = ⟨1, 9⟩) ∧
    (0 < comparator ⟨1, 7⟩ ⟨1, 9⟩ ↔
        (⟨1, 9⟩ : Key).dir_id < (⟨1, 7⟩ : Key).dir_id ∨
          ((⟨1, 7⟩ : Key).dir_id = (⟨1, 9⟩ : Key).dir_id ∧ (⟨1, 9⟩ : Key).id < (⟨1, 7⟩ : Key).id))) :=
  ⟨by decide, by decide, comparator_lex ⟨1, 7⟩ ⟨1, 9⟩ (by decide) (by decide)⟩

/-! ## setlabel (C15) -/

theorem packStr_lt (s : List Nat) : packStr s < 2 ^ (8 * s.length) := by
  induction s with
  | nil => simp [packStr]
  | cons c cs ih =>
    simp only [packStr, List.length_cons]
    have h1 : c % 256 < 256 := Nat.mod_lt _ (by norm_num)
    have h2 : 2 ^ (8 * (cs.length + 1)) = 256 * 2 ^ (8 * cs.length) := by
      rw [show 8 * (cs.length + 1) = 8 + 8 * cs.length by ring, pow_add]; norm_num
    rw [h2]
    omega

theorem setlabel_data (p : FILE) (label : List Nat) :
    (setlabel p label).data
      = setBytes (setBytes p.data 0 4096 (strcpy (getBytes p.data 0 4096) 8 label)) 4096 4096
          (strcpy (getBytes p.data 0 4096) 8 label) := by
  obtain ⟨d, s, pos⟩ := p
  simp [setlabel, fseek_eq, fread_eq, fwrite_eq]

theorem setlabel_block0 (p : FILE) (label : List Nat) :
    getBytes (setlabel p label).data 0 4096
      = strcpy (getBytes p.data 0 4096) 8 label % 2 ^ (8 * 4096) := by
  rw [setlabel_data, getBytes_setBytes_disjoint _ _ _ _ _ _ (by omega), getBytes_setBytes_same]

theorem setlabel_block1 (p : FILE) (label : List Nat) :
    getBytes (setlabel p label).data 4096 4096
      = strcpy (getBytes p.data 0 4096) 8 label % 2 ^ (8 * 4096) := by
  rw [setlabel_data, getBytes_setBytes_same]

theorem setlabel_frame (p : FILE) (label : List Nat) (off len : Nat) (h : 8192 ≤ off) :
    getBytes (setlabel p label).data off len = getBytes p.data off len := by
  rw [setlabel_data, getBytes_setBytes_disjoint _ _ _ _ _ _ (by omega),
    getBytes_setBytes_disjoint _ _ _ _ _ _ (by omega)]

/-- `strcpy` of a string of at most 8 characters into the label field leaves the bytes
before offset 8 and from offset 16 on as they were, provided byte 16 is zero when the string
has 8 characters (its NUL lands there). -/
theorem strcpy_label_keeps (sb : Nat) (label : List Nat) (hlen : label.length ≤ 8)
    (hz : getBytes sb 16 1 = 0) (off len : Nat) (h : off + len ≤ 8 ∨ 16 ≤ off) :
    getBytes (strcpy sb 8 label) off len = getBytes sb off len := by
  unfold strcpy
  apply Nat.eq_of_testBit_eq
  intro i
  rw [testBit_getBytes, testBit_getBytes, testBit_setBytes]
  by_cases hi : i < 8 * len
  · by_cases hr : 8 * 8 ≤ 8 * off + i ∧ 8 * off + i < 8 * (8 + (label.length + 1))
    · rw [if_pos hr]
      have h16 : label.length = 8 ∧ 16 = off ∧ i < 8 := by omega
      obtain ⟨hl, ho, hi8⟩ := h16
      subst ho
      have e1 : (packStr label).testBit (8 * 16 + i - 8 * 8) = false := by
        apply Nat.testBit_lt_two_pow
        calc packStr label < 2 ^ (8 * label.length) := packStr_lt label
          _ ≤ 2 ^ (8 * 16 + i - 8 * 8) := Nat.pow_le_pow_right (by norm_num) (by omega)
      have e2 : sb.testBit (8 * 16 + i) = false := by
        have e := testBit_getBytes sb 16 1 i
        rw [hz, Nat.zero_testBit, decide_eq_true (show i < 8 * 1 by omega), Bool.true_and] at e
        exact e.symm
      rw [e1, e2]
    · rw [if_neg hr]
  · simp [hi]

theorem blocksize_byte_zero (sb : Nat) (h : sb_blocksize sb = 4096) : getBytes sb 16 1 = 0 := by
  have h1 : getBytes sb 16 4 = 4096 := by
    have hlt := getBytes_lt sb 16 4
    unfold sb_blocksize getInt toInt32 at h
    have hm : getBytes sb 16 4 % 4294967296 = getBytes sb 16 4 := Nat.mod_eq_of_lt (by omega)
    rw [hm] at h
    split at h <;> omega
  have h2 := getBytes_getBytes sb 16 4 0 1 (by omega)
  rw [h1] at h2
  rw [show 16 + 0 = 16 from rfl] at h2
  rw [← h2]
  decide

/-- What `setlabel` keeps when the low byte of `blocksize` is zero: for a label of at most 8
characters on an image whose superblock has `blocksize = 4096`, `setlabel` leaves magic, blocksize, blocks, n_inodes, inodes, root,
freeblocksmap, idcounter and the padding of the superblock as they were, stores the label,
writes the same superblock to block 0 and to block 1, and leaves every byte from offset 8192
on as it was. -/
theorem setlabel_changes_label_only (p : FILE) (label : List Nat) (hlen : label.length ≤ 8)
    (hbs : sb_blocksize (getBytes p.data 0 4096) = 4096) :
    sb_magic (getBytes (setlabel p label).data 0 4096) = sb_magic (getBytes p.data 0 4096) ∧
    sb_blocksize (getBytes (setlabel p label).data 0 4096) = 4096 ∧
    sb_blocks (getBytes (setlabel p label).data 0 4096) = sb_blocks (getBytes p.data 0 4096) ∧
    sb_n_inodes (getBytes (setlabel p label).data 0 4096)
      = sb_n_inodes (getBytes p.data 0 4096) ∧
    sb_inodes (getBytes (setlabel p label).data 0 4096) = sb_inodes (getBytes p.data 0 4096) ∧
    sb_root (getBytes (setlabel p label).data 0 4096) = sb_root (getBytes p.data 0 4096) ∧
    sb_freeblocksmap (getBytes (setlabel p label).data 0 4096)
      = sb_freeblocksmap (getBytes p.data 0 4096) ∧
    sb_idcounter (getBytes (setlabel p label).data 0 4096)
      = sb_idcounter (getBytes p.data 0 4096) ∧
    getBytes (getBytes (setlabel p label).data 0 4096) 44 4052
      = getBytes (getBytes p.data 0 4096) 44 4052 ∧
    strcmp_eq (getBytes (setlabel p label).data 0 4096) 8 label = true ∧
    getBytes (setlabel p label).data 4096 4096 = getBytes (setlabel p label).data 0 4096 ∧
    ∀ off len : Nat, 8192 ≤ off →
      getBytes (setlabel p label).data off len = getBytes p.data off len := by
  have hz := blocksize_byte_zero _ hbs
  have key : ∀ off len : Nat, off + len ≤ 4096 → (off + len ≤ 8 ∨ 16 ≤ off) →
      getBytes (getBytes (setlabel p label).data 0 4096) off len
        = getBytes (getBytes p.data 0 4096) off len := by
    intro off len h1 h2
    rw [setlabel_block0, getBytes_mod _ _ _ _ h1, strcpy_label_keeps _ _ hlen hz _ _ h2]
  have ki : ∀ off : Nat, off + 4 ≤ 4096 → 16 ≤ off →
      getInt (getBytes (setlabel p label).data 0 4096) off
        = getInt (getBytes p.data 0 4096) off := by
    intro off h1 h2
    unfold getInt
    rw [key off 4 h1 (Or.inr h2)]
  refine ⟨?_, ?_, ki 20 (by omega) (by omega), ki 24 (by omega) (by omega),
    ki 28 (by omega) (by omega), ki 32 (by omega) (by omega), ki 36 (by omega) (by omega),
    ki 40 (by omega) (by omega), key 44 4052 (by omega) (Or.inr (by omega)), ?_, ?_,
    fun off len h => setlabel_frame p label off len h⟩
  · unfold sb_magic
    exact key 0 8 (by omega) (Or.inl (by omega))
  · have := ki 16 (by omega) (by omega)
    unfold sb_blocksize at hbs ⊢
    rw [this, hbs]
  · unfold strcmp_eq
    rw [setlabel_block0, getBytes_mod _ _ _ _ (by omega)]
    unfold strcpy
    rw [getBytes_setBytes_same, Nat.mod_eq_of_lt]
    · simp
    · calc packStr label < 2 ^ (8 * label.length) := packStr_lt label
        _ ≤ 2 ^ (8 * (label.length + 1)) := Nat.pow_le_pow_right (by norm_num) (by omega)
  · rw [setlabel_block1, setlabel_block0]

theorem setlabel_changes_label_only_witness :
    ([77, 89, 68, 73, 83, 75, 48, 49] : List Nat).length ≤ 8 ∧
    sb_blocksize (getBytes fresh640.1.data 0 4096) = 4096 ∧
    sb_blocksize (getBytes (setlabel fresh640.1 [77, 89, 68, 73, 83, 75, 48, 49]).data 0 4096)
      = 4096 ∧
    strcmp_eq (getBytes (setlabel fresh640.1 [77, 89, 68, 73, 83, 75, 48, 49]).data 0 4096) 8
      [77, 89, 68, 73, 83, 75, 48, 49] = true :=
  have h := setlabel_changes_label_only fresh640.1 [77, 89, 68, 73, 83, 75, 48, 49]
    (by decide) (by decide!)
  ⟨by decide, by decide!, h.2.1, h.2.2.2.2.2.2.2.2.2.1⟩

/-! ## setlabel with a label of 8 characters (C15) -/

/-- C15 (failing input): `setlabel` with the 8-character label `MYDISK01` on
`odd_blocksize_image`, whose superblock equals that of `fresh640` except for
`blocksize = 4097`.  The label is stored, but `blocksize` reads 4096 afterwards in block 0
and in block 1: the NUL that `strcpy` appends falls on its low byte.  With the 7-character
label `MYDISK0` the field keeps 4097. -/
theorem setlabel_clobbers_blocksize :
    sb_blocksize (getBytes odd_blocksize_image.data 0 4096) = 4097 ∧
    getBytes odd_blocksize_image.data 0 16 = getBytes fresh640.1.data 0 16 ∧
    getBytes odd_blocksize_image.data 20 4076 = getBytes fresh640.1.data 20 4076 ∧
    ([77, 89, 68, 73, 83, 75, 48, 49] : List Nat).length = 8 ∧
    strcmp_eq (getBytes (setlabel odd_blocksize_image [77, 89, 68, 73, 83, 75, 48, 49]).data
      0 4096) 8 [77, 89, 68, 73, 83, 75, 48, 49] = true ∧
    sb_blocksize (getBytes (setlabel odd_blocksize_image
      [77, 89, 68, 73, 83, 75, 48, 49]).data 0 4096) = 4096 ∧
    sb_blocksize (getBytes (setlabel odd_blocksize_image
      [77, 89, 68, 73, 83, 75, 48, 49]).data 4096 4096) = 4096 ∧
    sb_blocksize (getBytes (setlabel odd_blocksize_image
      [77, 89, 68, 73, 83, 75, 48]).data 0 4096) = 4097 := by
  decide!

/-! ## new_empty_file_dir without a free inode (C16) and key uniqueness (C20) -/

/-- C16 (failing input): on `zeros256` no inode slot is free (`get_inode` returns `-1`), and
`new_empty_file_dir("a", 1, 4)` returns `-1` after consuming id 2, allocating block 3 for a
stat block and block 4 for a root leaf, writing the inode (`f[0] = 12288`, `f[1] = -1`) at
the stream position 8193 inside the bitmap, and inserting the key `(1, 2)` with link `-1`. -/
theorem new_empty_file_dir_ignores_no_inode :
    (get_inode zeros256.1 zeros256.2).map (fun r => r.1) = some (-1) ∧
    sb_root zeros256.2 = -1 ∧ sb_idcounter zeros256.2 = 2 ∧
    (check_block zeros256.1 3).1 = false ∧ (check_block zeros256.1 4).1 = false ∧
    getInt zeros256.1.data 8193 = 0 ∧
    zeros256_create_a.map (fun r => (r.1, sb_root r.2.2, sb_idcounter r.2.2))
      = some (-1, 16384, 3) ∧
    zeros256_create_a.map (fun r => ((check_block r.2.1 3).1, (check_block r.2.1 4).1))
      = some (true, true) ∧
    zeros256_create_a.map (fun r => (getInt r.2.1.data 8193, getInt r.2.1.data 8197))
      = some (12288, -1) ∧
    zeros256_create_a.map (fun r =>
        (nd_isLeaf (getBytes r.2.1.data 16384 4096), nd_size (getBytes r.2.1.data 16384 4096),
          nd_key (getBytes r.2.1.data 16384 4096) 0, nd_link (getBytes r.2.1.data 16384 4096) 0))
      = some (1, 1, ⟨1, 2⟩, -1) := by
  refine ⟨by decide!, by decide!, by decide!, by decide!, by decide!, by decide!, by decide!,
    by decide!, by decide!, by decide!⟩

/-- C20 (failing inputs): on a freshly formatted image, the single call
`new_empty_file_dir("/", 1, 2)` leaves a root leaf with the two keys `(1, 1)` and `(1, 1)`;
and the calls `new_empty_file_dir("a", 3, 4)`, `new_empty_file_dir("d", 2, 2)` leave a root
leaf with the three keys `(2, 3)`, `(3, 2)`, `(3, 2)`. -/
theorem new_empty_file_dir_duplicate_keys :
    fresh640_mkdir_slash.map (fun r =>
        (r.1, nd_isLeaf (getBytes r.2.1.data (sb_root r.2.2).toNat 4096),
          nd_size (getBytes r.2.1.data (sb_root r.2.2).toNat 4096),
          nd_key (getBytes r.2.1.data (sb_root r.2.2).toNat 4096) 0,
          nd_key (getBytes r.2.1.data (sb_root r.2.2).toNat 4096) 1))
      = some (12352, 1, 2, ⟨1, 1⟩, ⟨1, 1⟩) ∧
    fresh640_a_then_d.map (fun r =>
        (r.1, nd_isLeaf (getBytes r.2.1.data (sb_root r.2.2).toNat 4096),
          nd_size (getBytes r.2.1.data (sb_root r.2.2).toNat 4096),
          nd_key (getBytes r.2.1.data (sb_root r.2.2).toNat 4096) 0,
          nd_key (getBytes r.2.1.data (sb_root r.2.2).toNat 4096) 1,
          nd_key (getBytes r.2.1.data (sb_root r.2.2).toNat 4096) 2))
      = some (12416, 1, 3, ⟨2, 3⟩, ⟨3, 2⟩, ⟨3, 2⟩) := by
  refine ⟨by decide!, by decide!⟩

/-! ## import: sizes and the stat block (C17) -/

theorem in_f_set_ne (ino : Nat) (i : Nat) (v : Int) (h : 1 ≤ i) :
    in_f (in_set_f ino i v) 0 = in_f ino 0 := by
  unfold in_f in_set_f
  exact getInt_setInt_disjoint _ _ _ _ (Or.inl (by omega))

theorem import_clear_f0 (n : Nat) (ino : Nat) : in_f (import_clear n ino) 0 = in_f ino 0 := by
  induction n with
  | zero => rfl
  | succ n ih => rw [import_clear, in_f_set_ne _ _ _ (by omega), ih]

theorem import_direct_f0 (sb : Nat) (blocks_req : Int) (n : Nat) :
    ∀ (i : Nat) (s : ImpSt) (ino : Nat), 1 ≤ i →
      in_f (import_direct sb blocks_req n i s ino).2 0 = in_f ino 0 := by
  induction n with
  | zero => intro i s ino _; rfl
  | succ n ih =>
    intro i s ino hi
    rw [import_direct]
    split
    · simp only []
      rw [ih _ _ _ (by omega), in_f_set_ne _ _ _ (by omega), in_f_set_ne _ _ _ hi]
    · rfl

theorem import_blocks_f0 (sb : Nat) (blocks_req lastblock0 : Int) (p f : FILE) (ino : Nat) :
    in_f (import_blocks sb blocks_req lastblock0 p f ino).2 0 = in_f ino 0 := by
  have key : ∀ (c : Prop) [Decidable c] (a b : ImpSt × Nat),
      in_f (if c then a else b).2 0 = if c then in_f a.2 0 else in_f b.2 0 := by
    intro c _ a b
    split <;> rfl
  have h14 : ∀ (x : Nat) (v : Int), in_f (in_set_f x 14 v) 0 = in_f x 0 :=
    fun x v => in_f_set_ne x 14 v (by omega)
  have h15 : ∀ (x : Nat) (v : Int), in_f (in_set_f x 15 v) 0 = in_f x 0 :=
    fun x v => in_f_set_ne x 15 v (by omega)
  have hd := import_direct_f0 sb blocks_req 13 1 ⟨p, fseek f 0, 0, 0, lastblock0⟩ ino (le_refl 1)
  unfold import_blocks
  simp only [key, h14, h15, hd, ite_self]

/-- After `import_finish`, when the inode slot lies apart from the stat block, the stat block
at `in.f[0]` holds `lastblockbytes` and `blocks` as passed. -/
theorem import_finish_stat (p : FILE) (ino : Nat) (loc lb lbb b : Int) (f0 : Nat)
    (hf0 : in_f ino 0 = (f0 : Int)) (hloc : 0 ≤ loc)
    (hdisj : loc + 64 ≤ (f0 : Int) ∨ (f0 : Int) + 4096 ≤ loc) :
    st_lastblockbytes (getBytes (import_finish p ino loc lb lbb b).data f0 4096) = wrap32 lbb ∧
    st_blocks (getBytes (import_finish p ino loc lb lbb b).data f0 4096) = wrap32 b := by
  obtain ⟨l, rfl⟩ : ∃ l : Nat, loc = (l : Int) := ⟨loc.toNat, by omega⟩
  have hd : getBytes (import_finish p ino (l : Int) lb lbb b).data f0 4096
      = setInt (setInt (setInt (getBytes p.data f0 4096) 16 lb) 20 lbb) 364 b % 2 ^ (8 * 4096) := by
    unfold import_finish
    simp only [hf0, fseek_nat, fread_eq, fwrite_eq]
    rw [getBytes_setBytes_disjoint _ _ _ _ _ _ (by omega), getBytes_setBytes_same]
  unfold st_lastblockbytes st_blocks
  rw [hd, getInt_mod _ _ _ (by omega), getInt_mod _ _ _ (by omega), getInt_setInt_same,
    getInt_setInt_disjoint _ _ _ _ (by omega), getInt_setInt_same]
  exact ⟨rfl, rfl⟩

theorem import_sizes_spec (S : Nat) (h1 : 0 < S) (h2 : S < 2147483648) :
    (import_sizes (toInt32 S)).1 = (((S + 4095) / 4096 : Nat) : Int) ∧
    1 ≤ (import_sizes (toInt32 S)).2 ∧ (import_sizes (toInt32 S)).2 ≤ 4096 ∧
    ((import_sizes (toInt32 S)).1 - 1) * 4096 + (import_sizes (toInt32 S)).2 = (S : Int) := by
  rw [toInt32_natCast S h2]
  unfold import_sizes
  rw [show ((S : Int).tmod 4096) = ((S % 4096 : Nat) : Int) from rfl,
    show ((S : Int).tdiv 4096) = ((S / 4096 : Nat) : Int) from rfl]
  split
  · rename_i h
    rw [wrap32_eq _ (by omega) (by omega)]
    simp only []
    refine ⟨by omega, by omega, by omega, by omega⟩
  · rename_i h
    simp only []
    refine ⟨by omega, by omega, by omega, by omega⟩

/-- C17 (amended): for every host file size `S` with `0 < S < 2^31`, `import` computes
`blocks_req = ceil(S / 4096)` and `lastblockbytes` with `1 <= lastblockbytes <= 4096` and
`(blocks_req - 1) * 4096 + lastblockbytes = S`; and whenever `new_empty_file_dir` returned a
valid inode offset whose inode points to a stat block lying apart from the inode slot,
`import` returns and the stat block holds both values. -/
theorem import_file_sizes (junk fuel : Nat) (t : List Nat) (p : FILE) (sb : Nat) (f : FILE)
    (dir_id : Int) (name : List Nat) (h1 : 0 < f.size) (h2 : f.size < 2147483648) :
    (import_sizes (toInt32 f.size)).1 = (((f.size + 4095) / 4096 : Nat) : Int) ∧
    1 ≤ (import_sizes (toInt32 f.size)).2 ∧ (import_sizes (toInt32 f.size)).2 ≤ 4096 ∧
    ((import_sizes (toInt32 f.size)).1 - 1) * 4096 + (import_sizes (toInt32 f.size)).2
      = (f.size : Int) ∧
    ∀ (loc : Int) (p1 : FILE) (sb1 : Nat) (f0 : Nat),
      new_empty_file_dir junk fuel t p sb name dir_id 4 = some (loc, p1, sb1) →
      0 ≤ loc → in_f (getBytes p1.data loc.toNat 64) 0 = (f0 : Int) →
      (loc + 64 ≤ (f0 : Int) ∨ (f0 : Int) + 4096 ≤ loc) →
      ∃ q, import_file junk fuel t p sb f dir_id name = some (q, sb1) ∧
        st_blocks (getBytes q.data f0 4096) = (import_sizes (toInt32 f.size)).1 ∧
        st_lastblockbytes (getBytes q.data f0 4096) = (import_sizes (toInt32 f.size)).2 := by
  obtain ⟨e1, e2, e3, e4⟩ := import_sizes_spec f.size h1 h2
  refine ⟨e1, e2, e3, e4, ?_⟩
  intro loc p1 sb1 f0 hc hloc hf0 hdisj
  unfold import_file
  rw [hc]
  simp only []
  refine ⟨_, rfl, ?_⟩
  have hino : in_f (import_blocks sb1 (import_sizes (toInt32 f.size)).1 (getInt junk 0)
      (fread (fseek p1 loc) 64).2 f (import_clear 15 (fread (fseek p1 loc) 64).1)).2 0
        = (f0 : Int) := by
    rw [import_blocks_f0, import_clear_f0, fread_val, fseek_data, fseek_pos _ _ hloc, hf0]
  obtain ⟨r1, r2⟩ := import_finish_stat _ _ loc _ (import_sizes (toInt32 f.size)).2
    (import_sizes (toInt32 f.size)).1 f0 hino hloc hdisj
  refine ⟨?_, ?_⟩
  · rw [r2, wrap32_eq _ (by omega) (by omega)]
  · rw [r1, wrap32_eq _ (by omega) (by omega)]

theorem import_file_sizes_witness :
    0 < (host_As 5000).size ∧ (host_As 5000).size < 2147483648 ∧
    import_sizes (toInt32 (host_As 5000).size) = (2, 904) ∧
    ∃ q, fresh640_import = some (q, fresh640_h.2) ∧
      st_blocks (getBytes q.data 16384 4096) = (import_sizes (toInt32 (host_As 5000).size)).1 ∧
      st_lastblockbytes (getBytes q.data 16384 4096)
        = (import_sizes (toInt32 (host_As 5000).size)).2 :=
  ⟨by decide, by decide, by decide,
    (import_file_sizes 0 8 sample_time fresh640.1 fresh640.2 (host_As 5000) 1 [104] (by decide)
      (by decide)).2.2.2.2 12288 fresh640_h.1 fresh640_h.2 16384 (by decide!) (by decide)
      (by decide!) (by decide)⟩

/-- C17 (counterexample): for a host file of `S = 2^32 + 5000` bytes `import` stores
`blocks = 2` and `lastblockbytes = 904` in the stat block, the values of a 5000-byte file,
while `ceil(S / 4096) = 1048578`. -/
theorem import_file_size_truncated :
    fresh640_import_big.map (fun r =>
        (st_blocks (getBytes r.1.data 16384 4096),
          st_lastblockbytes (getBytes r.1.data 16384 4096))) = some (2, 904) ∧
    (4294972296 + 4095) / 4096 = 1048578 ∧ (2 - 1) * 4096 + 904 ≠ 4294972296 := by
  refine ⟨by decide!, by decide, by decide⟩

/-! ## import then extract (C3) -/

/-- C3 (failing input): on `ones256`, a formatted 1 MiB image of 256 blocks, `import`
of the 5-byte host file `AAAAA` as `"h"` returns, and `extract` of `"h"` then finds no entry
and writes no host file, with the superblock read back from block 0 as well as with the
in-memory one.  On `fresh640` the same two calls with a 5000-byte file give back the file. -/
theorem extract_after_import_finds_nothing :
    ones256_import.isSome = true ∧
    (ones256_import.bind fun r =>
        (extract 8 r.1 (getBytes r.1.data 0 4096) 1 [104]).map fun e => e.1) = some none ∧
    (ones256_import.bind fun r => (extract 8 r.1 r.2 1 [104]).map fun e => e.1) = some none ∧
    (fresh640_import.bind fun r => (extract 8 r.1 r.2 1 [104]).map fun e =>
        e.1.map fun g => (g.data, g.size)) = some (some ((host_As 5000).data, 5000)) := by
  refine ⟨by decide!, by decide!, by decide!, by decide!⟩

/-! ## insert on a three-level tree (C9, C18, C19) -/

theorem getBytes_eq_shift_mod (m off len : Nat) :
    getBytes m off len = (m >>> (8 * off)) % 2 ^ (8 * len) := by
  apply Nat.eq_of_testBit_eq
  intro i
  rw [testBit_getBytes, Nat.testBit_mod_two_pow, Nat.testBit_shiftRight]

theorem key_rank_shift_eq (nd i : Nat) : key_rank_shift nd i = key_rank nd i := by
  have e1 : Nat.add 96 (Nat.mul 64 i) = 8 * (12 + 8 * i) := by
    show 96 + 64 * i = 8 * (12 + 8 * i)
    omega
  have e2 : Nat.add 128 (Nat.mul 64 i) = 8 * (16 + 8 * i) := by
    show 128 + 64 * i = 8 * (16 + 8 * i)
    omega
  unfold key_rank_shift key_rank
  rw [e1, e2, getBytes_eq_shift_mod, getBytes_eq_shift_mod]
  rfl

theorem keys_below_spec (nd : Nat) : ∀ (n hi : Nat), keys_below nd n hi = true →
    (∀ j, j + 1 < n → key_rank nd j < key_rank nd (j + 1)) ∧
      (0 < n → key_rank nd (n - 1) < hi) := by
  intro n
  induction n with
  | zero =>
    intro hi _
    exact ⟨fun j hj => by omega, fun h => by omega⟩
  | succ n ih =>
    intro hi h
    simp only [keys_below, Bool.and_eq_true, Nat.blt_eq, key_rank_shift_eq] at h
    have h2 := ih _ h.2
    refine ⟨fun j hj => ?_, fun _ => h.1⟩
    rcases Nat.lt_or_ge (j + 1) n with hlt | hge
    · exact h2.1 j hlt
    · have e : j + 1 = n := by omega
      have := h2.2 (by omega)
      rw [e]
      have e2 : n - 1 = j := by omega
      rw [e2] at this
      exact this

theorem keys_ascending_of_forall (nd : Nat) : ∀ (n i : Nat),
    (∀ j, j < n → key_rank nd (i + j) < key_rank nd (i + j + 1)) →
    keys_ascending nd n i = true := by
  intro n
  induction n with
  | zero => intro i _; rfl
  | succ n ih =>
    intro i h
    simp only [keys_ascending, Bool.and_eq_true, decide_eq_true_eq]
    refine ⟨h 0 (by omega), ih (i + 1) ?_⟩
    intro j hj
    have := h (j + 1) (by omega)
    have e : i + (j + 1) = i + 1 + j := by omega
    rw [e] at this
    exact this

theorem keys_ascending_of_below (nd n : Nat)
    (h : keys_below nd n (key_rank_shift nd n) = true) : keys_ascending nd n 0 = true := by
  rw [key_rank_shift_eq] at h
  have h2 := keys_below_spec nd n _ h
  apply keys_ascending_of_forall
  intro j hj
  simp only [Nat.zero_add]
  rcases Nat.lt_or_ge (j + 1) n with hlt | hge
  · exact h2.1 j hlt
  · have e : j + 1 = n := by omega
    have := h2.2 (by omega)
    rw [e]
    have e2 : n - 1 = j := by omega
    rw [e2] at this
    exact this

/-- The cheaper test gives `tree_ok`. -/
theorem tree_ok_of_shift (p : FILE) (root : Int) (h : tree_ok_shift p root = true) :
    tree_ok p root = true := by
  simp only [tree_ok_shift, leaf_ok_shift, Bool.and_eq_true, List.all_eq_true] at h
  simp only [tree_ok, leaf_ok, Bool.and_eq_true, List.all_eq_true]
  refine ⟨⟨h.1.1, keys_ascending_of_below _ _ h.1.2⟩, fun i hi => ?_⟩
  have hl := h.2 i hi
  exact ⟨hl.1, ⟨⟨⟨⟨⟨hl.2.1.1.1.1.1, keys_ascending_of_below _ _ hl.2.1.1.1.1.2⟩,
    hl.2.1.1.1.2⟩, hl.2.1.1.2⟩, hl.2.1.2⟩, hl.2.2⟩⟩

theorem keys_ascending_lt (nd : Nat) : ∀ (n i : Nat), keys_ascending nd n i = true →
    ∀ j, j < n → key_rank nd (i + j) < key_rank nd (i + j + 1) := by
  intro n
  induction n with
  | zero => intro i _ j hj; omega
  | succ n ih =>
    intro i h j hj
    simp only [keys_ascending, Bool.and_eq_true, decide_eq_true_eq] at h
    rcases Nat.eq_zero_or_pos j with h0 | h0
    · subst h0; exact h.1
    · have := ih (i + 1) h.2 (j - 1) (by omega)
      have e : i + 1 + (j - 1) = i + j := by omega
      rw [e] at this
      exact this

theorem keys_ascending_le (nd n i : Nat) (h : keys_ascending nd n i = true) (a : Nat) :
    ∀ b, a ≤ b → b ≤ n → key_rank nd (i + a) ≤ key_rank nd (i + b) := by
  intro b hab
  induction b, hab using Nat.le_induction with
  | base => intro _; exact le_refl _
  | succ b hb ih =>
    intro hbn
    have h1 := ih (by omega)
    have h2 := keys_ascending_lt nd n i h b (by omega)
    have e : i + (b + 1) = i + b + 1 := by omega
    rw [e]
    omega

theorem keys_lack_of_forall (nd k : Nat) : ∀ (n i : Nat),
    (∀ j, j < n → key_rank nd (i + j) ≠ k) → keys_lack nd k n i = true := by
  intro n
  induction n with
  | zero => intro i _; rfl
  | succ n ih =>
    intro i h
    simp only [keys_lack, Bool.and_eq_true, decide_eq_true_eq]
    refine ⟨h 0 (by omega), ih (i + 1) ?_⟩
    intro j hj
    have := h (j + 1) (by omega)
    have e : i + (j + 1) = i + 1 + j := by omega
    rw [e] at this
    exact this

/-- In a well-formed tree a key outside the key range of a leaf is not in that leaf: the
range test `tree_lacks_ranges` gives `tree_lacks`. -/
theorem tree_lacks_of_ranges (p : FILE) (root : Int) (k : Nat) (hok : tree_ok p root = true)
    (hr : tree_lacks_ranges p root k = true) : tree_lacks p root k = true := by
  simp only [tree_ok, Bool.and_eq_true, List.all_eq_true, leaf_ok] at hok
  simp only [tree_lacks_ranges, List.all_eq_true, Bool.or_eq_true, decide_eq_true_eq] at hr
  simp only [tree_lacks, List.all_eq_true]
  intro i hi
  have hl := (hok.2 i hi).2
  have h := hr i hi
  generalize getBytes p.data (nd_link (getBytes p.data root.toNat 4096) i).toNat 4096 = nd at *
  have hasc := hl.1.1.1.1.2
  have h1 : 1 ≤ nd_size nd := by
    have := hl.1.1.1.1.1.1.2
    simpa using this
  have hm := keys_ascending_le nd _ 0 hasc
  rcases h with (h | h) | h
  · apply keys_lack_of_forall
    intro j hj
    have := hm 0 j (by omega) (by omega)
    simp only [Nat.zero_add] at this ⊢
    omega
  · apply keys_lack_of_forall
    intro j hj
    have := hm j ((nd_size nd).toNat - 1) (by omega) (le_refl _)
    simp only [Nat.zero_add] at this ⊢
    omega
  · exact h

theorem tree_image_ok : tree_ok tree_image.1 36864 = true :=
  tree_ok_of_shift _ _ (by decide!)

theorem tree_image_all_eval :
    ((tree_lacks_ranges tree_image.1 36864 (4294967296 + 119003) &&
      tree_lacks_ranges tree_image.1 36864 (4294967296 + 703)) &&
    ((decide ((nd_key (getBytes tree_image.1.data 36864 4096) 169,
        nd_key (getBytes tree_image.1.data 36864 4096) 170,
        nd_link (getBytes tree_image.1.data 36864 4096) 170)
        = (⟨1, 119002⟩, ⟨1, 119702⟩, 737280)) &&
    (decide (tree_insert_170.map (fun r =>
        (decide (getBytes r.1.data 36864 4096 = getBytes tree_image.1.data 36864 4096),
          decide (getBytes r.1.data 737280 4096 = getBytes tree_image.1.data 737280 4096),
          nd_key (getBytes r.1.data 36864 4096) 171, nd_link (getBytes r.1.data 36864 4096) 172))
        = some (true, true, ⟨1, 120402⟩, 745472)) &&
    (decide (tree_insert_170.map (fun r =>
        (nd_isLeaf (getBytes r.1.data 745472 4096), nd_size (getBytes r.1.data 745472 4096),
          nd_key (getBytes r.1.data 745472 4096) 0))
        = some (1, 171, ⟨1, 119003⟩)) &&
    decide (comparator ⟨1, 119003⟩ ⟨1, 120402⟩ < 0)))) &&
    ((decide ((nd_isLeaf (getBytes tree_image.1.data 737280 4096),
        nd_size (getBytes tree_image.1.data 737280 4096),
        keys_ascending (getBytes tree_image.1.data 737280 4096) 169 0,
        keys_lack (getBytes tree_image.1.data 737280 4096) (4294967296 + 119003) 170 0)
        = (1, 170, true, true)) &&
    (decide (tree_insert_170.map (fun r =>
        (decide (r.2 = tree_image.2),
          decide (getBytes r.1.data 737280 4096 = getBytes tree_image.1.data 737280 4096),
          nd_size (getBytes r.1.data 737280 4096),
          keys_lack (getBytes r.1.data 737280 4096) (4294967296 + 119003) 170 0))
        = some (true, true, 170, true)) &&
    decide (tree_insert_170.map (fun r =>
        (decide (getBytes r.1.data 745472 4096 = getBytes tree_image.1.data 745472 4096),
          nd_size (getBytes tree_image.1.data 745472 4096),
          nd_size (getBytes r.1.data 745472 4096), nd_key (getBytes r.1.data 745472 4096) 0))
        = some (false, 170, 171, ⟨1, 119003⟩)))) &&
    ((decide ((nd_left (getBytes tree_image.1.data 45056 4096),
        nd_right (getBytes tree_image.1.data 45056 4096),
        nd_size (getBytes tree_image.1.data 45056 4096),
        nd_link (getBytes tree_image.1.data 36864 4096) 1) = (40960, 49152, 339, 45056)) &&
    (decide (tree_insert_1.map (fun r =>
        (nd_link (getBytes r.1.data 36864 4096) 1, nd_link (getBytes r.1.data 36864 4096) 2,
          nd_key (getBytes r.1.data 36864 4096) 1))
        = some (749568, 753664, ⟨1, 1040⟩)) &&
    (decide (tree_insert_1.map (fun r =>
        (nd_left (getBytes r.1.data 749568 4096), nd_right (getBytes r.1.data 749568 4096),
          nd_left (getBytes r.1.data 753664 4096), nd_right (getBytes r.1.data 753664 4096)))
        = some (40960, 753664, 749568, 49152)) &&
    (decide (tree_insert_1.map (fun r =>
        (nd_left (getBytes r.1.data 49152 4096), nd_right (getBytes r.1.data 40960 4096),
          decide (getBytes r.1.data 49152 4096 = getBytes tree_image.1.data 49152 4096)))
        = some (45056, 53248, true)) &&
    decide (tree_insert_1.map (fun r => decide (getBytes r.1.data 40960 4096
        = nd_set_left (getBytes tree_image.1.data 49152 4096) 753664)) = some true))))) &&
    ((decide (spec_descend tree_image.1.data ⟨1, 119003⟩ 8 (sb_root tree_image.2) = some 737280) &&
    (decide ((insert_descent 8 tree_image.1 ⟨1, 119003⟩ tree_image.2).map (fun r =>
        (r.2, decide (r.1 = getBytes tree_image.1.data 741376 4096),
          decide (r.1 = getBytes tree_image.1.data 737280 4096))) = some (-1, true, false)) &&
    (decide (spec_descend tree_image.1.data ⟨1, 703⟩ 8 (sb_root tree_image.2) = some 45056) &&
    decide ((insert_descent 8 tree_image.1 ⟨1, 703⟩ tree_image.2).map (fun r =>
        (r.2, decide (r.1 = getBytes tree_image.1.data 45056 4096))) = some (45056, true))))) &&
    ((decide (((check_block tree_image.1 11).1, (check_block tree_image.1 183).1,
        (check_block tree_image.1 184).1, getInt tree_image.1.data 13824)
        = (true, false, false, -1)) &&
    (decide (tree_insert_1.map (fun r => ((check_block r.1 11).1, (check_block r.1 183).1,
        (check_block r.1 184).1, getInt r.1.data 13824)) = some (true, true, true, -2)) &&
    decide (tree_insert_1.map (fun r => decide (getBytes r.1.data 8192 4096
        = getBytes (use_block (use_block tree_image.1 183) 184).data 8192 4096))
        = some true))) &&
    ((decide (nd_size (getBytes tree_image.1.data (36864 : Int).toNat 4096) = ((172 : Nat) : Int)) &&
    ((List.range 172).all (fun j => decide
        ((nd_key (getBytes tree_image.1.data (36864 : Int).toNat 4096) j).dir_id < 2147483648 ∧
          (nd_key (getBytes tree_image.1.data (36864 : Int).toNat 4096) j).id < 2147483648)) &&
    (List.range 172).all (fun j => decide (j + 1 < 172 →
        rank (nd_key (getBytes tree_image.1.data (36864 : Int).toNat 4096) j)
          < rank (nd_key (getBytes tree_image.1.data (36864 : Int).toNat 4096) (j + 1)))))) &&
    (decide (nd_size (getBytes tree_image.1.data 45056 4096) = 339) &&
    ((List.range 339).all (fun j => decide (j + 1 < 339 →
        comparator (nd_key (getBytes tree_image.1.data 45056 4096) j)
          (nd_key (getBytes tree_image.1.data 45056 4096) (j + 1)) < 0)) &&
    (List.range 339).all (fun j =>
        decide (nd_key (getBytes tree_image.1.data 45056 4096) j ≠ ⟨1, 703⟩))))))))))) = true := by
  decide!

theorem tree_image_ranges_eval :
    (tree_lacks_ranges tree_image.1 36864 (4294967296 + 119003) &&
      tree_lacks_ranges tree_image.1 36864 (4294967296 + 703)) = true :=
  (Bool.and_eq_true_iff.mp tree_image_all_eval).1

theorem tree_insert_170_eval :
    (decide ((nd_key (getBytes tree_image.1.data 36864 4096) 169,
        nd_key (getBytes tree_image.1.data 36864 4096) 170,
        nd_link (getBytes tree_image.1.data 36864 4096) 170)
        = (⟨1, 119002⟩, ⟨1, 119702⟩, 737280)) &&
    (decide (tree_insert_170.map (fun r =>
        (decide (getBytes r.1.data 36864 4096 = getBytes tree_image.1.data 36864 4096),
          decide (getBytes r.1.data 737280 4096 = getBytes tree_image.1.data 737280 4096),
          nd_key (getBytes r.1.data 36864 4096) 171, nd_link (getBytes r.1.data 36864 4096) 172))
        = some (true, true, ⟨1, 120402⟩, 745472)) &&
    (decide (tree_insert_170.map (fun r =>
        (nd_isLeaf (getBytes r.1.data 745472 4096), nd_size (getBytes r.1.data 745472 4096),
          nd_key (getBytes r.1.data 745472 4096) 0))
        = some (1, 171, ⟨1, 119003⟩)) &&
    decide (comparator ⟨1, 119003⟩ ⟨1, 120402⟩ < 0)))) = true :=
  (Bool.and_eq_true_iff.mp (Bool.and_eq_true_iff.mp tree_image_all_eval).2).1

theorem tree_target_leaf_eval :
    (decide ((nd_isLeaf (getBytes tree_image.1.data 737280 4096),
        nd_size (getBytes tree_image.1.data 737280 4096),
        keys_ascending (getBytes tree_image.1.data 737280 4096) 169 0,
        keys_lack (getBytes tree_image.1.data 737280 4096) (4294967296 + 119003) 170 0)
        = (1, 170, true, true)) &&
    (decide (tree_insert_170.map (fun r =>
        (decide (r.2 = tree_image.2),
          decide (getBytes r.1.data 737280 4096 = getBytes tree_image.1.data 737280 4096),
          nd_size (getBytes r.1.data 737280 4096),
          keys_lack (getBytes r.1.data 737280 4096) (4294967296 + 119003) 170 0))
        = some (true, true, 170, true)) &&
    decide (tree_insert_170.map (fun r =>
        (decide (getBytes r.1.data 745472 4096 = getBytes tree_image.1.data 745472 4096),
          nd_size (getBytes tree_image.1.data 745472 4096),
          nd_size (getBytes r.1.data 745472 4096), nd_key (getBytes r.1.data 745472 4096) 0))
        = some (false, 170, 171, ⟨1, 119003⟩)))) = true :=
  (Bool.and_eq_true_iff.mp (Bool.and_eq_true_iff.mp (Bool.and_eq_true_iff.mp tree_image_all_eval).2).2).1

theorem tree_insert_1_eval :
    (decide ((nd_left (getBytes tree_image.1.data 45056 4096),
        nd_right (getBytes tree_image.1.data 45056 4096),
        nd_size (getBytes tree_image.1.data 45056 4096),
        nd_link (getBytes tree_image.1.data 36864 4096) 1) = (40960, 49152, 339, 45056)) &&
    (decide (tree_insert_1.map (fun r =>
        (nd_link (getBytes r.1.data 36864 4096) 1, nd_link (getBytes r.1.data 36864 4096) 2,
          nd_key (getBytes r.1.data 36864 4096) 1))
        = some (749568, 753664, ⟨1, 1040⟩)) &&
    (decide (tree_insert_1.map (fun r =>
        (nd_left (getBytes r.1.data 749568 4096), nd_right (getBytes r.1.data 749568 4096),
          nd_left (getBytes r.1.data 753664 4096), nd_right (getBytes r.1.data 753664 4096)))
        = some (40960, 753664, 749568, 49152)) &&
    (decide (tree_insert_1.map (fun r =>
        (nd_left (getBytes r.1.data 49152 4096), nd_right (getBytes r.1.data 40960 4096),
          decide (getBytes r.1.data 49152 4096 = getBytes tree_image.1.data 49152 4096)))
        = some (45056, 53248, true)) &&
    decide (tree_insert_1.map (fun r => decide (getBytes r.1.data 40960 4096
        = nd_set_left (getBytes tree_image.1.data 49152 4096) 753664)) = some true))))) = true :=
  (Bool.and_eq_true_iff.mp (Bool.and_eq_true_iff.mp (Bool.and_eq_true_iff.mp (Bool.and_eq_true_iff.mp tree_image_all_eval).2).2).2).1

theorem tree_descent_eval :
    (decide (spec_descend tree_image.1.data ⟨1, 119003⟩ 8 (sb_root tree_image.2) = some 737280) &&
    (decide ((insert_descent 8 tree_image.1 ⟨1, 119003⟩ tree_image.2).map (fun r =>
        (r.2, decide (r.1 = getBytes tree_image.1.data 741376 4096),
          decide (r.1 = getBytes tree_image.1.data 737280 4096))) = some (-1, true, false)) &&
    (decide (spec_descend tree_image.1.data ⟨1, 703⟩ 8 (sb_root tree_image.2) = some 45056) &&
    decide ((insert_descent 8 tree_image.1 ⟨1, 703⟩ tree_image.2).map (fun r =>
        (r.2, decide (r.1 = getBytes tree_image.1.data 45056 4096))) = some (45056, true))))) = true :=
  (Bool.and_eq_true_iff.mp (Bool.and_eq_true_iff.mp (Bool.and_eq_true_iff.mp (Bool.and_eq_true_iff.mp (Bool.and_eq_true_iff.mp tree_image_all_eval).2).2).2).2).1

theorem tree_insert_1_bitmap_eval :
    (decide (((check_block tree_image.1 11).1, (check_block tree_image.1 183).1,
        (check_block tree_image.1 184).1, getInt tree_image.1.data 13824)
        = (true, false, false, -1)) &&
    (decide (tree_insert_1.map (fun r => ((check_block r.1 11).1, (check_block r.1 183).1,
        (check_block r.1 184).1, getInt r.1.data 13824)) = some (true, true, true, -2)) &&
    decide (tree_insert_1.map (fun r => decide (getBytes r.1.data 8192 4096
        = getBytes (use_block (use_block tree_image.1 183) 184).data 8192 4096))
        = some true))) = true :=
  (Bool.and_eq_true_iff.mp (Bool.and_eq_true_iff.mp (Bool.and_eq_true_iff.mp (Bool.and_eq_true_iff.mp (Bool.and_eq_true_iff.mp (Bool.and_eq_true_iff.mp tree_image_all_eval).2).2).2).2).2).1

theorem tree_root_lex_eval :
    (decide (nd_size (getBytes tree_image.1.data (36864 : Int).toNat 4096) = ((172 : Nat) : Int)) &&
    ((List.range 172).all (fun j => decide
        ((nd_key (getBytes tree_image.1.data (36864 : Int).toNat 4096) j).dir_id < 2147483648 ∧
          (nd_key (getBytes tree_image.1.data (36864 : Int).toNat 4096) j).id < 2147483648)) &&
    (List.range 172).all (fun j => decide (j + 1 < 172 →
        rank (nd_key (getBytes tree_image.1.data (36864 : Int).toNat 4096) j)
          < rank (nd_key (getBytes tree_image.1.data (36864 : Int).toNat 4096) (j + 1)))))) = true :=
  (Bool.and_eq_true_iff.mp (Bool.and_eq_true_iff.mp (Bool.and_eq_true_iff.mp (Bool.and_eq_true_iff.mp (Bool.and_eq_true_iff.mp (Bool.and_eq_true_iff.mp (Bool.and_eq_true_iff.mp tree_image_all_eval).2).2).2).2).2).2).1

theorem tree_leaf1_eval :
    (decide (nd_size (getBytes tree_image.1.data 45056 4096) = 339) &&
    ((List.range 339).all (fun j => decide (j + 1 < 339 →
        comparator (nd_key (getBytes tree_image.1.data 45056 4096) j)
          (nd_key (getBytes tree_image.1.data 45056 4096) (j + 1)) < 0)) &&
    (List.range 339).all (fun j =>
        decide (nd_key (getBytes tree_image.1.data 45056 4096) j ≠ ⟨1, 703⟩)))) = true :=
  (Bool.and_eq_true_iff.mp (Bool.and_eq_true_iff.mp (Bool.and_eq_true_iff.mp (Bool.and_eq_true_iff.mp (Bool.and_eq_true_iff.mp (Bool.and_eq_true_iff.mp (Bool.and_eq_true_iff.mp tree_image_all_eval).2).2).2).2).2).2).2

theorem tree_image_lacks_119003 : tree_lacks tree_image.1 36864 (4294967296 + 119003) = true :=
  tree_lacks_of_ranges _ _ _ tree_image_ok (Bool.and_eq_true_iff.mp tree_image_ranges_eval).1

theorem tree_image_lacks_703 : tree_lacks tree_image.1 36864 (4294967296 + 703) = true :=
  tree_lacks_of_ranges _ _ _ tree_image_ok (Bool.and_eq_true_iff.mp tree_image_ranges_eval).2

theorem tree_image_data_ok : tree_ok tree_image_data.1 36864 = true :=
  tree_ok_of_shift _ _ (by decide!)

theorem tree_data_insert_eval :
    (decide (getBytes tree_image_data.1.data 0 4096 = tree_image_data.2) &&
    (decide (getBytes tree_image_data.1.data 4096 4096 = tree_image_data.2) &&
    (decide ((nd_key (getBytes tree_image_data.1.data 36864 4096) 169,
        nd_key (getBytes tree_image_data.1.data 36864 4096) 170,
        nd_link (getBytes tree_image_data.1.data 36864 4096) 170)
        = (⟨1, 119002⟩, ⟨1, 119702⟩, 737280)) &&
    (decide ((nd_size (getBytes tree_image_data.1.data 737280 4096),
        nd_link (getBytes tree_image_data.1.data 737280 4096) 170,
        nd_isLeaf (getBytes tree_image_data.1.data 741376 4096),
        nd_size (getBytes tree_image_data.1.data 741376 4096),
        nd_link (getBytes tree_image_data.1.data 741376 4096) 0) = (170, -1, 0, 0, 38)) &&
    (decide ((nd_isLeaf (getBytes tree_image_data.1.data 38 4096),
        nd_size (getBytes tree_image_data.1.data 38 4096)) = (1, 0)) &&
    (decide (tree_data_insert.map (fun r =>
        (decide (r.2 = tree_image_data.2), decide (getBytes r.1.data 4096 4096 = r.2),
          decide (r.1.data = setInt (setInt (setInt (setInt tree_image_data.1.data 46 1) 50 1)
            54 119003) 2762 12288)))
        = some (true, true, true)) &&
    decide (tree_data_insert.map (fun r =>
        (decide (getBytes r.1.data 0 4096 = r.2), getInt (getBytes r.1.data 0 4096) 46,
          getInt r.2 46)) = some (false, 1, 0)))))))) = true := by
  decide!

/-- C9 (failing input): `insert(p, 119003, 1, 12288, sb)` on `tree_image_data`, a well-formed
tree whose blocks 0 and 1 equal the in-memory superblock.  The key lies between the root
keys 169 and 170; the leaf at root link 170 (offset 737280) has 170 keys and `link[170] =
-1`, the block after it (offset 741376) reads as a node with `isLeaf = 0`, `size = 0`,
`link[0] = 38`, and the 4096 bytes at offset 38 read as a node with `isLeaf = 1`,
`size = 0`.  The call returns with the in-memory superblock unchanged and block 1 equal to
it, after writing `size = 1`, the key and the link at offsets 46, 50, 54 and 2762: block 0
differs from the in-memory superblock. -/
theorem insert_overwrites_superblock :
    tree_ok tree_image_data.1 36864 = true ∧
    getBytes tree_image_data.1.data 0 4096 = tree_image_data.2 ∧
    getBytes tree_image_data.1.data 4096 4096 = tree_image_data.2 ∧
    (nd_key (getBytes tree_image_data.1.data 36864 4096) 169,
      nd_key (getBytes tree_image_data.1.data 36864 4096) 170,
      nd_link (getBytes tree_image_data.1.data 36864 4096) 170)
      = (⟨1, 119002⟩, ⟨1, 119702⟩, 737280) ∧
    (nd_size (getBytes tree_image_data.1.data 737280 4096),
      nd_link (getBytes tree_image_data.1.data 737280 4096) 170,
      nd_isLeaf (getBytes tree_image_data.1.data 741376 4096),
      nd_size (getBytes tree_image_data.1.data 741376 4096),
      nd_link (getBytes tree_image_data.1.data 741376 4096) 0) = (170, -1, 0, 0, 38) ∧
    (nd_isLeaf (getBytes tree_image_data.1.data 38 4096),
      nd_size (getBytes tree_image_data.1.data 38 4096)) = (1, 0) ∧
    tree_data_insert.map (fun r =>
        (decide (r.2 = tree_image_data.2), decide (getBytes r.1.data 4096 4096 = r.2),
          decide (r.1.data = setInt (setInt (setInt (setInt tree_image_data.1.data 46 1) 50 1)
            54 119003) 2762 12288)))
      = some (true, true, true) ∧
    tree_data_insert.map (fun r =>
        (decide (getBytes r.1.data 0 4096 = r.2), getInt (getBytes r.1.data 0 4096) 46,
          getInt r.2 46)) = some (false, 1, 0) := by
  have h := tree_data_insert_eval
  simp only [Bool.and_eq_true, decide_eq_true_eq] at h
  exact ⟨tree_image_data_ok, h.1, h.2.1, h.2.2.1, h.2.2.2.1, h.2.2.2.2.1, h.2.2.2.2.2.1,
    h.2.2.2.2.2.2⟩

/-- C18 (failing input): `insert(p, 119003, 1, 12288, sb)` on `tree_image`, a well-formed
tree that does not hold the key.  The key `(1, 119003)` lies between the root keys 169 and
170, so it belongs to child 170 (offset 737280), a leaf of 170 keys.  After the call the root
and that leaf are as before; the leaf at root link 172 (offset 745472) has 171 keys and
first key `(1, 119003)`, below the root key 171, `(1, 120402)`, that precedes its link. -/
theorem insert_into_wrong_leaf :
    tree_ok tree_image.1 36864 = true ∧
    tree_lacks tree_image.1 36864 (4294967296 + 119003) = true ∧
    (nd_key (getBytes tree_image.1.data 36864 4096) 169,
      nd_key (getBytes tree_image.1.data 36864 4096) 170,
      nd_link (getBytes tree_image.1.data 36864 4096) 170)
      = (⟨1, 119002⟩, ⟨1, 119702⟩, 737280) ∧
    tree_insert_170.map (fun r =>
        (decide (getBytes r.1.data 36864 4096 = getBytes tree_image.1.data 36864 4096),
          decide (getBytes r.1.data 737280 4096 = getBytes tree_image.1.data 737280 4096),
          nd_key (getBytes r.1.data 36864 4096) 171, nd_link (getBytes r.1.data 36864 4096) 172))
      = some (true, true, ⟨1, 120402⟩, 745472) ∧
    tree_insert_170.map (fun r =>
        (nd_isLeaf (getBytes r.1.data 745472 4096), nd_size (getBytes r.1.data 745472 4096),
          nd_key (getBytes r.1.data 745472 4096) 0))
      = some (1, 171, ⟨1, 119003⟩) ∧
    comparator ⟨1, 119003⟩ ⟨1, 120402⟩ < 0 := by
  have h := tree_insert_170_eval
  simp only [Bool.and_eq_true, decide_eq_true_eq] at h
  exact ⟨tree_image_ok, tree_image_lacks_119003, h.1, h.2.1, h.2.2.1, h.2.2.2⟩

/-- C19 (failing input): `insert(p, 703, 1, 12288, sb)` on `tree_image`, a well-formed tree
that does not hold the key, splits the full leaf at root link 1 (offset 45056, 339 keys, left
neighbour at 40960, right neighbour at 49152) into `L1` at 749568 and `L2` at 753664, the
new root links 1 and 2.  `L1` and `L2` are linked as claimed, but afterwards the former right
neighbour is unchanged, with `left = 45056`, and the block of the former left neighbour holds
a copy of the right neighbour with `left = 753664`, so that its `right` is 53248. -/
theorem split_patches_wrong_neighbour :
    tree_ok tree_image.1 36864 = true ∧
    tree_lacks tree_image.1 36864 (4294967296 + 703) = true ∧
    (nd_left (getBytes tree_image.1.data 45056 4096),
      nd_right (getBytes tree_image.1.data 45056 4096),
      nd_size (getBytes tree_image.1.data 45056 4096),
      nd_link (getBytes tree_image.1.data 36864 4096) 1) = (40960, 49152, 339, 45056) ∧
    tree_insert_1.map (fun r =>
        (nd_link (getBytes r.1.data 36864 4096) 1, nd_link (getBytes r.1.data 36864 4096) 2,
          nd_key (getBytes r.1.data 36864 4096) 1))
      = some (749568, 753664, ⟨1, 1040⟩) ∧
    tree_insert_1.map (fun r =>
        (nd_left (getBytes r.1.data 749568 4096), nd_right (getBytes r.1.data 749568 4096),
          nd_left (getBytes r.1.data 753664 4096), nd_right (getBytes r.1.data 753664 4096)))
      = some (40960, 753664, 749568, 49152) ∧
    tree_insert_1.map (fun r =>
        (nd_left (getBytes r.1.data 49152 4096), nd_right (getBytes r.1.data 40960 4096),
          decide (getBytes r.1.data 49152 4096 = getBytes tree_image.1.data 49152 4096)))
      = some (45056, 53248, true) ∧
    tree_insert_1.map (fun r => decide (getBytes r.1.data 40960 4096
        = nd_set_left (getBytes tree_image.1.data 49152 4096) 753664)) = some true := by
  have h := tree_insert_1_eval
  simp only [Bool.and_eq_true, decide_eq_true_eq] at h
  exact ⟨tree_image_ok, tree_image_lacks_703, h.1, h.2.1, h.2.2.1, h.2.2.2.1, h.2.2.2.2⟩

/-! ## The descent loop of insert against the specified descent (C21) -/

/-- C21 (failing input): the key `(1, 119003)` on `tree_image`, a well-formed tree.  The
specified descent stops at the leaf at offset 737280 (root link 170).  The descent loop of
`insert` ends with `curr = -1` and the node buffer holding the leaf stored at offset 741376,
the block after that leaf, not the leaf at 737280.  For the key `(1, 703)` both stop at the
leaf at offset 45056. -/
theorem insert_descent_leaves_specified_leaf :
    tree_ok tree_image.1 36864 = true ∧
    spec_descend tree_image.1.data ⟨1, 119003⟩ 8 (sb_root tree_image.2) = some 737280 ∧
    (insert_descent 8 tree_image.1 ⟨1, 119003⟩ tree_image.2).map (fun r =>
        (r.2, decide (r.1 = getBytes tree_image.1.data 741376 4096),
          decide (r.1 = getBytes tree_image.1.data 737280 4096))) = some (-1, true, false) ∧
    spec_descend tree_image.1.data ⟨1, 703⟩ 8 (sb_root tree_image.2) = some 45056 ∧
    (insert_descent 8 tree_image.1 ⟨1, 703⟩ tree_image.2).map (fun r =>
        (r.2, decide (r.1 = getBytes tree_image.1.data 45056 4096))) = some (45056, true) := by
  have h := tree_descent_eval
  simp only [Bool.and_eq_true, decide_eq_true_eq] at h
  exact ⟨tree_image_ok, h.1, h.2.1, h.2.2.1, h.2.2.2⟩

/-! ## The bitmap after a leaf split (C24) -/

/-- C24 (failing input): `insert(p, 703, 1, 12288, sb)` on `tree_image` splits the full leaf
at byte offset 45056 (block 11) into two new leaves at blocks 183 and 184.  Before the call
the bit of block 11 is set, those of blocks 183 and 184 are clear, and the `int` at offset
13824 (`f[0]` of inode slot 24) is `-1`.  After the call the bits of blocks 183 and 184 are
set, the bit of block 11 is still set, the bitmap block equals the old one with the bits of
183 and 184 toggled, and the `int` at offset 13824 is `-2`: the freeing step toggled bit 0
of the byte at `8192 + 45056 / 8`, in the inode table. -/
theorem split_frees_wrong_bit :
    tree_ok tree_image.1 36864 = true ∧
    ((check_block tree_image.1 11).1, (check_block tree_image.1 183).1,
      (check_block tree_image.1 184).1, getInt tree_image.1.data 13824)
      = (true, false, false, -1) ∧
    tree_insert_1.map (fun r => ((check_block r.1 11).1, (check_block r.1 183).1,
      (check_block r.1 184).1, getInt r.1.data 13824)) = some (true, true, true, -2) ∧
    tree_insert_1.map (fun r => decide (getBytes r.1.data 8192 4096
      = getBytes (use_block (use_block tree_image.1 183) 184).data 8192 4096)) = some true := by
  have h := tree_insert_1_bitmap_eval
  simp only [Bool.and_eq_true, decide_eq_true_eq] at h
  exact ⟨tree_image_ok, h.1, h.2.1, h.2.2⟩

/-! ## Fields of a node -/

theorem getU32_lt (m off : Nat) : getU32 m off < 4294967296 := by
  have := getBytes_lt m off 4
  unfold getU32; omega

theorem nd_key_lt (n j : Nat) : (nd_key n j).dir_id < 4294967296 ∧ (nd_key n j).id < 4294967296 :=
  ⟨getU32_lt _ _, getU32_lt _ _⟩

theorem nd_link_range (n j : Nat) : -2147483648 ≤ nd_link n j ∧ nd_link n j < 2147483648 :=
  toInt32_range _

theorem nd_link_set_link (n i j : Nat) (v : Int) :
    nd_link (nd_set_link n i v) j = if i = j then wrap32 v else nd_link n j := by
  unfold nd_link nd_set_link
  split
  · next h => subst h; exact getInt_setInt_same _ _ _
  · next h => exact getInt_setInt_disjoint _ _ _ _ (by omega)

theorem nd_link_set_key (n i j : Nat) (k : Key) (hi : i < 339) :
    nd_link (nd_set_key n i k) j = nd_link n j := by
  unfold nd_link nd_set_key
  rw [getInt_setBytes_disjoint _ _ _ _ _ (by omega), getInt_setBytes_disjoint _ _ _ _ _ (by omega)]

theorem nd_key_set_key (n i j : Nat) (k : Key) :
    nd_key (nd_set_key n i k) j
      = if i = j then ⟨k.dir_id % 4294967296, k.id % 4294967296⟩ else nd_key n j := by
  unfold nd_key nd_set_key getU32
  split
  · next h =>
    subst h
    rw [getBytes_setBytes_disjoint _ _ _ _ _ _ (by omega), getBytes_setBytes_same,
      getBytes_setBytes_same]
    rfl
  · next h =>
    rw [getBytes_setBytes_disjoint _ _ _ _ _ _ (by omega),
      getBytes_setBytes_disjoint _ _ _ _ _ _ (by omega),
      getBytes_setBytes_disjoint _ _ _ _ _ _ (by omega),
      getBytes_setBytes_disjoint _ _ _ _ _ _ (by omega)]

theorem nd_key_set_link (n i j : Nat) (v : Int) (hj : j < 339) :
    nd_key (nd_set_link n i v) j = nd_key n j := by
  unfold nd_key nd_set_link setInt getU32
  rw [getBytes_setBytes_disjoint _ _ _ _ _ _ (by omega),
    getBytes_setBytes_disjoint _ _ _ _ _ _ (by omega)]

theorem nd_head_set_key (n i : Nat) (k : Key) :
    nd_parent (nd_set_key n i k) = nd_parent n ∧ nd_isLeaf (nd_set_key n i k) = nd_isLeaf n ∧
    nd_size (nd_set_key n i k) = nd_size n := by
  unfold nd_parent nd_isLeaf nd_size nd_set_key
  refine ⟨?_, ?_, ?_⟩ <;>
    rw [getInt_setBytes_disjoint _ _ _ _ _ (by omega), getInt_setBytes_disjoint _ _ _ _ _ (by omega)]

theorem nd_tail_set_key (n i : Nat) (k : Key) (hi : i < 339) :
    nd_left (nd_set_key n i k) = nd_left n ∧ nd_right (nd_set_key n i k) = nd_right n := by
  unfold nd_left nd_right nd_set_key
  refine ⟨?_, ?_⟩ <;>
    rw [getInt_setBytes_disjoint _ _ _ _ _ (by omega), getInt_setBytes_disjoint _ _ _ _ _ (by omega)]

theorem nd_head_set_link (n i : Nat) (v : Int) :
    nd_parent (nd_set_link n i v) = nd_parent n ∧ nd_isLeaf (nd_set_link n i v) = nd_isLeaf n ∧
    nd_size (nd_set_link n i v) = nd_size n := by
  unfold nd_parent nd_isLeaf nd_size nd_set_link
  refine ⟨?_, ?_, ?_⟩ <;> exact getInt_setInt_disjoint _ _ _ _ (by omega)

theorem nd_tail_set_link (n i : Nat) (v : Int) (hi : i < 340) :
    nd_left (nd_set_link n i v) = nd_left n ∧ nd_right (nd_set_link n i v) = nd_right n := by
  unfold nd_left nd_right nd_set_link
  refine ⟨?_, ?_⟩ <;> exact getInt_setInt_disjoint _ _ _ _ (by omega)

theorem nd_set_size_fields (n : Nat) (v : Int) :
    nd_size (nd_set_size n v) = wrap32 v ∧ nd_parent (nd_set_size n v) = nd_parent n ∧
    nd_isLeaf (nd_set_size n v) = nd_isLeaf n ∧ nd_left (nd_set_size n v) = nd_left n ∧
    nd_right (nd_set_size n v) = nd_right n ∧
    (∀ j, nd_key (nd_set_size n v) j = nd_key n j) ∧
    (∀ j, nd_link (nd_set_size n v) j = nd_link n j) := by
  unfold nd_size nd_parent nd_isLeaf nd_left nd_right nd_set_size
  refine ⟨getInt_setInt_same _ _ _, getInt_setInt_disjoint _ _ _ _ (by omega),
    getInt_setInt_disjoint _ _ _ _ (by omega), getInt_setInt_disjoint _ _ _ _ (by omega),
    getInt_setInt_disjoint _ _ _ _ (by omega), ?_, ?_⟩
  · intro j
    unfold nd_key getU32 setInt
    rw [getBytes_setBytes_disjoint _ _ _ _ _ _ (by omega),
      getBytes_setBytes_disjoint _ _ _ _ _ _ (by omega)]
  · intro j
    unfold nd_link
    exact getInt_setInt_disjoint _ _ _ _ (by omega)

theorem nd_mod_fields (x : Nat) :
    nd_parent (x % 2 ^ (8 * 4096)) = nd_parent x ∧ nd_isLeaf (x % 2 ^ (8 * 4096)) = nd_isLeaf x ∧
    nd_size (x % 2 ^ (8 * 4096)) = nd_size x ∧ nd_left (x % 2 ^ (8 * 4096)) = nd_left x ∧
    nd_right (x % 2 ^ (8 * 4096)) = nd_right x ∧
    (∀ j, j < 339 → nd_key (x % 2 ^ (8 * 4096)) j = nd_key x j) ∧
    (∀ j, j < 340 → nd_link (x % 2 ^ (8 * 4096)) j = nd_link x j) := by
  unfold nd_parent nd_isLeaf nd_size nd_left nd_right
  refine ⟨getInt_mod _ _ _ (by omega), getInt_mod _ _ _ (by omega), getInt_mod _ _ _ (by omega),
    getInt_mod _ _ _ (by omega), getInt_mod _ _ _ (by omega), ?_, ?_⟩
  · intro j hj
    unfold nd_key getU32
    rw [getBytes_mod _ _ _ _ (by omega), getBytes_mod _ _ _ _ (by omega)]
  · intro j hj
    unfold nd_link
    exact getInt_mod _ _ _ (by omega)

theorem key_mod_eq (k : Key) (h : k.dir_id < 4294967296 ∧ k.id < 4294967296) :
    (⟨k.dir_id % 4294967296, k.id % 4294967296⟩ : Key) = k := by
  obtain ⟨d, i⟩ := k
  simp only [] at h
  rw [Nat.mod_eq_of_lt h.1, Nat.mod_eq_of_lt h.2]

/-! ## The order of comparator -/

theorem comparator_flip (a b : Key) (ha : a.dir_id < 4294967296 ∧ a.id < 4294967296)
    (hb : b.dir_id < 4294967296 ∧ b.id < 4294967296) (h : ¬ comparator a b < 0) (hne : a ≠ b) :
    comparator b a < 0 := by
  obtain ⟨ad, ai⟩ := a
  obtain ⟨bd, bi⟩ := b
  simp only [] at ha hb
  simp only [ne_eq, Key.mk.injEq] at hne
  unfold comparator toInt32 at *
  simp only [] at *
  split_ifs at * <;> omega

theorem key_scan_spec (n : Nat) (k : Key) (size : Nat) (hs : nd_size n = (size : Int)) :
    ∀ fuel i, i + fuel = size →
      i ≤ key_scan n k fuel i ∧ key_scan n k fuel i ≤ size ∧
      (∀ j, i ≤ j → j < key_scan n k fuel i → ¬ comparator k (nd_key n j) < 0) ∧
      (key_scan n k fuel i < size → comparator k (nd_key n (key_scan n k fuel i)) < 0) := by
  intro fuel
  induction fuel with
  | zero =>
    intro i hi
    simp only [key_scan]
    exact ⟨le_refl _, by omega, fun j h1 h2 => by omega, fun h => by omega⟩
  | succ f ih =>
    intro i hi
    have hlt : (i : Int) < nd_size n := by rw [hs]; omega
    unfold key_scan
    rw [if_pos hlt]
    by_cases hc : comparator k (nd_key n i) < 0
    · rw [if_pos hc]
      exact ⟨le_refl _, by omega, fun j h1 h2 => by omega, fun _ => hc⟩
    · rw [if_neg hc]
      obtain ⟨h1, h2, h3, h4⟩ := ih (i + 1) (by omega)
      refine ⟨by omega, h2, ?_, h4⟩
      intro j hj1 hj2
      by_cases hji : j = i
      · rw [hji]; exact hc
      · exact h3 j (by omega) hj2

/-! ## Insertion into a leaf that has room (C22) -/

theorem leaf_shift_spec (c : Nat) : ∀ (n j : Nat), c ≤ j → j < 339 →
    (∀ t, t < 339 →
      nd_key (leaf_shift c n j) t = if j - c < t ∧ t ≤ j then nd_key n (t - 1) else nd_key n t) ∧
    (∀ t, nd_link (leaf_shift c n j) t
      = if j - c < t ∧ t ≤ j then nd_link n (t - 1) else nd_link n t) ∧
    nd_parent (leaf_shift c n j) = nd_parent n ∧ nd_isLeaf (leaf_shift c n j) = nd_isLeaf n ∧
    nd_size (leaf_shift c n j) = nd_size n ∧ nd_left (leaf_shift c n j) = nd_left n ∧
    nd_right (leaf_shift c n j) = nd_right n := by
  induction c with
  | zero =>
    intro n j _ _
    have e : leaf_shift 0 n j = n := rfl
    rw [e]
    refine ⟨fun t _ => ?_, fun t => ?_, rfl, rfl, rfl, rfl, rfl⟩
    · rw [if_neg (by omega)]
    · rw [if_neg (by omega)]
  | succ c ih =>
    intro n j hc hj
    unfold leaf_shift
    obtain ⟨hk, hl, h1, h2, h3, h4, h5⟩ :=
      ih (nd_set_link (nd_set_key n j (nd_key n (j - 1))) j (nd_link n (j - 1))) (j - 1)
        (by omega) (by omega)
    have hkey : ∀ x, x < 339 →
        nd_key (nd_set_link (nd_set_key n j (nd_key n (j - 1))) j (nd_link n (j - 1))) x
          = if j = x then nd_key n (j - 1) else nd_key n x := by
      intro x hx
      rw [nd_key_set_link _ _ _ _ hx, nd_key_set_key, key_mod_eq _ (nd_key_lt _ _)]
    have hlink : ∀ x,
        nd_link (nd_set_link (nd_set_key n j (nd_key n (j - 1))) j (nd_link n (j - 1))) x
          = if j = x then nd_link n (j - 1) else nd_link n x := by
      intro x
      rw [nd_link_set_link, nd_link_set_key _ _ _ _ hj,
        wrap32_eq _ (nd_link_range _ _).1 (nd_link_range _ _).2]
    refine ⟨?_, ?_, ?_, ?_, ?_, ?_, ?_⟩
    · intro t ht
      rw [hk t ht]
      by_cases ht1 : j - 1 - c < t ∧ t ≤ j - 1
      · rw [if_pos ht1, if_pos (by omega), hkey _ (by omega), if_neg (by omega)]
      · rw [if_neg ht1, hkey _ ht]
        by_cases htj : j = t
        · rw [if_pos htj, if_pos (by omega), htj]
        · rw [if_neg htj, if_neg (by omega)]
    · intro t
      rw [hl t]
      by_cases ht1 : j - 1 - c < t ∧ t ≤ j - 1
      · rw [if_pos ht1, if_pos (by omega), hlink, if_neg (by omega)]
      · rw [if_neg ht1, hlink]
        by_cases htj : j = t
        · rw [if_pos htj, if_pos (by omega), htj]
        · rw [if_neg htj, if_neg (by omega)]
    · rw [h1, (nd_head_set_link _ _ _).1, (nd_head_set_key _ _ _).1]
    · rw [h2, (nd_head_set_link _ _ _).2.1, (nd_head_set_key _ _ _).2.1]
    · rw [h3, (nd_head_set_link _ _ _).2.2, (nd_head_set_key _ _ _).2.2]
    · rw [h4, (nd_tail_set_link _ _ _ (by omega)).1, (nd_tail_set_key _ _ _ hj).1]
    · rw [h5, (nd_tail_set_link _ _ _ (by omega)).2, (nd_tail_set_key _ _ _ hj).2]

theorem insert_descend_data (k : Key) (fuel : Nat) :
    ∀ (p : FILE) (n : Nat) (curr : Int) (r : FILE × Nat × Int),
      insert_descend k fuel p n curr = some r → r.1.data = p.data := by
  induction fuel with
  | zero => intro p n curr r h; simp [insert_descend] at h
  | succ f ih =>
    intro p n curr r h
    unfold insert_descend at h
    split at h
    · cases h; rfl
    · have := ih _ _ _ _ h
      rw [this]
      simp only []
      split <;> split <;> simp [read_node, fread_eq]

theorem fwrite_fseek_data (p : FILE) (off : Int) (len v : Nat) (h : 0 ≤ off) :
    (fwrite (fseek p off) len v).data = setBytes p.data off.toNat len v := by
  rw [fwrite_data, fseek_data, fseek_pos _ _ h]

theorem ins_sorted (n m : Nat) (k : Key) (size i : Nat)
    (hk32 : k.dir_id < 4294967296 ∧ k.id < 4294967296)
    (hasc : sorted_keys n size) (hk : ∀ j, j < size → nd_key n j ≠ k) (hi : i ≤ size)
    (hbefore : ∀ j, j < i → ¬ comparator k (nd_key n j) < 0)
    (hat : i < size → comparator k (nd_key n i) < 0)
    (hm : ∀ j, j ≤ size → nd_key m j = ins_key n k i j) :
    sorted_keys m (size + 1) := by
  intro j hj
  rw [hm j (by omega), hm (j + 1) (by omega)]
  unfold ins_key
  by_cases h1 : j + 1 < i
  · rw [if_pos (by omega), if_pos h1]
    exact hasc j (by omega)
  · by_cases h2 : j + 1 = i
    · rw [if_pos (by omega), if_neg (by omega), if_pos h2]
      exact comparator_flip _ _ hk32 (nd_key_lt _ _) (hbefore j (by omega))
        (fun e => hk j (by omega) e.symm)
    · by_cases h3 : j = i
      · rw [if_neg (by omega), if_pos h3, if_neg (by omega), if_neg (by omega)]
        have := hat (by omega)
        rw [h3]
        simpa using this
      · rw [if_neg (by omega), if_neg h3, if_neg (by omega), if_neg (by omega)]
        have := hasc (j - 1) (by omega)
        have e : j - 1 + 1 = j := by omega
        rw [e] at this
        simpa using this

/-- Insertion where the descent arrives: when the descent loop of `insert` stops at the leaf
stored at offset `curr` and
that leaf has `size < 339` strictly ascending keys, none of them the new key `k`, `insert`
returns after rewriting only the 4096 bytes of that leaf: the bytes outside are as before,
the new keys and links are the old ones with `(k, block)` inserted at an index `i`, the new
keys are strictly ascending, `size` has grown by one, and `parent`, `isLeaf`, `left` and
`right` are unchanged. -/
theorem insert_into_leaf (junk fuel : Nat) (p : FILE) (id dir_id block : Int) (sb : Nat)
    (curr : Int) (size : Nat)
    (hroot : sb_root sb ≠ -1)
    (hdesc : insert_descent fuel p ⟨ofInt32 dir_id, ofInt32 id⟩ sb
      = some (getBytes p.data curr.toNat 4096, curr))
    (hcurr : 0 ≤ curr)
    (hsize : nd_size (getBytes p.data curr.toNat 4096) = (size : Int)) (hlt : size < 339)
    (hasc : sorted_keys (getBytes p.data curr.toNat 4096) size)
    (hk : ∀ j, j < size →
      nd_key (getBytes p.data curr.toNat 4096) j ≠ ⟨ofInt32 dir_id, ofInt32 id⟩)
    (hblock : -2147483648 ≤ block ∧ block < 2147483648) :
    ∃ (q : FILE) (i : Nat), insert junk fuel p id dir_id block sb = some (q, sb) ∧ i ≤ size ∧
      (∀ off len, off + len ≤ curr.toNat ∨ curr.toNat + 4096 ≤ off →
        getBytes q.data off len = getBytes p.data off len) ∧
      nd_size (getBytes q.data curr.toNat 4096) = (size : Int) + 1 ∧
      (∀ j, j ≤ size →
        nd_key (getBytes q.data curr.toNat 4096) j
          = ins_key (getBytes p.data curr.toNat 4096) ⟨ofInt32 dir_id, ofInt32 id⟩ i j ∧
        nd_link (getBytes q.data curr.toNat 4096) j
          = ins_link (getBytes p.data curr.toNat 4096) block i j) ∧
      sorted_keys (getBytes q.data curr.toNat 4096) (size + 1) ∧
      nd_parent (getBytes q.data curr.toNat 4096) = nd_parent (getBytes p.data curr.toNat 4096) ∧
      nd_isLeaf (getBytes q.data curr.toNat 4096) = nd_isLeaf (getBytes p.data curr.toNat 4096) ∧
      nd_left (getBytes q.data curr.toNat 4096) = nd_left (getBytes p.data curr.toNat 4096) ∧
      nd_right (getBytes q.data curr.toNat 4096) = nd_right (getBytes p.data curr.toNat 4096) := by
  generalize hn : getBytes p.data curr.toNat 4096 = n at *
  generalize hkk : (⟨ofInt32 dir_id, ofInt32 id⟩ : Key) = k at *
  have hk32 : k.dir_id < 4294967296 ∧ k.id < 4294967296 := by
    rw [← hkk]; exact ⟨ofInt32_lt _, ofInt32_lt _⟩
  unfold insert_descent at hdesc
  obtain ⟨r, hr, hr2⟩ := Option.map_eq_some'.mp hdesc
  obtain ⟨p1, n', c'⟩ := r
  simp only [Prod.mk.injEq] at hr2
  obtain ⟨hn', hc'⟩ := hr2
  subst hn' hc'
  have hp1 : p1.data = p.data := by
    have := insert_descend_data _ _ _ _ _ _ hr
    rw [this]; exact (read_node_data _ _).1
  have htoNat : (nd_size n').toNat = size := by rw [hsize]; simp
  obtain ⟨_, hi2, hi3, hi4⟩ := key_scan_spec n' k size hsize size 0 (by omega)
  generalize hi : key_scan n' k size 0 = i at *
  obtain ⟨sk, sl, s1, s2, s3, s4, s5⟩ := leaf_shift_spec (size - i) n' size (by omega) hlt
  generalize hn1 : leaf_shift (size - i) n' size = n1 at *
  have hsz3 : nd_size (nd_set_link (nd_set_key n1 i k) i block) = (size : Int) := by
    rw [(nd_head_set_link _ _ _).2.2, (nd_head_set_key _ _ _).2.2, s3, hsize]
  have hins : insert junk fuel p id dir_id block sb
      = some (fwrite (fseek p1 c') 4096
          (nd_set_size (nd_set_link (nd_set_key n1 i k) i block) ((size : Int) + 1)), sb) := by
    unfold insert
    simp only [hkk]
    rw [if_neg hroot, hr]
    simp only []
    rw [if_pos (by rw [hsize]; omega), htoNat, hi, hn1, hsz3, wrap32_eq _ (by omega) (by omega)]
  refine ⟨_, i, hins, hi2, ?_⟩
  rw [fwrite_fseek_data _ _ _ _ hcurr, hp1]
  refine ⟨fun off len h => getBytes_setBytes_disjoint _ _ _ _ _ _ h, ?_⟩
  rw [getBytes_setBytes_same]
  obtain ⟨m1, m2, m3, m4, m5, m6, m7⟩ :=
    nd_mod_fields (nd_set_size (nd_set_link (nd_set_key n1 i k) i block) ((size : Int) + 1))
  obtain ⟨z1, z2, z3, z4, z5, z6, z7⟩ :=
    nd_set_size_fields (nd_set_link (nd_set_key n1 i k) i block) ((size : Int) + 1)
  have hkeys : ∀ j, j ≤ size →
      nd_key (nd_set_size (nd_set_link (nd_set_key n1 i k) i block) ((size : Int) + 1)
        % 2 ^ (8 * 4096)) j = ins_key n' k i j := by
    intro j hj
    rw [m6 j (by omega), z6, nd_key_set_link _ _ _ _ (by omega), nd_key_set_key, key_mod_eq _ hk32,
      sk j (by omega)]
    unfold ins_key
    by_cases h1 : j < i
    · rw [if_neg (by omega), if_neg (by omega), if_pos h1]
    · by_cases h2 : j = i
      · rw [if_pos h2.symm, if_neg h1, if_pos h2]
      · rw [if_neg (fun e => h2 e.symm), if_pos (by omega), if_neg h1, if_neg h2]
  refine ⟨?_, ?_, ?_, ?_, ?_, ?_, ?_⟩
  · rw [m3, z1, wrap32_eq _ (by omega) (by omega)]
  · intro j hj
    refine ⟨hkeys j hj, ?_⟩
    rw [m7 j (by omega), z7, nd_link_set_link, nd_link_set_key _ _ _ _ (by omega), sl j,
      wrap32_eq _ hblock.1 hblock.2]
    unfold ins_link
    by_cases h1 : j < i
    · rw [if_neg (by omega), if_neg (by omega), if_pos h1]
    · by_cases h2 : j = i
      · rw [if_pos h2.symm, if_neg h1, if_pos h2]
      · rw [if_neg (fun e => h2 e.symm), if_pos (by omega), if_neg h1, if_neg h2]
  · exact ins_sorted n' _ k size i hk32 hasc hk hi2 (fun j hj => hi3 j (by omega) hj) hi4 hkeys
  · rw [m1, z2, (nd_head_set_link _ _ _).1, (nd_head_set_key _ _ _).1, s1]
  · rw [m2, z3, (nd_head_set_link _ _ _).2.1, (nd_head_set_key _ _ _).2.1, s2]
  · rw [m4, z4, (nd_tail_set_link _ _ _ (by omega)).1, (nd_tail_set_key _ _ _ (by omega)).1, s4]
  · rw [m5, z5, (nd_tail_set_link _ _ _ (by omega)).2, (nd_tail_set_key _ _ _ (by omega)).2, s5]

theorem insert_into_leaf_witness :
    sb_root fresh640_a.2 ≠ -1 ∧
    insert_descent 4 fresh640_a.1 ⟨ofInt32 1, ofInt32 3⟩ fresh640_a.2
      = some (getBytes fresh640_a.1.data (20480 : Int).toNat 4096, 20480) ∧
    nd_size (getBytes fresh640_a.1.data (20480 : Int).toNat 4096) = ((1 : Nat) : Int) ∧
    nd_key (getBytes fresh640_a.1.data (20480 : Int).toNat 4096) 0 = ⟨1, 2⟩ ∧
    ∃ (q : FILE) (i : Nat), insert 0 4 fresh640_a.1 3 1 12352 fresh640_a.2
        = some (q, fresh640_a.2) ∧ i ≤ 1 ∧
      nd_size (getBytes q.data (20480 : Int).toNat 4096) = ((1 : Nat) : Int) + 1 ∧
      sorted_keys (getBytes q.data (20480 : Int).toNat 4096) (1 + 1) :=
  have hkey : nd_key (getBytes fresh640_a.1.data (20480 : Int).toNat 4096) 0 = ⟨1, 2⟩ := by
    decide!
  have h := insert_into_leaf 0 4 fresh640_a.1 3 1 12352 fresh640_a.2 20480 1 (by decide!)
    (by decide!) (by decide) (by decide!) (by decide) (fun j hj => by omega)
    (fun j hj => by
      have e : j = 0 := by omega
      rw [e, hkey]
      decide)
    (by decide)
  ⟨by decide!, by decide!, by decide!, hkey,
    let ⟨q, i, h1, h2, _, h4, _, h6, _⟩ := h
    ⟨q, i, h1, h2, h4, h6⟩⟩

/-! ## promote into a parent that has room (C27) -/

theorem sorted_keys_of_all (n size : Nat)
    (h : (List.range size).all
      (fun j => decide (j + 1 < size → comparator (nd_key n j) (nd_key n (j + 1)) < 0)) = true) :
    sorted_keys n size := by
  intro j hj
  rw [List.all_eq_true] at h
  have := h j (List.mem_range.mpr (by omega))
  rw [decide_eq_true_eq] at this
  exact this hj

theorem keys_ne_of_all (n size : Nat) (k : Key)
    (h : (List.range size).all (fun j => decide (nd_key n j ≠ k)) = true) :
    ∀ j, j < size → nd_key n j ≠ k := by
  intro j hj
  rw [List.all_eq_true] at h
  have := h j (List.mem_range.mpr hj)
  rw [decide_eq_true_eq] at this
  exact this

theorem inner_shift_spec (c : Nat) : ∀ (n j : Nat), c ≤ j → j < 339 →
    (∀ t, t < 339 →
      nd_key (inner_shift c n j) t = if j - c < t ∧ t ≤ j then nd_key n (t - 1) else nd_key n t) ∧
    (∀ t, nd_link (inner_shift c n j) t
      = if j - c + 1 < t ∧ t ≤ j + 1 then nd_link n (t - 1) else nd_link n t) ∧
    nd_parent (inner_shift c n j) = nd_parent n ∧ nd_isLeaf (inner_shift c n j) = nd_isLeaf n ∧
    nd_size (inner_shift c n j) = nd_size n ∧ nd_left (inner_shift c n j) = nd_left n ∧
    nd_right (inner_shift c n j) = nd_right n := by
  induction c with
  | zero =>
    intro n j _ _
    have e : inner_shift 0 n j = n := rfl
    rw [e]
    refine ⟨fun t _ => ?_, fun t => ?_, rfl, rfl, rfl, rfl, rfl⟩
    · rw [if_neg (by omega)]
    · rw [if_neg (by omega)]
  | succ c ih =>
    intro n j hc hj
    unfold inner_shift
    obtain ⟨hk, hl, h1, h2, h3, h4, h5⟩ :=
      ih (nd_set_link (nd_set_key n j (nd_key n (j - 1))) (j + 1) (nd_link n j)) (j - 1)
        (by omega) (by omega)
    have hkey : ∀ x, x < 339 →
        nd_key (nd_set_link (nd_set_key n j (nd_key n (j - 1))) (j + 1) (nd_link n j)) x
          = if j = x then nd_key n (j - 1) else nd_key n x := by
      intro x hx
      rw [nd_key_set_link _ _ _ _ hx, nd_key_set_key, key_mod_eq _ (nd_key_lt _ _)]
    have hlink : ∀ x,
        nd_link (nd_set_link (nd_set_key n j (nd_key n (j - 1))) (j + 1) (nd_link n j)) x
          = if j + 1 = x then nd_link n j else nd_link n x := by
      intro x
      rw [nd_link_set_link, nd_link_set_key _ _ _ _ hj,
        wrap32_eq _ (nd_link_range _ _).1 (nd_link_range _ _).2]
    refine ⟨?_, ?_, ?_, ?_, ?_, ?_, ?_⟩
    · intro t ht
      rw [hk t ht]
      by_cases ht1 : j - 1 - c < t ∧ t ≤ j - 1
      · rw [if_pos ht1, if_pos (by omega), hkey _ (by omega), if_neg (by omega)]
      · rw [if_neg ht1, hkey _ ht]
        by_cases htj : j = t
        · rw [if_pos htj, if_pos (by omega), htj]
        · rw [if_neg htj, if_neg (by omega)]
    · intro t
      rw [hl t]
      by_cases ht1 : j - 1 - c + 1 < t ∧ t ≤ j - 1 + 1
      · rw [if_pos ht1, if_pos (by omega), hlink, if_neg (by omega)]
      · rw [if_neg ht1, hlink]
        by_cases htj : j + 1 = t
        · rw [if_pos htj, if_pos (by omega), ← htj]
          simp
        · rw [if_neg htj, if_neg (by omega)]
    · rw [h1, (nd_head_set_link _ _ _).1, (nd_head_set_key _ _ _).1]
    · rw [h2, (nd_head_set_link _ _ _).2.1, (nd_head_set_key _ _ _).2.1]
    · rw [h3, (nd_head_set_link _ _ _).2.2, (nd_head_set_key _ _ _).2.2]
    · rw [h4, (nd_tail_set_link _ _ _ (by omega)).1, (nd_tail_set_key _ _ _ hj).1]
    · rw [h5, (nd_tail_set_link _ _ _ (by omega)).2, (nd_tail_set_key _ _ _ hj).2]

theorem read_node_val (p : FILE) (c : Int) (h : 0 ≤ c) :
    (read_node p c).1 = getBytes p.data c.toNat 4096 := by
  unfold read_node
  rw [fread_val, fseek_data, fseek_pos _ _ h]

/-- The scan and the shift of `promote` on a parent that has room: `promote(k, parent, l, r)`
on a parent stored at offset `parent` with `size < 339` keys returns `parent` with the
superblock unchanged, after rewriting only the 4096 bytes of the parent; `i` is the first
index whose key `comparator` puts above `k` (`size` when there is none). -/
theorem promote_into_parent_core (junk fuel : Nat) (k : Key) (parent l r : Int) (p : FILE)
    (sb : Nat) (size : Nat)
    (hk32 : k.dir_id < 4294967296 ∧ k.id < 4294967296)
    (hpar : 0 ≤ parent)
    (hsize : nd_size (getBytes p.data parent.toNat 4096) = (size : Int)) (hlt : size < 339)
    (hl : -2147483648 ≤ l ∧ l < 2147483648) (hr : -2147483648 ≤ r ∧ r < 2147483648) :
    ∃ (q : FILE) (i : Nat), promote junk (fuel + 1) k parent l r p sb = some (parent, q, sb) ∧
      i ≤ size ∧
      (∀ off len, off + len ≤ parent.toNat ∨ parent.toNat + 4096 ≤ off →
        getBytes q.data off len = getBytes p.data off len) ∧
      nd_size (getBytes q.data parent.toNat 4096) = (size : Int) + 1 ∧
      (∀ j, j ≤ size → nd_key (getBytes q.data parent.toNat 4096) j
        = ins_key (getBytes p.data parent.toNat 4096) k i j) ∧
      (∀ j, j ≤ size + 1 → nd_link (getBytes q.data parent.toNat 4096) j
        = ins_children (getBytes p.data parent.toNat 4096) l r i j) ∧
      (∀ j, j < i → ¬ comparator k (nd_key (getBytes p.data parent.toNat 4096) j) < 0) ∧
      (i < size → comparator k (nd_key (getBytes p.data parent.toNat 4096) i) < 0) ∧
      nd_parent (getBytes q.data parent.toNat 4096)
        = nd_parent (getBytes p.data parent.toNat 4096) ∧
      nd_isLeaf (getBytes q.data parent.toNat 4096)
        = nd_isLeaf (getBytes p.data parent.toNat 4096) ∧
      nd_left (getBytes q.data parent.toNat 4096) = nd_left (getBytes p.data parent.toNat 4096) ∧
      nd_right (getBytes q.data parent.toNat 4096)
        = nd_right (getBytes p.data parent.toNat 4096) := by
  have hrn := read_node_val p parent hpar
  generalize hn : getBytes p.data parent.toNat 4096 = n at *
  have htoNat : (nd_size n).toNat = size := by rw [hsize]; simp
  obtain ⟨_, hi2, hi3, hi4⟩ := key_scan_spec n k size hsize size 0 (by omega)
  generalize hi : key_scan n k size 0 = i at *
  obtain ⟨sk, sl, s1, s2, s3, s4, s5⟩ := inner_shift_spec (size - i) n size (by omega) hlt
  generalize hn1 : inner_shift (size - i) n size = n1 at *
  have hsz4 : nd_size (nd_set_link (nd_set_link (nd_set_key n1 i k) i l) (i + 1) r)
      = (size : Int) := by
    rw [(nd_head_set_link _ _ _).2.2, (nd_head_set_link _ _ _).2.2, (nd_head_set_key _ _ _).2.2,
      s3, hsize]
  have hne : parent ≠ -1 := by omega
  have hprom : promote junk (fuel + 1) k parent l r p sb
      = some (parent, fwrite (fseek (read_node p parent).2 parent) 4096
          (nd_set_size (nd_set_link (nd_set_link (nd_set_key n1 i k) i l) (i + 1) r)
            ((size : Int) + 1)), sb) := by
    unfold promote
    rw [if_neg hne]
    simp only [hrn]
    rw [if_pos (by rw [hsize]; omega), htoNat, hi, hn1, hsz4, wrap32_eq _ (by omega) (by omega)]
  refine ⟨_, i, hprom, hi2, ?_⟩
  rw [fwrite_fseek_data _ _ _ _ hpar, (read_node_data _ _).1]
  refine ⟨fun off len h => getBytes_setBytes_disjoint _ _ _ _ _ _ h, ?_⟩
  rw [getBytes_setBytes_same]
  obtain ⟨m1, m2, m3, m4, m5, m6, m7⟩ :=
    nd_mod_fields (nd_set_size (nd_set_link (nd_set_link (nd_set_key n1 i k) i l) (i + 1) r)
      ((size : Int) + 1))
  obtain ⟨z1, z2, z3, z4, z5, z6, z7⟩ :=
    nd_set_size_fields (nd_set_link (nd_set_link (nd_set_key n1 i k) i l) (i + 1) r)
      ((size : Int) + 1)
  have hkeys : ∀ j, j ≤ size →
      nd_key (nd_set_size (nd_set_link (nd_set_link (nd_set_key n1 i k) i l) (i + 1) r)
        ((size : Int) + 1) % 2 ^ (8 * 4096)) j = ins_key n k i j := by
    intro j hj
    rw [m6 j (by omega), z6, nd_key_set_link _ _ _ _ (by omega),
      nd_key_set_link _ _ _ _ (by omega), nd_key_set_key, key_mod_eq _ hk32, sk j (by omega)]
    unfold ins_key
    by_cases h1 : j < i
    · rw [if_neg (by omega), if_neg (by omega), if_pos h1]
    · by_cases h2 : j = i
      · rw [if_pos h2.symm, if_neg h1, if_pos h2]
      · rw [if_neg (fun e => h2 e.symm), if_pos (by omega), if_neg h1, if_neg h2]
  refine ⟨?_, hkeys, ?_, fun j hj => hi3 j (by omega) hj, hi4, ?_, ?_, ?_, ?_⟩
  · rw [m3, z1, wrap32_eq _ (by omega) (by omega)]
  · intro j hj
    rw [m7 j (by omega), z7, nd_link_set_link, nd_link_set_link,
      nd_link_set_key _ _ _ _ (by omega), sl j, wrap32_eq _ hl.1 hl.2, wrap32_eq _ hr.1 hr.2]
    unfold ins_children
    by_cases h1 : j < i
    · rw [if_neg (by omega), if_neg (by omega), if_neg (by omega), if_pos h1]
    · by_cases h2 : j = i
      · rw [if_neg (by omega), if_pos h2.symm, if_neg h1, if_pos h2]
      · by_cases h3 : j = i + 1
        · rw [if_pos h3.symm, if_neg h1, if_neg h2, if_pos h3]
        · rw [if_neg (fun e => h3 e.symm), if_neg (fun e => h2 e.symm), if_pos (by omega),
            if_neg h1, if_neg h2, if_neg h3]
  · rw [m1, z2, (nd_head_set_link _ _ _).1, (nd_head_set_link _ _ _).1,
      (nd_head_set_key _ _ _).1, s1]
  · rw [m2, z3, (nd_head_set_link _ _ _).2.1, (nd_head_set_link _ _ _).2.1,
      (nd_head_set_key _ _ _).2.1, s2]
  · rw [m4, z4, (nd_tail_set_link _ _ _ (by omega)).1, (nd_tail_set_link _ _ _ (by omega)).1,
      (nd_tail_set_key _ _ _ (by omega)).1, s4]
  · rw [m5, z5, (nd_tail_set_link _ _ _ (by omega)).2, (nd_tail_set_link _ _ _ (by omega)).2,
      (nd_tail_set_key _ _ _ (by omega)).2, s5]

/-! ## Allocation of a node (C28, C29) -/

theorem get_free_block_found (p : FILE) (sb : Nat) (f B : Nat)
    (hf : sb_freeblocksmap sb = (f : Int)) (hB : sb_blocks sb = (B : Int))
    (hfree : ∃ b : Nat, 2 + f ≤ b ∧ b < B ∧ p.data.testBit (65536 + b) = false) :
    ∃ fb : Nat, (get_free_block p sb).1 = (fb : Int) ∧ (get_free_block p sb).2.data = p.data ∧
      2 + f ≤ fb ∧ fb < B ∧ p.data.testBit (65536 + fb) = false ∧
      ∀ b : Nat, 2 + f ≤ b → b < fb → p.data.testBit (65536 + b) = true := by
  obtain ⟨b0, hb1, hb2, hb3⟩ := hfree
  obtain ⟨n, hn⟩ : ∃ n, B = 2 + f + n := ⟨B - (2 + f), by omega⟩
  have hstart : (2 : Int) + sb_freeblocksmap sb = ((2 + f : Nat) : Int) := by rw [hf]; push_cast; rfl
  have hfuel : ((((2 + f + n : Nat) : Int)) - ((2 + f : Nat) : Int)).toNat = n := by omega
  obtain ⟨hd, r, hr, h1, h2, h3, h4⟩ := get_free_block_loop_spec n p (2 + f)
  have hbit : ∀ b : Nat, Nat.testBit (getBytes p.data (bit_loc b) 1) (b % 8)
      = p.data.testBit (65536 + b) := by
    intro b
    rw [← check_block_testBit, check_block_nat]
  simp only [hbit] at h3 h4
  have hrB : r ≠ 2 + f + n := by
    intro e
    have := h3 b0 hb1 (by omega)
    rw [hb3] at this
    exact absurd this (by decide)
  have hres : ¬ (get_free_block_loop n p ((2 + f : Nat) : Int) ((2 + f + n : Nat) : Int)).1
      = ((2 + f + n : Nat) : Int) := by rw [hr]; intro hc; exact hrB (by exact_mod_cast hc)
  refine ⟨r, ?_, ?_, h1, by omega, h4 (by omega), h3⟩
  · unfold get_free_block
    simp only [hstart]
    rw [hB, hn]
    simp only [hfuel]
    rw [if_neg hres, hr]
  · unfold get_free_block
    simp only [hstart]
    rw [hB, hn]
    simp only [hfuel]
    rw [if_neg hres, hd]

theorem get_node_found (p : FILE) (sb junk : Nat) (fb : Nat)
    (h1 : (get_free_block p sb).1 = (fb : Int)) (h2 : (get_free_block p sb).2.data = p.data) :
    (get_node p sb junk).1 = wrap32 ((fb : Int) * 4096) ∧
    (0 ≤ wrap32 ((fb : Int) * 4096) →
      (get_node p sb junk).2.data
        = setBytes (p.data ^^^ (1 <<< (65536 + fb))) (wrap32 ((fb : Int) * 4096)).toNat 4096
            (get_node_init junk)) := by
  have hne : ¬ (get_free_block p sb).1 = -1 := by rw [h1]; omega
  unfold get_node
  simp only [if_neg hne]
  rw [h1]
  refine ⟨rfl, fun h0 => ?_⟩
  rw [fwrite_fseek_data _ _ _ _ h0, use_block_nat]
  simp only [h2]

theorem getBytes_xor_bit_high (m k off len : Nat) (h : 8 * (off + len) ≤ k) :
    getBytes (m ^^^ (1 <<< k)) off len = getBytes m off len := by
  apply Nat.eq_of_testBit_eq
  intro i
  rw [testBit_getBytes, testBit_getBytes, Nat.testBit_xor, testBit_one_shiftLeft]
  by_cases h1 : i < 8 * len
  · have h2 : ¬ k = 8 * off + i := by omega
    simp [h1, h2]
  · simp [h1]

/-- The fields of the leaf that `insert` builds for the first key. -/
theorem first_leaf_fields (n : Nat) (k : Key) (block : Int)
    (hk32 : k.dir_id < 4294967296 ∧ k.id < 4294967296)
    (hblock : -2147483648 ≤ block ∧ block < 2147483648) :
    nd_parent (nd_set_right (nd_set_left (nd_set_link (nd_set_key (nd_set_size (nd_set_isLeaf
      (nd_set_parent n (-1)) 1) 1) 0 k) 0 block) (-1)) (-1)) = -1 ∧
    nd_isLeaf (nd_set_right (nd_set_left (nd_set_link (nd_set_key (nd_set_size (nd_set_isLeaf
      (nd_set_parent n (-1)) 1) 1) 0 k) 0 block) (-1)) (-1)) = 1 ∧
    nd_size (nd_set_right (nd_set_left (nd_set_link (nd_set_key (nd_set_size (nd_set_isLeaf
      (nd_set_parent n (-1)) 1) 1) 0 k) 0 block) (-1)) (-1)) = 1 ∧
    nd_key (nd_set_right (nd_set_left (nd_set_link (nd_set_key (nd_set_size (nd_set_isLeaf
      (nd_set_parent n (-1)) 1) 1) 0 k) 0 block) (-1)) (-1)) 0 = k ∧
    nd_link (nd_set_right (nd_set_left (nd_set_link (nd_set_key (nd_set_size (nd_set_isLeaf
      (nd_set_parent n (-1)) 1) 1) 0 k) 0 block) (-1)) (-1)) 0 = block ∧
    nd_left (nd_set_right (nd_set_left (nd_set_link (nd_set_key (nd_set_size (nd_set_isLeaf
      (nd_set_parent n (-1)) 1) 1) 0 k) 0 block) (-1)) (-1)) = -1 ∧
    nd_right (nd_set_right (nd_set_left (nd_set_link (nd_set_key (nd_set_size (nd_set_isLeaf
      (nd_set_parent n (-1)) 1) 1) 0 k) 0 block) (-1)) (-1)) = -1 := by
  have w1 : wrap32 (-1) = -1 := wrap32_eq _ (by omega) (by omega)
  have w2 : wrap32 1 = 1 := wrap32_eq _ (by omega) (by omega)
  have w3 : wrap32 block = block := wrap32_eq _ hblock.1 hblock.2
  have hk := key_mod_eq k hk32
  unfold nd_parent nd_isLeaf nd_size nd_key nd_link nd_left nd_right nd_set_right nd_set_left
    nd_set_link nd_set_key nd_set_size nd_set_isLeaf nd_set_parent getU32
  simp (disch := omega) only [getInt_setInt_same, getInt_setInt_disjoint,
    getInt_setBytes_disjoint, w1, w2, w3]
  refine ⟨trivial, trivial, trivial, ?_, trivial, trivial, trivial⟩
  unfold setInt
  simp (disch := omega) only [getBytes_setBytes_same, getBytes_setBytes_disjoint]
  exact hk

/-- The image after a node `N` has been written over a fresh node at block `fb` and the
superblock `sb1` has been written to blocks 0 and 1: the three blocks read back, and the
bitmap bits of the blocks below `B` are those of `X`. -/
theorem alloc_image_facts (X N init sb1 : Nat) (fb f B : Nat) (h : 2 + f ≤ fb) :
    getBytes (setBytes (setBytes (setBytes (setBytes X (4096 * fb) 4096 init) (4096 * fb) 4096 N)
      0 4096 sb1) 4096 4096 sb1) 0 4096 = sb1 % 2 ^ (8 * 4096) ∧
    getBytes (setBytes (setBytes (setBytes (setBytes X (4096 * fb) 4096 init) (4096 * fb) 4096 N)
      0 4096 sb1) 4096 4096 sb1) 4096 4096 = sb1 % 2 ^ (8 * 4096) ∧
    getBytes (setBytes (setBytes (setBytes (setBytes X (4096 * fb) 4096 init) (4096 * fb) 4096 N)
      0 4096 sb1) 4096 4096 sb1) (4096 * fb) 4096 = N % 2 ^ (8 * 4096) ∧
    (B ≤ 32768 * f → ∀ b, b < B →
      (setBytes (setBytes (setBytes (setBytes X (4096 * fb) 4096 init) (4096 * fb) 4096 N)
        0 4096 sb1) 4096 4096 sb1).testBit (65536 + b) = X.testBit (65536 + b)) ∧
    (X.testBit (65536 + fb) = true → N.testBit 2 = true →
      (setBytes (setBytes (setBytes (setBytes X (4096 * fb) 4096 init) (4096 * fb) 4096 N)
        0 4096 sb1) 4096 4096 sb1).testBit (65536 + fb) = true) := by
  refine ⟨?_, ?_, ?_, ?_, ?_⟩
  · rw [getBytes_setBytes_disjoint _ _ _ _ _ _ (by omega), getBytes_setBytes_same]
  · rw [getBytes_setBytes_same]
  · rw [getBytes_setBytes_disjoint _ _ _ _ _ _ (by omega),
      getBytes_setBytes_disjoint _ _ _ _ _ _ (by omega), getBytes_setBytes_same]
  · intro hcover b hb
    rw [testBit_setBytes, if_neg (by omega), testBit_setBytes, if_neg (by omega),
      testBit_setBytes, if_neg (by omega), testBit_setBytes, if_neg (by omega)]
  · intro hX hN
    rw [testBit_setBytes, if_neg (by omega), testBit_setBytes, if_neg (by omega),
      testBit_setBytes]
    by_cases h2 : fb = 2
    · subst h2
      rw [if_pos (by omega)]
      exact hN
    · rw [if_neg (by omega), testBit_setBytes, if_neg (by omega)]
      exact hX

/-- A node whose `parent` field is `-1` has bit 2 of its first byte set. -/
theorem testBit_two_of_parent (N : Nat) (h : nd_parent N = -1) : N.testBit 2 = true := by
  have hlt := getBytes_lt N 0 4
  have hv : getBytes N 0 4 = 4294967295 := by
    unfold nd_parent getInt toInt32 at h
    split_ifs at h
    omega
  have e := testBit_getBytes N 0 4 2
  rw [hv] at e
  simpa using e.symm

/-- C29 (amended): when `root = -1` and a block in `[2 + freeblocksmap, blocks)` with index
below `2^19` is free, `insert(id, dir_id, block)` returns after allocating the lowest free
block `fb` (its bit becomes set; when the bitmap covers the blocks of the image, no other bit
of a block changes), writing at byte offset `4096 * fb` a leaf with `size = 1`,
`key[0] = (dir_id, id)`, `link[0] = block` and `parent = left = right = -1`, setting
`root = 4096 * fb` in memory and writing that superblock to blocks 0 and 1. -/
theorem insert_first_key (junk fuel : Nat) (p : FILE) (id dir_id block : Int) (sb : Nat)
    (f B : Nat) (hroot : sb_root sb = -1)
    (hf : sb_freeblocksmap sb = (f : Int)) (hB : sb_blocks sb = (B : Int))
    (hfree : ∃ b : Nat, 2 + f ≤ b ∧ b < B ∧ b < 524288 ∧ (check_block p (b : Int)).1 = false)
    (hblock : -2147483648 ≤ block ∧ block < 2147483648) :
    ∃ (fb : Nat) (q : FILE), 2 + f ≤ fb ∧ fb < B ∧ (check_block p (fb : Int)).1 = false ∧
      (∀ b : Nat, 2 + f ≤ b → b < fb → (check_block p (b : Int)).1 = true) ∧
      insert junk fuel p id dir_id block sb = some (q, setInt sb 32 (4096 * (fb : Int))) ∧
      (check_block q (fb : Int)).1 = true ∧
      (B ≤ 32768 * f → ∀ b : Nat, b < B → b ≠ fb →
        (check_block q (b : Int)).1 = (check_block p (b : Int)).1) ∧
      nd_isLeaf (getBytes q.data (4096 * fb) 4096) = 1 ∧
      nd_size (getBytes q.data (4096 * fb) 4096) = 1 ∧
      nd_key (getBytes q.data (4096 * fb) 4096) 0 = ⟨ofInt32 dir_id, ofInt32 id⟩ ∧
      nd_link (getBytes q.data (4096 * fb) 4096) 0 = block ∧
      nd_parent (getBytes q.data (4096 * fb) 4096) = -1 ∧
      nd_left (getBytes q.data (4096 * fb) 4096) = -1 ∧
      nd_right (getBytes q.data (4096 * fb) 4096) = -1 ∧
      sb_root (setInt sb 32 (4096 * (fb : Int))) = 4096 * (fb : Int) ∧
      getBytes q.data 0 4096 = setInt sb 32 (4096 * (fb : Int)) % 2 ^ (8 * 4096) ∧
      getBytes q.data 4096 4096 = setInt sb 32 (4096 * (fb : Int)) % 2 ^ (8 * 4096) := by
  simp only [check_block_testBit] at hfree ⊢
  obtain ⟨b0, hb1, hb2, hb3, hb4⟩ := hfree
  obtain ⟨fb, e1, e2, e3, e4, e5, e6⟩ := get_free_block_found p sb f B hf hB ⟨b0, hb1, hb2, hb4⟩
  have hfb : fb < 524288 := by
    by_contra hc
    have := e6 b0 hb1 (by omega)
    rw [hb4] at this
    exact absurd this (by decide)
  have hw : wrap32 ((fb : Int) * 4096) = 4096 * (fb : Int) := by
    rw [wrap32_eq _ (by omega) (by omega)]; ring
  have hnat : (4096 * (fb : Int)).toNat = 4096 * fb := by omega
  obtain ⟨g1, g2⟩ := get_node_found p sb junk fb e1 e2
  rw [hw] at g1 g2
  have g2 := g2 (by omega)
  rw [hnat] at g2
  have hne : ¬ (4096 * (fb : Int)) = -1 := by omega
  refine ⟨fb, update_sb (fwrite (fseek (read_node (get_node p sb junk).2
      (4096 * (fb : Int))).2 (4096 * (fb : Int))) 4096
      (nd_set_right (nd_set_left (nd_set_link (nd_set_key (nd_set_size (nd_set_isLeaf
        (nd_set_parent (read_node (get_node p sb junk).2 (4096 * (fb : Int))).1 (-1)) 1) 1) 0
        ⟨ofInt32 dir_id, ofInt32 id⟩) 0 block) (-1)) (-1))) (setInt sb 32 (4096 * (fb : Int))),
    e3, e4, e5, e6, ?_⟩
  unfold insert
  simp only []
  rw [if_pos hroot]
  simp only [g1]
  rw [if_neg hne]
  refine ⟨rfl, ?_⟩
  have hD : ∀ N, (update_sb (fwrite (fseek (read_node (get_node p sb junk).2
      (4096 * (fb : Int))).2 (4096 * (fb : Int))) 4096 N) (setInt sb 32 (4096 * (fb : Int)))).data
      = setBytes (setBytes (setBytes (setBytes (p.data ^^^ (1 <<< (65536 + fb))) (4096 * fb) 4096
          (get_node_init junk)) (4096 * fb) 4096 N) 0 4096 (setInt sb 32 (4096 * (fb : Int))))
          4096 4096 (setInt sb 32 (4096 * (fb : Int))) := by
    intro N
    rw [update_sb_data, fwrite_fseek_data _ _ _ _ (by omega), (read_node_data _ _).1, g2, hnat]
  simp only [hD]
  obtain ⟨a1, a2, a3, a4, a5⟩ := alloc_image_facts (p.data ^^^ (1 <<< (65536 + fb)))
    (nd_set_right (nd_set_left (nd_set_link (nd_set_key (nd_set_size (nd_set_isLeaf
      (nd_set_parent (read_node (get_node p sb junk).2 (4096 * (fb : Int))).1 (-1)) 1) 1) 0
      ⟨ofInt32 dir_id, ofInt32 id⟩) 0 block) (-1)) (-1))
    (get_node_init junk) (setInt sb 32 (4096 * (fb : Int))) fb f B e3
  obtain ⟨b1, b2, b3, b4, b5, b6, b7⟩ := first_leaf_fields
    (read_node (get_node p sb junk).2 (4096 * (fb : Int))).1 ⟨ofInt32 dir_id, ofInt32 id⟩ block
    ⟨ofInt32_lt _, ofInt32_lt _⟩ hblock
  have hbit2 := testBit_two_of_parent _ b1
  obtain ⟨m1, m2, m3, m4, m5, m6, m7⟩ := nd_mod_fields
    (nd_set_right (nd_set_left (nd_set_link (nd_set_key (nd_set_size (nd_set_isLeaf
      (nd_set_parent (read_node (get_node p sb junk).2 (4096 * (fb : Int))).1 (-1)) 1) 1) 0
      ⟨ofInt32 dir_id, ofInt32 id⟩) 0 block) (-1)) (-1))
  rw [a1, a2, a3, m1, m2, m3, m4, m5, m6 0 (by omega), m7 0 (by omega), b1, b2, b3, b4, b5, b6, b7]
  refine ⟨?_, ?_, rfl, rfl, rfl, rfl, rfl, rfl, rfl, ?_, rfl, rfl⟩
  · exact a5 (by rw [Nat.testBit_xor, testBit_one_shiftLeft, e5]; simp) hbit2
  · intro hcover b hb hne'
    rw [a4 hcover b hb, Nat.testBit_xor, testBit_one_shiftLeft]
    have : ¬ (65536 + fb = 65536 + b) := by omega
    simp [this]
  · unfold sb_root
    rw [getInt_setInt_same, wrap32_eq _ (by omega) (by omega)]

/-- The fields of the root that `promote` builds when `parent = -1`. -/
theorem new_root_fields (n : Nat) (k : Key) (l r : Int)
    (hk32 : k.dir_id < 4294967296 ∧ k.id < 4294967296)
    (hl : -2147483648 ≤ l ∧ l < 2147483648) (hr : -2147483648 ≤ r ∧ r < 2147483648) :
    nd_parent (nd_set_size (nd_set_right (nd_set_left (nd_set_link (nd_set_link (nd_set_key
      (nd_set_isLeaf (nd_set_parent n (-1)) 0) 0 k) 0 l) 1 r) (-1)) (-1)) 1) = -1 ∧
    nd_isLeaf (nd_set_size (nd_set_right (nd_set_left (nd_set_link (nd_set_link (nd_set_key
      (nd_set_isLeaf (nd_set_parent n (-1)) 0) 0 k) 0 l) 1 r) (-1)) (-1)) 1) = 0 ∧
    nd_size (nd_set_size (nd_set_right (nd_set_left (nd_set_link (nd_set_link (nd_set_key
      (nd_set_isLeaf (nd_set_parent n (-1)) 0) 0 k) 0 l) 1 r) (-1)) (-1)) 1) = 1 ∧
    nd_key (nd_set_size (nd_set_right (nd_set_left (nd_set_link (nd_set_link (nd_set_key
      (nd_set_isLeaf (nd_set_parent n (-1)) 0) 0 k) 0 l) 1 r) (-1)) (-1)) 1) 0 = k ∧
    nd_link (nd_set_size (nd_set_right (nd_set_left (nd_set_link (nd_set_link (nd_set_key
      (nd_set_isLeaf (nd_set_parent n (-1)) 0) 0 k) 0 l) 1 r) (-1)) (-1)) 1) 0 = l ∧
    nd_link (nd_set_size (nd_set_right (nd_set_left (nd_set_link (nd_set_link (nd_set_key
      (nd_set_isLeaf (nd_set_parent n (-1)) 0) 0 k) 0 l) 1 r) (-1)) (-1)) 1) 1 = r ∧
    nd_left (nd_set_size (nd_set_right (nd_set_left (nd_set_link (nd_set_link (nd_set_key
      (nd_set_isLeaf (nd_set_parent n (-1)) 0) 0 k) 0 l) 1 r) (-1)) (-1)) 1) = -1 ∧
    nd_right (nd_set_size (nd_set_right (nd_set_left (nd_set_link (nd_set_link (nd_set_key
      (nd_set_isLeaf (nd_set_parent n (-1)) 0) 0 k) 0 l) 1 r) (-1)) (-1)) 1) = -1 := by
  have w1 : wrap32 (-1) = -1 := wrap32_eq _ (by omega) (by omega)
  have w2 : wrap32 1 = 1 := wrap32_eq _ (by omega) (by omega)
  have w0 : wrap32 0 = 0 := wrap32_eq _ (by omega) (by omega)
  have w3 : wrap32 l = l := wrap32_eq _ hl.1 hl.2
  have w4 : wrap32 r = r := wrap32_eq _ hr.1 hr.2
  have hk := key_mod_eq k hk32
  unfold nd_parent nd_isLeaf nd_size nd_key nd_link nd_left nd_right nd_set_right nd_set_left
    nd_set_link nd_set_key nd_set_size nd_set_isLeaf nd_set_parent getU32
  simp (disch := omega) only [getInt_setInt_same, getInt_setInt_disjoint,
    getInt_setBytes_disjoint, w0, w1, w2, w3, w4]
  refine ⟨trivial, trivial, trivial, ?_, trivial, trivial, trivial, trivial⟩
  unfold setInt
  simp (disch := omega) only [getBytes_setBytes_same, getBytes_setBytes_disjoint]
  exact hk

/-- C28 (amended): when `parent = -1` and a block in `[2 + freeblocksmap, blocks)` with index
below `2^19` is free, `promote(k, -1, l, r)` allocates the lowest free block `fb` (its bit
becomes set; when the bitmap covers the blocks of the image, no other bit of a block
changes), writes at byte offset `4096 * fb` an internal node with `size = 1`, `key[0] = k`,
`link[0] = l`, `link[1] = r` and `parent = left = right = -1`, sets `root = 4096 * fb` in
memory, writes that superblock to blocks 0 and 1 and returns `4096 * fb`. -/
theorem promote_new_root (junk fuel : Nat) (k : Key) (l r : Int) (p : FILE) (sb : Nat)
    (f B : Nat) (hk32 : k.dir_id < 4294967296 ∧ k.id < 4294967296)
    (hl : -2147483648 ≤ l ∧ l < 2147483648) (hr : -2147483648 ≤ r ∧ r < 2147483648)
    (hf : sb_freeblocksmap sb = (f : Int)) (hB : sb_blocks sb = (B : Int))
    (hfree : ∃ b : Nat, 2 + f ≤ b ∧ b < B ∧ b < 524288 ∧ (check_block p (b : Int)).1 = false) :
    ∃ (fb : Nat) (q : FILE), 2 + f ≤ fb ∧ fb < B ∧ (check_block p (fb : Int)).1 = false ∧
      (∀ b : Nat, 2 + f ≤ b → b < fb → (check_block p (b : Int)).1 = true) ∧
      promote junk (fuel + 1) k (-1) l r p sb
        = some (4096 * (fb : Int), q, setInt sb 32 (4096 * (fb : Int))) ∧
      (check_block q (fb : Int)).1 = true ∧
      (B ≤ 32768 * f → ∀ b : Nat, b < B → b ≠ fb →
        (check_block q (b : Int)).1 = (check_block p (b : Int)).1) ∧
      nd_isLeaf (getBytes q.data (4096 * fb) 4096) = 0 ∧
      nd_size (getBytes q.data (4096 * fb) 4096) = 1 ∧
      nd_key (getBytes q.data (4096 * fb) 4096) 0 = k ∧
      nd_link (getBytes q.data (4096 * fb) 4096) 0 = l ∧
      nd_link (getBytes q.data (4096 * fb) 4096) 1 = r ∧
      nd_parent (getBytes q.data (4096 * fb) 4096) = -1 ∧
      nd_left (getBytes q.data (4096 * fb) 4096) = -1 ∧
      nd_right (getBytes q.data (4096 * fb) 4096) = -1 ∧
      sb_root (setInt sb 32 (4096 * (fb : Int))) = 4096 * (fb : Int) ∧
      getBytes q.data 0 4096 = setInt sb 32 (4096 * (fb : Int)) % 2 ^ (8 * 4096) ∧
      getBytes q.data 4096 4096 = setInt sb 32 (4096 * (fb : Int)) % 2 ^ (8 * 4096) := by
  simp only [check_block_testBit] at hfree ⊢
  obtain ⟨b0, hb1, hb2, hb3, hb4⟩ := hfree
  obtain ⟨fb, e1, e2, e3, e4, e5, e6⟩ := get_free_block_found p sb f B hf hB ⟨b0, hb1, hb2, hb4⟩
  have hfb : fb < 524288 := by
    by_contra hc
    have := e6 b0 hb1 (by omega)
    rw [hb4] at this
    exact absurd this (by decide)
  have hw : wrap32 ((fb : Int) * 4096) = 4096 * (fb : Int) := by
    rw [wrap32_eq _ (by omega) (by omega)]; ring
  have hnat : (4096 * (fb : Int)).toNat = 4096 * fb := by omega
  obtain ⟨g1, g2⟩ := get_node_found p sb junk fb e1 e2
  rw [hw] at g1 g2
  have g2 := g2 (by omega)
  rw [hnat] at g2
  have hne : ¬ (4096 * (fb : Int)) = -1 := by omega
  refine ⟨fb, update_sb (fwrite (fseek (read_node (get_node p sb junk).2
      (4096 * (fb : Int))).2 (4096 * (fb : Int))) 4096
      (nd_set_size (nd_set_right (nd_set_left (nd_set_link (nd_set_link (nd_set_key
        (nd_set_isLeaf (nd_set_parent (read_node (get_node p sb junk).2 (4096 * (fb : Int))).1
          (-1)) 0) 0 k) 0 l) 1 r) (-1)) (-1)) 1)) (setInt sb 32 (4096 * (fb : Int))),
    e3, e4, e5, e6, ?_⟩
  unfold promote
  simp only []
  rw [if_pos trivial]
  simp only [g1]
  rw [if_neg hne]
  refine ⟨rfl, ?_⟩
  have hD : ∀ N, (update_sb (fwrite (fseek (read_node (get_node p sb junk).2
      (4096 * (fb : Int))).2 (4096 * (fb : Int))) 4096 N) (setInt sb 32 (4096 * (fb : Int)))).data
      = setBytes (setBytes (setBytes (setBytes (p.data ^^^ (1 <<< (65536 + fb))) (4096 * fb) 4096
          (get_node_init junk)) (4096 * fb) 4096 N) 0 4096 (setInt sb 32 (4096 * (fb : Int))))
          4096 4096 (setInt sb 32 (4096 * (fb : Int))) := by
    intro N
    rw [update_sb_data, fwrite_fseek_data _ _ _ _ (by omega), (read_node_data _ _).1, g2, hnat]
  simp only [hD]
  obtain ⟨a1, a2, a3, a4, a5⟩ := alloc_image_facts (p.data ^^^ (1 <<< (65536 + fb)))
    (nd_set_size (nd_set_right (nd_set_left (nd_set_link (nd_set_link (nd_set_key
      (nd_set_isLeaf (nd_set_parent (read_node (get_node p sb junk).2 (4096 * (fb : Int))).1
        (-1)) 0) 0 k) 0 l) 1 r) (-1)) (-1)) 1)
    (get_node_init junk) (setInt sb 32 (4096 * (fb : Int))) fb f B e3
  obtain ⟨b1, b2, b3, b4, b5, b6, b7, b8⟩ := new_root_fields
    (read_node (get_node p sb junk).2 (4096 * (fb : Int))).1 k l r hk32 hl hr
  have hbit2 := testBit_two_of_parent _ b1
  obtain ⟨m1, m2, m3, m4, m5, m6, m7⟩ := nd_mod_fields
    (nd_set_size (nd_set_right (nd_set_left (nd_set_link (nd_set_link (nd_set_key
      (nd_set_isLeaf (nd_set_parent (read_node (get_node p sb junk).2 (4096 * (fb : Int))).1
        (-1)) 0) 0 k) 0 l) 1 r) (-1)) (-1)) 1)
  rw [a1, a2, a3, m1, m2, m3, m4, m5, m6 0 (by omega), m7 0 (by omega), m7 1 (by omega),
    b1, b2, b3, b4, b5, b6, b7, b8]
  refine ⟨?_, ?_, rfl, rfl, rfl, rfl, rfl, rfl, rfl, rfl, ?_, rfl, rfl⟩
  · exact a5 (by rw [Nat.testBit_xor, testBit_one_shiftLeft, e5]; simp) hbit2
  · intro hcover b hb hne'
    rw [a4 hcover b hb, Nat.testBit_xor, testBit_one_shiftLeft]
    have : ¬ (65536 + fb = 65536 + b) := by omega
    simp [this]
  · unfold sb_root
    rw [getInt_setInt_same, wrap32_eq _ (by omega) (by omega)]

theorem insert_first_key_witness :
    sb_root fresh640.2 = -1 ∧ sb_freeblocksmap fresh640.2 = ((1 : Nat) : Int) ∧
    sb_blocks fresh640.2 = ((640 : Nat) : Int) ∧
    (check_block fresh640.1 ((4 : Nat) : Int)).1 = false ∧
    ∃ (fb : Nat) (q : FILE), 2 + 1 ≤ fb ∧ fb < 640 ∧
      insert 0 1 fresh640.1 2 1 12288 fresh640.2 = some (q, setInt fresh640.2 32 (4096 * (fb : Int))) ∧
      (check_block q (fb : Int)).1 = true ∧
      nd_size (getBytes q.data (4096 * fb) 4096) = 1 ∧
      nd_key (getBytes q.data (4096 * fb) 4096) 0 = ⟨ofInt32 1, ofInt32 2⟩ :=
  have h4 : (check_block fresh640.1 ((4 : Nat) : Int)).1 = false := by decide!
  have h := insert_first_key 0 1 fresh640.1 2 1 12288 fresh640.2 1 640 (by decide!) (by decide!)
    (by decide!) ⟨4, by decide, by decide, by decide, h4⟩ (by decide)
  ⟨by decide!, by decide!, by decide!, h4,
    let ⟨fb, q, h1, h2, _, _, h5, h6, _, _, h9, h10, _⟩ := h
    ⟨fb, q, h1, h2, h5, h6, h9, h10⟩⟩

theorem promote_new_root_witness :
    sb_freeblocksmap fresh640_a.2 = ((1 : Nat) : Int) ∧
    sb_blocks fresh640_a.2 = ((640 : Nat) : Int) ∧
    (check_block fresh640_a.1 ((6 : Nat) : Int)).1 = false ∧
    ∃ (fb : Nat) (q : FILE), 2 + 1 ≤ fb ∧ fb < 640 ∧
      promote 0 (0 + 1) ⟨1, 3⟩ (-1) 20480 24576 fresh640_a.1 fresh640_a.2
        = some (4096 * (fb : Int), q, setInt fresh640_a.2 32 (4096 * (fb : Int))) ∧
      nd_isLeaf (getBytes q.data (4096 * fb) 4096) = 0 ∧
      nd_size (getBytes q.data (4096 * fb) 4096) = 1 ∧
      nd_link (getBytes q.data (4096 * fb) 4096) 1 = 24576 :=
  have h6 : (check_block fresh640_a.1 ((6 : Nat) : Int)).1 = false := by decide!
  have h := promote_new_root 0 0 ⟨1, 3⟩ 20480 24576 fresh640_a.1 fresh640_a.2 1 640 (by decide)
    (by decide) (by decide) (by decide!) (by decide!) ⟨6, by decide, by decide, by decide, h6⟩
  ⟨by decide!, by decide!, h6,
    let ⟨fb, q, h1, h2, _, _, h5, _, _, h8, h9, _, _, h12, _⟩ := h
    ⟨fb, q, h1, h2, h5, h8, h9, h12⟩⟩

/-! ## Allocation past 2 GiB (counterexamples of C28 and C29) -/

theorem huge_image_bit (sb b : Nat) :
    (huge_image sb).data.testBit (65536 + b) = decide (b < 524288) := by
  unfold huge_image
  simp only []
  rw [testBit_setBytes, if_neg (by omega), testBit_setBytes, if_neg (by omega),
    Nat.testBit_shiftLeft, testBit_mask]
  have e : 65536 + b - 65536 = b := by omega
  rw [e]
  simp

theorem huge_image_free_block (sb : Nat) (hf : sb_freeblocksmap sb = ((17 : Nat) : Int))
    (hB : sb_blocks sb = ((524290 : Nat) : Int)) :
    (get_free_block (huge_image sb) sb).1 = 524288 ∧
    (get_free_block (huge_image sb) sb).2.data = (huge_image sb).data := by
  obtain ⟨fb, e1, e2, e3, e4, e5, e6⟩ := get_free_block_found (huge_image sb) sb 17 524290 hf hB
    ⟨524288, by omega, by omega, by rw [huge_image_bit]; simp⟩
  rw [huge_image_bit] at e5
  have h1 : 524288 ≤ fb := by simpa using e5
  have h2 : fb ≤ 524288 := by
    by_contra hc
    have := e6 524288 (by omega) (by omega)
    rw [huge_image_bit] at this
    simp at this
  have : fb = 524288 := by omega
  subst this
  exact ⟨e1, e2⟩

/-- C29 (counterexample): on an image of 524290 blocks with `root = -1` whose lowest free
block is 524288, `insert(2, 1, 12288)` allocates block 524288 and leaves
`root = -2147483648` in memory; the byte offset of the block is `2147483648`. -/
theorem insert_offset_overflows :
    sb_root huge_sb = -1 ∧ sb_freeblocksmap huge_sb = 17 ∧ sb_blocks huge_sb = 524290 ∧
    (check_block (huge_image huge_sb) 524288).1 = false ∧
    (get_free_block (huge_image huge_sb) huge_sb).1 = 524288 ∧
    (insert 0 1 (huge_image huge_sb) 2 1 12288 huge_sb).map (fun r => sb_root r.2)
      = some (-2147483648) := by
  have hroot : sb_root huge_sb = -1 := by decide!
  have hf : sb_freeblocksmap huge_sb = ((17 : Nat) : Int) := by decide!
  have hB : sb_blocks huge_sb = ((524290 : Nat) : Int) := by decide!
  obtain ⟨g1, g2⟩ := huge_image_free_block huge_sb hf hB
  obtain ⟨n1, _⟩ := get_node_found (huge_image huge_sb) huge_sb 0 524288 g1 g2
  have hw : wrap32 (((524288 : Nat) : Int) * 4096) = -2147483648 := by decide
  rw [hw] at n1
  refine ⟨hroot, hf, hB, by decide!, g1, ?_⟩
  unfold insert
  simp only []
  rw [if_pos hroot]
  simp only [n1]
  rw [if_neg (by decide)]
  simp only [Option.map_some']
  unfold sb_root
  rw [getInt_setInt_same, wrap32_eq _ (by omega) (by omega)]

/-- C28 (counterexample): on an image of 524290 blocks whose lowest free block is 524288,
`promote((1, 1040), -1, 40960, 45056)` allocates block 524288, returns `-2147483648` and
leaves `root = -2147483648` in memory; the byte offset of the block is `2147483648`. -/
theorem promote_offset_overflows :
    sb_freeblocksmap huge_tree_sb = 17 ∧ sb_blocks huge_tree_sb = 524290 ∧
    (check_block (huge_image huge_tree_sb) 524288).1 = false ∧
    (get_free_block (huge_image huge_tree_sb) huge_tree_sb).1 = 524288 ∧
    (promote 0 1 ⟨1, 1040⟩ (-1) 40960 45056 (huge_image huge_tree_sb) huge_tree_sb).map
      (fun r => (r.1, sb_root r.2.2)) = some (-2147483648, -2147483648) := by
  have hf : sb_freeblocksmap huge_tree_sb = ((17 : Nat) : Int) := by decide!
  have hB : sb_blocks huge_tree_sb = ((524290 : Nat) : Int) := by decide!
  obtain ⟨g1, g2⟩ := huge_image_free_block huge_tree_sb hf hB
  obtain ⟨n1, _⟩ := get_node_found (huge_image huge_tree_sb) huge_tree_sb 0 524288 g1 g2
  have hw : wrap32 (((524288 : Nat) : Int) * 4096) = -2147483648 := by decide
  rw [hw] at n1
  refine ⟨hf, hB, by decide!, g1, ?_⟩
  unfold promote
  simp only []
  rw [if_pos trivial]
  simp only [n1]
  rw [if_neg (by decide)]
  simp only [Option.map_some']
  unfold sb_root
  rw [getInt_setInt_same, wrap32_eq _ (by omega) (by omega)]

/-! ## The split of a full leaf (C23) -/

theorem insert_split_eq (junk fuel : Nat) (p : FILE) (id dir_id block : Int) (sb : Nat)
    (p1 : FILE) (n : Nat) (curr : Int) (hroot : sb_root sb ≠ -1)
    (hdesc : insert_descend ⟨ofInt32 dir_id, ofInt32 id⟩ fuel (read_node p (sb_root sb)).2
      (read_node p (sb_root sb)).1 (sb_root sb) = some (p1, n, curr))
    (hfull : ¬ nd_size n < 339)
    (hl : (get_node p1 sb junk).1 ≠ -1)
    (hr : (get_node (get_node p1 sb junk).2 sb junk).1 ≠ -1) :
    insert junk fuel p id dir_id block sb
      = (promote junk fuel
          (nd_key (leaf_split n ⟨ofInt32 dir_id, ofInt32 id⟩ block (get_node p1 sb junk).1
            (get_node (get_node p1 sb junk).2 sb junk).1
            (read_node (get_node (get_node p1 sb junk).2 sb junk).2 (get_node p1 sb junk).1).1
            (read_node (read_node (get_node (get_node p1 sb junk).2 sb junk).2
              (get_node p1 sb junk).1).2 (get_node (get_node p1 sb junk).2 sb junk).1).1).2 0)
          (nd_parent n) (get_node p1 sb junk).1 (get_node (get_node p1 sb junk).2 sb junk).1
          (free_block (read_node (read_node (get_node (get_node p1 sb junk).2 sb junk).2
              (get_node p1 sb junk).1).2 (get_node (get_node p1 sb junk).2 sb junk).1).2 curr)
          sb).map
        (fun x => (leaf_split_write x.2.1 n (get_node p1 sb junk).1
          (get_node (get_node p1 sb junk).2 sb junk).1 x.1
          (leaf_split n ⟨ofInt32 dir_id, ofInt32 id⟩ block (get_node p1 sb junk).1
            (get_node (get_node p1 sb junk).2 sb junk).1
            (read_node (get_node (get_node p1 sb junk).2 sb junk).2 (get_node p1 sb junk).1).1
            (read_node (read_node (get_node (get_node p1 sb junk).2 sb junk).2
              (get_node p1 sb junk).1).2 (get_node (get_node p1 sb junk).2 sb junk).1).1).1
          (leaf_split n ⟨ofInt32 dir_id, ofInt32 id⟩ block (get_node p1 sb junk).1
            (get_node (get_node p1 sb junk).2 sb junk).1
            (read_node (get_node (get_node p1 sb junk).2 sb junk).2 (get_node p1 sb junk).1).1
            (read_node (read_node (get_node (get_node p1 sb junk).2 sb junk).2
              (get_node p1 sb junk).1).2 (get_node (get_node p1 sb junk).2 sb junk).1).1).2,
          x.2.2)) := by
  unfold insert
  simp only []
  rw [if_neg hroot, hdesc]
  simp only []
  rw [if_neg hfull, if_neg (by simp only [not_or]; exact ⟨hl, hr⟩)]
  unfold leaf_split leaf_split_write
  simp only []
  cases promote junk fuel _ _ _ _ _ sb with
  | none => rfl
  | some x => rfl

theorem set_pair_fields (m j : Nat) (K : Key) (V : Int) (hj : j < 339)
    (hK : K.dir_id < 4294967296 ∧ K.id < 4294967296)
    (hV : -2147483648 ≤ V ∧ V < 2147483648) :
    (∀ t, t < 339 → nd_key (nd_set_link (nd_set_key m j K) j V) t
      = if j = t then K else nd_key m t) ∧
    (∀ t, nd_link (nd_set_link (nd_set_key m j K) j V) t = if j = t then V else nd_link m t) ∧
    nd_isLeaf (nd_set_link (nd_set_key m j K) j V) = nd_isLeaf m := by
  refine ⟨fun t ht => ?_, fun t => ?_, ?_⟩
  · rw [nd_key_set_link _ _ _ _ ht, nd_key_set_key, key_mod_eq _ hK]
  · rw [nd_link_set_link, nd_link_set_key _ _ _ _ hj, wrap32_eq _ hV.1 hV.2]
  · rw [(nd_head_set_link _ _ _).2.1, (nd_head_set_key _ _ _).2.1]

/-- One more entry of the sequence stored at index `s.j` keeps the invariant. -/
theorem split_inv_step (n : Nat) (k : Key) (block : Int) (i0 base : Nat) (s : SplitSt)
    (K : Key) (V : Int) (i' : Nat) (fl : Bool) (hj : s.j < 339)
    (hK : K.dir_id < 4294967296 ∧ K.id < 4294967296)
    (hV : -2147483648 ≤ V ∧ V < 2147483648)
    (hinv : split_inv n k block i0 base s)
    (hKV : K = ins_key n k i0 (base + s.j) ∧ V = ins_link n block i0 (base + s.j))
    (h1 : fl = false → i' = base + (s.j + 1) ∧ base + (s.j + 1) ≤ i0)
    (h2 : fl = true → base + (s.j + 1) = i' + 1 ∧ i0 ≤ i') :
    split_inv n k block i0 base ⟨i', s.j + 1, fl, nd_set_link (nd_set_key s.tmp s.j K) s.j V⟩ := by
  obtain ⟨_, _, h3, h4⟩ := hinv
  obtain ⟨f1, f2, f3⟩ := set_pair_fields s.tmp s.j K V hj hK hV
  refine ⟨h1, h2, ?_, ?_⟩
  · intro t ht
    simp only [] at ht ⊢
    rw [f1 t (by omega), f2 t]
    by_cases e : s.j = t
    · rw [if_pos e, if_pos e, ← e]
      exact hKV
    · rw [if_neg e, if_neg e]
      exact h3 t (by omega)
  · simp only []
    rw [f3]; exact h4

theorem leaf_split1_inv (n : Nat) (k : Key) (block : Int) (i0 : Nat)
    (hk32 : k.dir_id < 4294967296 ∧ k.id < 4294967296)
    (hblock : -2147483648 ≤ block ∧ block < 2147483648)
    (hbefore : ∀ j, j < i0 → ¬ comparator k (nd_key n j) < 0)
    (hat : i0 < 339 → comparator k (nd_key n i0) < 0) :
    ∀ (fuel : Nat) (s : SplitSt), s.j + fuel = 170 → split_inv n k block i0 0 s →
      split_inv n k block i0 0 (leaf_split1 n k block 170 fuel s) ∧
      (leaf_split1 n k block 170 fuel s).j = 170 := by
  intro fuel
  induction fuel with
  | zero =>
    intro s hs hinv
    have e : leaf_split1 n k block 170 0 s = s := rfl
    rw [e]
    exact ⟨hinv, by omega⟩
  | succ f ih =>
    intro s hs hinv
    have hlt : ((s.j : Nat) : Int) < 170 := by omega
    unfold leaf_split1
    rw [if_pos hlt]
    obtain ⟨g1, g2, g3, g4⟩ := hinv
    by_cases hc : s.flag = false ∧ comparator k (nd_key n s.i) < 0
    · rw [if_pos hc]
      obtain ⟨e1, e2⟩ := g1 hc.1
      have hi : s.i = i0 := by
        by_contra hne
        exact hbefore s.i (by omega) hc.2
      apply ih _ (by simp only []; omega)
      refine split_inv_step n k block i0 0 s k block s.i true (by omega) hk32 hblock
        ⟨g1, g2, g3, g4⟩ ?_ (fun h => by simp at h) (fun _ => ⟨by omega, by omega⟩)
      unfold ins_key ins_link
      rw [if_neg (by omega), if_pos (by omega), if_neg (by omega), if_pos (by omega)]
      exact ⟨rfl, rfl⟩
    · rw [if_neg hc]
      apply ih _ (by simp only []; omega)
      by_cases hf : s.flag = false
      · obtain ⟨e1, e2⟩ := g1 hf
        have hnc : ¬ comparator k (nd_key n s.i) < 0 := fun h => hc ⟨hf, h⟩
        have hi : s.i < i0 := by
          by_contra hge
          have : s.i = i0 := by omega
          rw [this] at hnc
          exact hnc (hat (by omega))
        refine split_inv_step n k block i0 0 s _ _ (s.i + 1) s.flag (by omega) (nd_key_lt _ _)
          (nd_link_range _ _) ⟨g1, g2, g3, g4⟩ ?_ (fun _ => ⟨by omega, by omega⟩)
          (fun h => by rw [hf] at h; simp at h)
        unfold ins_key ins_link
        rw [if_pos (by omega), if_pos (by omega)]
        have e : 0 + s.j = s.i := by omega
        rw [e]
        exact ⟨rfl, rfl⟩
      · have hf' : s.flag = true := by simpa using hf
        obtain ⟨e1, e2⟩ := g2 hf'
        refine split_inv_step n k block i0 0 s _ _ (s.i + 1) s.flag (by omega) (nd_key_lt _ _)
          (nd_link_range _ _) ⟨g1, g2, g3, g4⟩ ?_ (fun h => by rw [hf'] at h; simp at h)
          (fun _ => ⟨by omega, by omega⟩)
        unfold ins_key ins_link
        rw [if_neg (by omega), if_neg (by omega), if_neg (by omega), if_neg (by omega)]
        have e : 0 + s.j - 1 = s.i := by omega
        rw [e]
        exact ⟨rfl, rfl⟩

theorem leaf_split2_inv (n : Nat) (k : Key) (block : Int) (i0 : Nat)
    (hsize : nd_size n = 339)
    (hk32 : k.dir_id < 4294967296 ∧ k.id < 4294967296)
    (hblock : -2147483648 ≤ block ∧ block < 2147483648)
    (hbefore : ∀ j, j < i0 → ¬ comparator k (nd_key n j) < 0)
    (hat : i0 < 339 → comparator k (nd_key n i0) < 0) :
    ∀ (fuel : Nat) (s : SplitSt), (339 - s.i) + (if s.flag = true then 0 else 1) ≤ fuel →
      s.i ≤ 339 → split_inv n k block i0 170 s →
      split_inv n k block i0 170 (leaf_split2 n k block fuel s) ∧
      (leaf_split2 n k block fuel s).i = 339 := by
  intro fuel
  induction fuel with
  | zero =>
    intro s hs hle hinv
    have e : leaf_split2 n k block 0 s = s := rfl
    rw [e]
    exact ⟨hinv, by omega⟩
  | succ f ih =>
    intro s hs hle hinv
    unfold leaf_split2
    by_cases hlt : ((s.i : Nat) : Int) < nd_size n
    · rw [if_pos hlt]
      rw [hsize] at hlt
      obtain ⟨g1, g2, g3, g4⟩ := hinv
      by_cases hc : s.flag = false ∧ comparator k (nd_key n s.i) < 0
      · rw [if_pos hc]
        obtain ⟨e1, e2⟩ := g1 hc.1
        have hi : s.i = i0 := by
          by_contra hne
          exact hbefore s.i (by omega) hc.2
        apply ih _ (by simp only []; rw [if_neg (by rw [hc.1]; simp)] at hs; simp; omega)
          (by simp only []; omega)
        refine split_inv_step n k block i0 170 s k block s.i true (by omega) hk32 hblock
          ⟨g1, g2, g3, g4⟩ ?_ (fun h => by simp at h) (fun _ => ⟨by omega, by omega⟩)
        unfold ins_key ins_link
        rw [if_neg (by omega), if_pos (by omega), if_neg (by omega), if_pos (by omega)]
        exact ⟨rfl, rfl⟩
      · rw [if_neg hc]
        by_cases hf : s.flag = false
        · obtain ⟨e1, e2⟩ := g1 hf
          have hnc : ¬ comparator k (nd_key n s.i) < 0 := fun h => hc ⟨hf, h⟩
          have hi : s.i < i0 := by
            by_contra hge
            have : s.i = i0 := by omega
            rw [this] at hnc
            exact hnc (hat (by omega))
          apply ih _ (by simp only []; rw [if_neg (by rw [hf]; simp)] at hs ⊢; omega)
            (by simp only []; omega)
          refine split_inv_step n k block i0 170 s _ _ (s.i + 1) s.flag (by omega) (nd_key_lt _ _)
            (nd_link_range _ _) ⟨g1, g2, g3, g4⟩ ?_ (fun _ => ⟨by omega, by omega⟩)
            (fun h => by rw [hf] at h; simp at h)
          unfold ins_key ins_link
          rw [if_pos (by omega), if_pos (by omega)]
          have e : 170 + s.j = s.i := by omega
          rw [e]
          exact ⟨rfl, rfl⟩
        · have hf' : s.flag = true := by simpa using hf
          obtain ⟨e1, e2⟩ := g2 hf'
          apply ih _ (by simp only []; rw [if_pos hf'] at hs ⊢; omega) (by simp only []; omega)
          refine split_inv_step n k block i0 170 s _ _ (s.i + 1) s.flag (by omega) (nd_key_lt _ _)
            (nd_link_range _ _) ⟨g1, g2, g3, g4⟩ ?_ (fun h => by rw [hf'] at h; simp at h)
            (fun _ => ⟨by omega, by omega⟩)
          unfold ins_key ins_link
          rw [if_neg (by omega), if_neg (by omega), if_neg (by omega), if_neg (by omega)]
          have e : 170 + s.j - 1 = s.i := by omega
          rw [e]
          exact ⟨rfl, rfl⟩
    · rw [if_neg hlt]
      rw [hsize] at hlt
      exact ⟨hinv, by omega⟩

theorem nd_set_parent_fields (n : Nat) (v : Int) :
    nd_isLeaf (nd_set_parent n v) = nd_isLeaf n ∧ nd_size (nd_set_parent n v) = nd_size n ∧
    (∀ j, nd_key (nd_set_parent n v) j = nd_key n j) ∧
    (∀ j, nd_link (nd_set_parent n v) j = nd_link n j) := by
  unfold nd_isLeaf nd_size nd_set_parent
  refine ⟨getInt_setInt_disjoint _ _ _ _ (by omega), getInt_setInt_disjoint _ _ _ _ (by omega),
    ?_, ?_⟩
  · intro j
    unfold nd_key getU32 setInt
    rw [getBytes_setBytes_disjoint _ _ _ _ _ _ (by omega),
      getBytes_setBytes_disjoint _ _ _ _ _ _ (by omega)]
  · intro j
    unfold nd_link
    exact getInt_setInt_disjoint _ _ _ _ (by omega)

theorem ins_key_sorted (n : Nat) (k : Key) (size i : Nat)
    (hk32 : k.dir_id < 4294967296 ∧ k.id < 4294967296)
    (hasc : sorted_keys n size) (hk : ∀ j, j < size → nd_key n j ≠ k) (hi : i ≤ size)
    (hbefore : ∀ j, j < i → ¬ comparator k (nd_key n j) < 0)
    (hat : i < size → comparator k (nd_key n i) < 0) :
    ∀ j, j + 1 < size + 1 → comparator (ins_key n k i j) (ins_key n k i (j + 1)) < 0 := by
  intro j hj
  unfold ins_key
  by_cases h1 : j + 1 < i
  · rw [if_pos (by omega), if_pos h1]
    exact hasc j (by omega)
  · by_cases h2 : j + 1 = i
    · rw [if_pos (by omega), if_neg (by omega), if_pos h2]
      exact comparator_flip _ _ hk32 (nd_key_lt _ _) (hbefore j (by omega))
        (fun e => hk j (by omega) e.symm)
    · by_cases h3 : j = i
      · rw [if_neg (by omega), if_pos h3, if_neg (by omega), if_neg (by omega)]
        have := hat (by omega)
        rw [h3]
        simpa using this
      · rw [if_neg (by omega), if_neg h3, if_neg (by omega), if_neg (by omega)]
        have := hasc (j - 1) (by omega)
        have e : j - 1 + 1 = j := by omega
        rw [e] at this
        simpa using this

theorem comparator_neg_iff_rank (a b : Key)
    (ha : a.dir_id < 2147483648 ∧ a.id < 2147483648)
    (hb : b.dir_id < 2147483648 ∧ b.id < 2147483648) :
    comparator a b < 0 ↔ rank a < rank b := by
  obtain ⟨ad, ai⟩ := a
  obtain ⟨bd, bi⟩ := b
  simp only [] at ha hb
  unfold comparator toInt32 rank
  simp only []
  split_ifs <;> omega

theorem lt_of_step_lt (g : Nat → Nat) (N : Nat) (h : ∀ j, j + 1 < N → g j < g (j + 1)) :
    ∀ b a, a < b → b < N → g a < g b := by
  intro b
  induction b with
  | zero => intro a h1 _; omega
  | succ b ih =>
    intro a h1 h2
    have hb := h b h2
    by_cases e : a = b
    · rw [e]; exact hb
    · exact lt_trans (ih a (by omega) (by omega)) hb

/-- The distributing loops of a split: for a full leaf `n` (339 strictly ascending keys, `k`
not among them) the two
structs that `insert` has built when its distributing loops end hold 170 entries each and
are marked as leaves; the entries of the first followed by those of the second are the old
entries with `(k, block)` inserted at an index `i`, a strictly ascending sequence of 340
keys; and when all key fields are below `2^31` every key of the first is below every key of
the second. -/
theorem leaf_split_distributes (n : Nat) (k : Key) (block l r : Int) (t1 t2 : Nat)
    (hk32 : k.dir_id < 4294967296 ∧ k.id < 4294967296)
    (hblock : -2147483648 ≤ block ∧ block < 2147483648)
    (hsize : nd_size n = 339) (hasc : sorted_keys n 339)
    (hk : ∀ j, j < 339 → nd_key n j ≠ k) :
    ∃ i, i ≤ 339 ∧
      nd_size (leaf_split n k block l r t1 t2).1 = 170 ∧
      nd_size (leaf_split n k block l r t1 t2).2 = 170 ∧
      nd_isLeaf (leaf_split n k block l r t1 t2).1 = 1 ∧
      nd_isLeaf (leaf_split n k block l r t1 t2).2 = 1 ∧
      (∀ j, j < 170 →
        nd_key (leaf_split n k block l r t1 t2).1 j = ins_key n k i j ∧
        nd_link (leaf_split n k block l r t1 t2).1 j = ins_link n block i j) ∧
      (∀ j, j < 170 →
        nd_key (leaf_split n k block l r t1 t2).2 j = ins_key n k i (170 + j) ∧
        nd_link (leaf_split n k block l r t1 t2).2 j = ins_link n block i (170 + j)) ∧
      (∀ j, j + 1 < 340 → comparator (ins_key n k i j) (ins_key n k i (j + 1)) < 0) ∧
      ((k.dir_id < 2147483648 ∧ k.id < 2147483648) →
        (∀ j, j < 339 → (nd_key n j).dir_id < 2147483648 ∧ (nd_key n j).id < 2147483648) →
        ∀ a b, a < 170 → b < 170 →
          comparator (nd_key (leaf_split n k block l r t1 t2).1 a)
            (nd_key (leaf_split n k block l r t1 t2).2 b) < 0) := by
  have hsz : nd_size n = ((339 : Nat) : Int) := by rw [hsize]; rfl
  obtain ⟨_, hi0, hbefore', hat'⟩ := key_scan_spec n k 339 hsz 339 0 (by omega)
  generalize key_scan n k 339 0 = i0 at *
  have hbefore : ∀ j, j < i0 → ¬ comparator k (nd_key n j) < 0 :=
    fun j hj => hbefore' j (by omega) hj
  have hw1 : wrap32 1 = 1 := wrap32_eq _ (by omega) (by omega)
  have hleaf : ∀ m, nd_isLeaf (nd_set_isLeaf m 1) = 1 := by
    intro m
    unfold nd_isLeaf nd_set_isLeaf
    rw [getInt_setInt_same, hw1]
  -- the first loop
  obtain ⟨inv1, hj1⟩ := leaf_split1_inv n k block i0 hk32 hblock hbefore hat' 170
    ⟨0, 0, false, nd_set_isLeaf (nd_set_parent (nd_set_right (nd_set_left t1 (nd_left n)) r)
      (nd_parent n)) 1⟩ (by simp)
    ⟨fun _ => ⟨by simp, by simp⟩, fun h => by simp at h, fun t ht => by simp at ht, hleaf _⟩
  generalize hS1 : leaf_split1 n k block 170 170
    ⟨0, 0, false, nd_set_isLeaf (nd_set_parent (nd_set_right (nd_set_left t1 (nd_left n)) r)
      (nd_parent n)) 1⟩ = s1 at inv1 hj1
  obtain ⟨a1, a2, a3, a4⟩ := inv1
  -- the second loop
  have hfuel : (339 - s1.i) + (if s1.flag = true then 0 else 1) ≤ 340 := by
    split <;> omega
  have hle1 : s1.i ≤ 339 := by
    by_cases hf : s1.flag = false
    · have := a1 hf; omega
    · have := a2 (by simpa using hf); omega
  obtain ⟨inv2, hi2⟩ := leaf_split2_inv n k block i0 hsize hk32 hblock hbefore hat' 340
    ⟨s1.i, 0, s1.flag, nd_set_isLeaf (nd_set_parent (nd_set_left (nd_set_right t2 (nd_right n)) l)
      (nd_parent n)) 1⟩ hfuel hle1
    ⟨fun h => by have := a1 h; simp only []; omega,
      fun h => by have := a2 h; simp only []; omega, fun t ht => by simp at ht, hleaf _⟩
  generalize hS2 : leaf_split2 n k block 340
    ⟨s1.i, 0, s1.flag, nd_set_isLeaf (nd_set_parent (nd_set_left (nd_set_right t2 (nd_right n)) l)
      (nd_parent n)) 1⟩ = s2 at inv2 hi2
  obtain ⟨c1, c2, c3, c4⟩ := inv2
  -- the entry stored after the loops when the key is the last one
  have inv3 : split_inv n k block i0 170
      (if s2.flag = false then
        ⟨s2.i, s2.j + 1, true, nd_set_link (nd_set_key s2.tmp s2.j k) s2.j block⟩
      else s2) ∧
      (if s2.flag = false then
        (⟨s2.i, s2.j + 1, true, nd_set_link (nd_set_key s2.tmp s2.j k) s2.j block⟩ : SplitSt)
      else s2).j = 170 := by
    by_cases hf : s2.flag = false
    · rw [if_pos hf]
      obtain ⟨e1, e2⟩ := c1 hf
      refine ⟨split_inv_step n k block i0 170 s2 k block s2.i true (by omega) hk32 hblock
        ⟨c1, c2, c3, c4⟩ ?_ (fun h => by simp at h) (fun _ => ⟨by omega, by omega⟩), by
          simp only []; omega⟩
      unfold ins_key ins_link
      rw [if_neg (by omega), if_pos (by omega), if_neg (by omega), if_pos (by omega)]
      exact ⟨rfl, rfl⟩
    · rw [if_neg hf]
      have := c2 (by simpa using hf)
      exact ⟨⟨c1, c2, c3, c4⟩, by omega⟩
  generalize hS3 : (if s2.flag = false then
      (⟨s2.i, s2.j + 1, true, nd_set_link (nd_set_key s2.tmp s2.j k) s2.j block⟩ : SplitSt)
    else s2) = s3 at inv3
  obtain ⟨⟨d1, d2, d3, d4⟩, hj3⟩ := inv3
  have hL : leaf_split n k block l r t1 t2
      = (nd_set_size s1.tmp ((170 : Nat) : Int),
          nd_set_size (nd_set_parent s3.tmp (nd_parent n)) ((170 : Nat) : Int)) := by
    unfold leaf_split
    simp only []
    rw [hsize]
    have hb : (339 : Int).tdiv 2 + 1 = 170 := by decide
    have hb2 : (170 : Int).toNat = 170 := by decide
    have hb3 : (339 : Int).toNat + 1 = 340 := by decide
    rw [hb, hb2, hb3, hS1, hS2, hS3, hj1, hj3]
  rw [hL]
  simp only []
  obtain ⟨x1, _, x3, _, _, x6, x7⟩ := nd_set_size_fields s1.tmp ((170 : Nat) : Int)
  obtain ⟨y1, _, y3, _, _, y6, y7⟩ :=
    nd_set_size_fields (nd_set_parent s3.tmp (nd_parent n)) ((170 : Nat) : Int)
  obtain ⟨z1, _, z3, z4⟩ := nd_set_parent_fields s3.tmp (nd_parent n)
  have hw : wrap32 ((170 : Nat) : Int) = 170 := wrap32_eq _ (by omega) (by omega)
  have hsorted := ins_key_sorted n k 339 i0 hk32 hasc hk hi0 hbefore hat'
  have hA : ∀ j, j < 170 → nd_key (nd_set_size s1.tmp ((170 : Nat) : Int)) j = ins_key n k i0 j ∧
      nd_link (nd_set_size s1.tmp ((170 : Nat) : Int)) j = ins_link n block i0 j := by
    intro j hj
    have := a3 j (by omega)
    rw [Nat.zero_add] at this
    rw [x6, x7]
    exact this
  have hB : ∀ j, j < 170 →
      nd_key (nd_set_size (nd_set_parent s3.tmp (nd_parent n)) ((170 : Nat) : Int)) j
        = ins_key n k i0 (170 + j) ∧
      nd_link (nd_set_size (nd_set_parent s3.tmp (nd_parent n)) ((170 : Nat) : Int)) j
        = ins_link n block i0 (170 + j) := by
    intro j hj
    rw [y6, y7, z3, z4]
    exact d3 j (by omega)
  refine ⟨i0, hi0, ?_, ?_, ?_, ?_, hA, hB, hsorted, ?_⟩
  · rw [x1, hw]
  · rw [y1, hw]
  · rw [x3, a4]
  · rw [y3, z1, d4]
  · intro hkr hnr a b ha hb
    rw [(hA a ha).1, (hB b hb).1]
    have hrange : ∀ j, j < 340 →
        (ins_key n k i0 j).dir_id < 2147483648 ∧ (ins_key n k i0 j).id < 2147483648 := by
      intro j hj
      unfold ins_key
      split
      · exact hnr j (by omega)
      · split
        · exact hkr
        · exact hnr (j - 1) (by omega)
    have hstep : ∀ j, j + 1 < 340 → rank (ins_key n k i0 j) < rank (ins_key n k i0 (j + 1)) := by
      intro j hj
      exact (comparator_neg_iff_rank _ _ (hrange j (by omega)) (hrange (j + 1) hj)).mp
        (hsorted j hj)
    exact (comparator_neg_iff_rank _ _ (hrange a (by omega)) (hrange (170 + b) (by omega))).mpr
      (lt_of_step_lt (fun j => rank (ins_key n k i0 j)) 340 hstep (170 + b) a (by omega)
        (by omega))

theorem leaf_split_distributes_witness :
    nd_size (getBytes tree_image.1.data 45056 4096) = 339 ∧
    sorted_keys (getBytes tree_image.1.data 45056 4096) 339 ∧
    ∃ i, i ≤ 339 ∧
      nd_size (leaf_split (getBytes tree_image.1.data 45056 4096) ⟨1, 703⟩ 12288 749568 753664
        (get_node_init 0) (get_node_init 0)).1 = 170 ∧
      nd_size (leaf_split (getBytes tree_image.1.data 45056 4096) ⟨1, 703⟩ 12288 749568 753664
        (get_node_init 0) (get_node_init 0)).2 = 170 ∧
      nd_key (leaf_split (getBytes tree_image.1.data 45056 4096) ⟨1, 703⟩ 12288 749568 753664
        (get_node_init 0) (get_node_init 0)).1 0
        = ins_key (getBytes tree_image.1.data 45056 4096) ⟨1, 703⟩ i 0 :=
  have e := tree_leaf1_eval
  have e1 : nd_size (getBytes tree_image.1.data 45056 4096) = 339 ∧
      (List.range 339).all (fun j => decide (j + 1 < 339 →
        comparator (nd_key (getBytes tree_image.1.data 45056 4096) j)
          (nd_key (getBytes tree_image.1.data 45056 4096) (j + 1)) < 0)) = true ∧
      (List.range 339).all (fun j =>
        decide (nd_key (getBytes tree_image.1.data 45056 4096) j ≠ ⟨1, 703⟩)) = true := by
    simpa only [Bool.and_eq_true, decide_eq_true_eq] using e
  have hs := sorted_keys_of_all _ _ e1.2.1
  have h := leaf_split_distributes (getBytes tree_image.1.data 45056 4096) ⟨1, 703⟩ 12288 749568
    753664 (get_node_init 0) (get_node_init 0) (by decide) (by decide) e1.1 hs
    (keys_ne_of_all _ _ _ e1.2.2)
  ⟨e1.1, hs,
    let ⟨i, h1, h2, h3, _, _, h6, _⟩ := h
    ⟨i, h1, h2, h3, (h6 0 (by decide)).1⟩⟩

/-! ## Splitting a full root (C25, C26) -/

/-- The root of `wide_image` is an internal node of 339 strictly ascending keys, and its
children 0, 1, 2, 5, 200, 338 and 339 are well-formed leaves (`leaf_ok`). -/
theorem wide_image_ok :
    (decide (nd_isLeaf (getBytes wide_image.1.data 36864 4096) = 0) &&
    (decide (nd_size (getBytes wide_image.1.data 36864 4096) = 339) &&
    (keys_ascending (getBytes wide_image.1.data 36864 4096) 338 0 &&
    [0, 1, 2, 5, 200, 338, 339].all (fun i =>
      decide (0 ≤ nd_link (getBytes wide_image.1.data 36864 4096) i) &&
      leaf_ok (getBytes wide_image.1.data 36864 4096) 36864 i
        (getBytes wide_image.1.data
          (nd_link (getBytes wide_image.1.data 36864 4096) i).toNat 4096))))) = true := by
  decide!

theorem wide_insert_eval :
    (decide ((insert_descent 8 wide_image.1 ⟨1, 703⟩ wide_image.2).map (fun r => r.2)
        = some 45056) &&
    (decide ((nd_size (getBytes wide_image.1.data 45056 4096),
        nd_parent (getBytes wide_image.1.data 45056 4096),
        nd_key (getBytes wide_image.1.data 36864 4096) 168,
        nd_key (getBytes wide_image.1.data 36864 4096) 169,
        nd_link (getBytes wide_image.1.data 36864 4096) 339)
        = (339, 36864, ⟨1, 118302⟩, ⟨1, 119002⟩, 1429504)) &&
    (decide (wide_insert.map (fun r =>
        (sb_root r.2, nd_size (getBytes r.1.data 1449984 4096),
          nd_key (getBytes r.1.data 1449984 4096) 0,
          nd_link (getBytes r.1.data 1449984 4096) 0, nd_link (getBytes r.1.data 1449984 4096) 1))
        = some (1449984, 1, ⟨0, 0⟩, 1441792, 1445888)) &&
    (decide (wide_insert.map (fun r =>
        (nd_parent (getBytes r.1.data 1441792 4096), nd_parent (getBytes r.1.data 1445888 4096),
          nd_parent (getBytes r.1.data 1433600 4096), nd_parent (getBytes r.1.data 1437696 4096)))
        = some (1449984, 1449984, 1441792, 1441792)) &&
    (decide (wide_insert.map (fun r =>
        (nd_link (getBytes r.1.data 1441792 4096) 1, nd_link (getBytes r.1.data 1441792 4096) 2,
          nd_link (getBytes r.1.data 1441792 4096) 6, nd_parent (getBytes r.1.data 61440 4096)))
        = some (1433600, 1437696, 61440, 36864)) &&
    (decide (wide_insert.map (fun r =>
        (nd_link (getBytes r.1.data 1445888 4096) 31, nd_parent (getBytes r.1.data 860160 4096)))
        = some (860160, 36864)) &&
    (decide (wide_insert.map (fun r =>
        (nd_isLeaf (getBytes r.1.data 1441792 4096), nd_size (getBytes r.1.data 1441792 4096),
          nd_isLeaf (getBytes r.1.data 1445888 4096), nd_size (getBytes r.1.data 1445888 4096)))
        = some (0, 0, 0, 0)) &&
    (decide (wide_insert.map (fun r =>
        (nd_key (getBytes r.1.data 1441792 4096) 1, nd_key (getBytes r.1.data 1441792 4096) 169,
          nd_key (getBytes r.1.data 1445888 4096) 0, nd_key (getBytes r.1.data 1445888 4096) 169))
        = some (⟨1, 1040⟩, ⟨1, 118302⟩, ⟨1, 119002⟩, ⟨1, 237302⟩)) &&
    (decide (wide_insert.map (fun r =>
        (nd_link (getBytes r.1.data 1441792 4096) 170, nd_link (getBytes r.1.data 1445888 4096) 0,
          nd_link (getBytes r.1.data 1445888 4096) 169,
          nd_link (getBytes r.1.data 1445888 4096) 170))
        = some (-1, 733184, 1425408, -1)) &&
    decide (wide_insert.map (fun r =>
        (List.range 341).all (fun j =>
          decide (nd_link (getBytes r.1.data 1441792 4096) j ≠ 1429504) &&
          decide (nd_link (getBytes r.1.data 1445888 4096) j ≠ 1429504)))
        = some true)))))))))) = true := by
  decide!

/-- C25 (failing input): `insert(p, 703, 1, 12288, sb)` on `wide_image`, whose root (offset
36864) is full.  The key belongs to the full leaf at 45056; the leaf is split into the leaves
at 1433600 and 1437696, and `promote` splits the root into the nodes at 1441792 and 1445888
under a new root at 1449984.  Afterwards the two halves carry the new root as `parent` and
the two new leaves carry 1441792, which holds them as links 1 and 2; but the leaf at 61440
is link 6 of the node at 1441792 and the leaf at 860160 is link 31 of the node at 1445888,
and both still have `parent = 36864`, the offset of the old root. -/
theorem split_leaves_stale_parents :
    (decide (nd_isLeaf (getBytes wide_image.1.data 36864 4096) = 0) &&
    (decide (nd_size (getBytes wide_image.1.data 36864 4096) = 339) &&
    (keys_ascending (getBytes wide_image.1.data 36864 4096) 338 0 &&
    [0, 1, 2, 5, 200, 338, 339].all (fun i =>
      decide (0 ≤ nd_link (getBytes wide_image.1.data 36864 4096) i) &&
      leaf_ok (getBytes wide_image.1.data 36864 4096) 36864 i
        (getBytes wide_image.1.data
          (nd_link (getBytes wide_image.1.data 36864 4096) i).toNat 4096))))) = true ∧
    (insert_descent 8 wide_image.1 ⟨1, 703⟩ wide_image.2).map (fun r => r.2) = some 45056 ∧
    (nd_size (getBytes wide_image.1.data 45056 4096),
      nd_parent (getBytes wide_image.1.data 45056 4096),
      nd_key (getBytes wide_image.1.data 36864 4096) 168,
      nd_key (getBytes wide_image.1.data 36864 4096) 169,
      nd_link (getBytes wide_image.1.data 36864 4096) 339)
      = (339, 36864, ⟨1, 118302⟩, ⟨1, 119002⟩, 1429504) ∧
    wide_insert.map (fun r =>
        (sb_root r.2, nd_size (getBytes r.1.data 1449984 4096),
          nd_key (getBytes r.1.data 1449984 4096) 0,
          nd_link (getBytes r.1.data 1449984 4096) 0, nd_link (getBytes r.1.data 1449984 4096) 1))
      = some (1449984, 1, ⟨0, 0⟩, 1441792, 1445888) ∧
    wide_insert.map (fun r =>
        (nd_parent (getBytes r.1.data 1441792 4096), nd_parent (getBytes r.1.data 1445888 4096),
          nd_parent (getBytes r.1.data 1433600 4096), nd_parent (getBytes r.1.data 1437696 4096)))
      = some (1449984, 1449984, 1441792, 1441792) ∧
    wide_insert.map (fun r =>
        (nd_link (getBytes r.1.data 1441792 4096) 1, nd_link (getBytes r.1.data 1441792 4096) 2,
          nd_link (getBytes r.1.data 1441792 4096) 6, nd_parent (getBytes r.1.data 61440 4096)))
      = some (1433600, 1437696, 61440, 36864) ∧
    wide_insert.map (fun r =>
        (nd_link (getBytes r.1.data 1445888 4096) 31, nd_parent (getBytes r.1.data 860160 4096)))
      = some (860160, 36864) := by
  have h := wide_insert_eval
  simp only [Bool.and_eq_true, decide_eq_true_eq] at h
  exact ⟨wide_image_ok, h.1, h.2.1, h.2.2.1, h.2.2.2.1, h.2.2.2.2.1, h.2.2.2.2.2.1⟩

/-- C26 (failing input): the call `promote((1, 1040), 36864, 1433600, 1437696)` that
`insert(p, 703, 1, 12288, sb)` makes on `wide_image`, whose root at 36864 has 339 keys.  Of
the 340 keys in order, `(1, 119002)`, the old key 169, is the middle one (index 170).
Afterwards the two new internal nodes at 1441792 and 1445888 both have `size = 0`; the first
holds the keys up to the old key 168 in its key array, the second starts with `(1, 119002)`,
which was not moved up: the new root at 1449984 has `key[0] = (0, 0)`, the bytes the
uninitialised `ktmp` has in this model; link 170 of both halves is `-1`, and the old link
339 (offset 1429504) is in neither of them. -/
theorem promote_split_drops_sizes :
    (decide (nd_isLeaf (getBytes wide_image.1.data 36864 4096) = 0) &&
    (decide (nd_size (getBytes wide_image.1.data 36864 4096) = 339) &&
    (keys_ascending (getBytes wide_image.1.data 36864 4096) 338 0 &&
    [0, 1, 2, 5, 200, 338, 339].all (fun i =>
      decide (0 ≤ nd_link (getBytes wide_image.1.data 36864 4096) i) &&
      leaf_ok (getBytes wide_image.1.data 36864 4096) 36864 i
        (getBytes wide_image.1.data
          (nd_link (getBytes wide_image.1.data 36864 4096) i).toNat 4096))))) = true ∧
    (nd_size (getBytes wide_image.1.data 45056 4096),
      nd_parent (getBytes wide_image.1.data 45056 4096),
      nd_key (getBytes wide_image.1.data 36864 4096) 168,
      nd_key (getBytes wide_image.1.data 36864 4096) 169,
      nd_link (getBytes wide_image.1.data 36864 4096) 339)
      = (339, 36864, ⟨1, 118302⟩, ⟨1, 119002⟩, 1429504) ∧
    wide_insert.map (fun r =>
        (sb_root r.2, nd_size (getBytes r.1.data 1449984 4096),
          nd_key (getBytes r.1.data 1449984 4096) 0,
          nd_link (getBytes r.1.data 1449984 4096) 0, nd_link (getBytes r.1.data 1449984 4096) 1))
      = some (1449984, 1, ⟨0, 0⟩, 1441792, 1445888) ∧
    wide_insert.map (fun r =>
        (nd_isLeaf (getBytes r.1.data 1441792 4096), nd_size (getBytes r.1.data 1441792 4096),
          nd_isLeaf (getBytes r.1.data 1445888 4096), nd_size (getBytes r.1.data 1445888 4096)))
      = some (0, 0, 0, 0) ∧
    wide_insert.map (fun r =>
        (nd_key (getBytes r.1.data 1441792 4096) 1, nd_key (getBytes r.1.data 1441792 4096) 169,
          nd_key (getBytes r.1.data 1445888 4096) 0, nd_key (getBytes r.1.data 1445888 4096) 169))
      = some (⟨1, 1040⟩, ⟨1, 118302⟩, ⟨1, 119002⟩, ⟨1, 237302⟩) ∧
    wide_insert.map (fun r =>
        (nd_link (getBytes r.1.data 1441792 4096) 170, nd_link (getBytes r.1.data 1445888 4096) 0,
          nd_link (getBytes r.1.data 1445888 4096) 169,
          nd_link (getBytes r.1.data 1445888 4096) 170))
      = some (-1, 733184, 1425408, -1) ∧
    wide_insert.map (fun r =>
        (List.range 341).all (fun j =>
          decide (nd_link (getBytes r.1.data 1441792 4096) j ≠ 1429504) &&
          decide (nd_link (getBytes r.1.data 1445888 4096) j ≠ 1429504)))
      = some true := by
  have h := wide_insert_eval
  simp only [Bool.and_eq_true, decide_eq_true_eq] at h
  exact ⟨wide_image_ok, h.2.1, h.2.2.1, h.2.2.2.2.2.2.1, h.2.2.2.2.2.2.2.1, h.2.2.2.2.2.2.2.2.1, h.2.2.2.2.2.2.2.2.2⟩

/-! ## find against the directory scan of ls (C30) -/

/-- C30 (failing input): the image left by `new_empty_file_dir("d", 1, 2)` on `full_image`
holds a well-formed tree (`tree_ok`: root at 1441792, two leaves).  On it the directory scan
of `ls(340)` emits the entry with key `(340, 1)` and link 33984, whose stat block has name
".." and type 2, while `find(340, "..", 2)` returns `-1` in id mode and in location mode. -/
theorem find_stops_before_ls :
    full_mkdir.map (fun r => (sb_root r.2.2, tree_ok r.2.1 (sb_root r.2.2)))
      = some (1441792, true) ∧
    (full_mkdir.bind fun r => (ls 8 r.2.1 r.2.2 340).map fun v =>
        v.1.map fun row => (row.key, row.link, row.isFile, row.name))
      = some [(⟨340, 1⟩, 33984, false, [46, 46])] ∧
    full_mkdir.map (fun r =>
        (st_type (getBytes r.2.1.data (in_f (getBytes r.2.1.data 33984 64) 0).toNat 4096),
          cstring (getBytes r.2.1.data (in_f (getBytes r.2.1.data 33984 64) 0).toNat 4096) 28 10))
      = some (2, [46, 46]) ∧
    (full_mkdir.bind fun r => (find 8 r.2.1 r.2.2 340 [46, 46] 2 0).map fun v => v.1)
      = some (-1) ∧
    (full_mkdir.bind fun r => (find 8 r.2.1 r.2.2 340 [46, 46] 2 1).map fun v => v.1)
      = some (-1) := by
  have h := full_mkdir_all_eval
  simp only [Bool.and_eq_true, decide_eq_true_eq] at h
  exact ⟨h.1.1, h.2.2.2.2.2.2.1, h.1.2.1, h.2.2.2.2.2.1, h.1.2.2⟩

/-! ## The sign of comparator (C31) -/

/-- C31: for two keys whose four fields are all below `2^31`, `comparator a b` has the sign
of the lexicographic comparison of the pairs `(dir_id, id)`, and `comparator a b < 0`
exactly when `comparator b a > 0`. -/
theorem comparator_sign_lex (a b : Key)
    (ha : a.dir_id < 2147483648 ∧ a.id < 2147483648)
    (hb : b.dir_id < 2147483648 ∧ b.id < 2147483648) :
    Int.sign (comparator a b) = lex_sign a b ∧ (comparator a b < 0 ↔ 0 < comparator b a) := by
  obtain ⟨ad, ai⟩ := a
  obtain ⟨bd, bi⟩ := b
  simp only [] at ha hb
  have h1 : comparator ⟨ad, ai⟩ ⟨bd, bi⟩ < 0 ↔ ad < bd ∨ (ad = bd ∧ ai < bi) := by
    unfold comparator toInt32
    simp only []
    split_ifs <;> omega
  have h2 : 0 < comparator ⟨ad, ai⟩ ⟨bd, bi⟩ ↔ bd < ad ∨ (ad = bd ∧ bi < ai) := by
    unfold comparator toInt32
    simp only []
    split_ifs <;> omega
  have h3 : 0 < comparator ⟨bd, bi⟩ ⟨ad, ai⟩ ↔ ad < bd ∨ (ad = bd ∧ ai < bi) := by
    unfold comparator toInt32
    simp only []
    split_ifs <;> omega
  refine ⟨?_, by rw [h1, h3]⟩
  unfold lex_sign
  simp only []
  split_ifs with c1 c2 c3 c4
  · exact Int.sign_eq_neg_one_of_neg (h1.mpr (Or.inl c1))
  · exact Int.sign_eq_one_of_pos (h2.mpr (Or.inl c2))
  · exact Int.sign_eq_neg_one_of_neg (h1.mpr (Or.inr ⟨by omega, c3⟩))
  · exact Int.sign_eq_one_of_pos (h2.mpr (Or.inr ⟨by omega, c4⟩))
  · have n1 : ¬ comparator ⟨ad, ai⟩ ⟨bd, bi⟩ < 0 := fun h => by
      rcases h1.mp h with h | h <;> omega
    have n2 : ¬ 0 < comparator ⟨ad, ai⟩ ⟨bd, bi⟩ := fun h => by
      rcases h2.mp h with h | h <;> omega
    have e : comparator ⟨ad, ai⟩ ⟨bd, bi⟩ = 0 := by omega
    rw [e]
    rfl

theorem comparator_sign_lex_witness :
    ((⟨3, 2147483647⟩ : Key).dir_id < 2147483648 ∧ (⟨3, 2147483647⟩ : Key).id < 2147483648) ∧
    ((⟨3, 0⟩ : Key).dir_id < 2147483648 ∧ (⟨3, 0⟩ : Key).id < 2147483648) ∧
    Int.sign (comparator ⟨3, 2147483647⟩ ⟨3, 0⟩) = lex_sign ⟨3, 2147483647⟩ ⟨3, 0⟩ ∧
    (comparator ⟨3, 2147483647⟩ ⟨3, 0⟩ < 0 ↔ 0 < comparator ⟨3, 0⟩ ⟨3, 2147483647⟩) :=
  ⟨by decide, by decide,
    comparator_sign_lex ⟨3, 2147483647⟩ ⟨3, 0⟩ (by decide) (by decide)⟩

/-! ## import of a name that exists (C32) -/

theorem fresh640_import_again_eval :
    (decide (fresh640_import.map (fun r =>
        (st_type (getBytes r.1.data 16384 4096), st_key (getBytes r.1.data 16384 4096),
          st_inode (getBytes r.1.data 16384 4096), getBytes r.1.data 16412 2,
          getBytes r.1.data 32768 20480)) = some (4, ⟨1, 2⟩, 12288, 104, 0)) &&
      (decide ((fresh640_import.bind fun r =>
          (new_empty_file_dir 0 8 sample_time r.1 r.2 [104] 1 4).map fun x =>
            (x.1, decide (x.2.1.data = r.1.data), decide (x.2.2 = r.2)))
          = some (-2, true, true)) &&
      (decide ((fresh640_import.bind fun r => fresh640_import_again.map fun q =>
          (decide (q.1.data = r.1.data), decide (q.2 = r.2),
            decide (getBytes q.1.data 12288 20480 = getBytes r.1.data 12288 20480)))
          = some (false, true, true)) &&
      (decide (fresh640_import.map (fun r =>
          ((check_block r.1 8).1, (check_block r.1 9).1, (check_block r.1 11).1,
            (check_block r.1 12).1)) = some (false, false, false, false)) &&
      (decide (fresh640_import_again.map (fun q =>
          ((check_block q.1 8).1, (check_block q.1 9).1, (check_block q.1 11).1,
            (check_block q.1 12).1)) = some (true, true, false, false)) &&
      (decide (fresh640_import_again.map (fun q =>
          (decide (getBytes q.1.data 32768 4096 = getBytes (host_As 5000).data 0 4096),
            decide (getBytes q.1.data 36864 4096 = getBytes (host_As 5000).data 0 4096),
            getBytes q.1.data 40960 4096)) = some (true, true, 0)) &&
      (decide (fresh640_import_again.map (fun q =>
          (st_lastblock (getBytes q.1.data 45056 4096),
            st_lastblockbytes (getBytes q.1.data 45056 4096),
            st_blocks (getBytes q.1.data 45056 4096))) = some (36864, 904, 2)) &&
      decide (fresh640_import_again.map (fun q =>
          (in_f (getBytes q.1.data 49152 64) 0, in_f (getBytes q.1.data 49152 64) 1,
            in_f (getBytes q.1.data 49152 64) 2, in_f (getBytes q.1.data 49152 64) 3))
          = some (-1, 32768, 36864, -1))))))))) = true := by
  decide!

/-- C32 (failing input): `import` of the 5000-byte host file as `"h"` under directory 1 on
the image that a first such `import` on `fresh640` leaves.  There `"h"` is a regular file
(stat block at 16384: type 4, key `(1, 2)`, inode 12288), blocks 8 to 12 are zero and free,
and `new_empty_file_dir("h", 1, 4)` returns `-2` without changing the image or the
superblock.  The second `import` returns with the superblock, the inode table and the blocks
of the first file unchanged, but with a changed image: blocks 8 and 9 are marked in the
bitmap and hold the file data, block 11 holds a stat record with `lastblock = 36864`,
`lastblockbytes = 904`, `blocks = 2`, and block 12 starts with the inode
`f = [-1, 32768, 36864, -1, ..]`; blocks 11 and 12 are not marked. -/
theorem import_existing_name_writes :
    fresh640_import.map (fun r =>
        (st_type (getBytes r.1.data 16384 4096), st_key (getBytes r.1.data 16384 4096),
          st_inode (getBytes r.1.data 16384 4096), getBytes r.1.data 16412 2,
          getBytes r.1.data 32768 20480)) = some (4, ⟨1, 2⟩, 12288, 104, 0) ∧
    (fresh640_import.bind fun r =>
        (new_empty_file_dir 0 8 sample_time r.1 r.2 [104] 1 4).map fun x =>
          (x.1, decide (x.2.1.data = r.1.data), decide (x.2.2 = r.2)))
        = some (-2, true, true) ∧
    (fresh640_import.bind fun r => fresh640_import_again.map fun q =>
        (decide (q.1.data = r.1.data), decide (q.2 = r.2),
          decide (getBytes q.1.data 12288 20480 = getBytes r.1.data 12288 20480)))
        = some (false, true, true) ∧
    fresh640_import.map (fun r =>
        ((check_block r.1 8).1, (check_block r.1 9).1, (check_block r.1 11).1,
          (check_block r.1 12).1)) = some (false, false, false, false) ∧
    fresh640_import_again.map (fun q =>
        ((check_block q.1 8).1, (check_block q.1 9).1, (check_block q.1 11).1,
          (check_block q.1 12).1)) = some (true, true, false, false) ∧
    fresh640_import_again.map (fun q =>
        (decide (getBytes q.1.data 32768 4096 = getBytes (host_As 5000).data 0 4096),
          decide (getBytes q.1.data 36864 4096 = getBytes (host_As 5000).data 0 4096),
          getBytes q.1.data 40960 4096)) = some (true, true, 0) ∧
    fresh640_import_again.map (fun q =>
        (st_lastblock (getBytes q.1.data 45056 4096),
          st_lastblockbytes (getBytes q.1.data 45056 4096),
          st_blocks (getBytes q.1.data 45056 4096))) = some (36864, 904, 2) ∧
    fresh640_import_again.map (fun q =>
        (in_f (getBytes q.1.data 49152 64) 0, in_f (getBytes q.1.data 49152 64) 1,
          in_f (getBytes q.1.data 49152 64) 2, in_f (getBytes q.1.data 49152 64) 3))
        = some (-1, 32768, 36864, -1) := by
  have h := fresh640_import_again_eval
  simp only [Bool.and_eq_true, decide_eq_true_eq] at h
  exact ⟨h.1, h.2.1, h.2.2.1, h.2.2.2.1, h.2.2.2.2.1, h.2.2.2.2.2.1, h.2.2.2.2.2.2.1,
    h.2.2.2.2.2.2.2⟩

/-! ## insert and the leaf its key belongs to (C22) -/

/-- C22 (failing input): `insert(p, 119003, 1, 12288, sb)` on `tree_image`, a well-formed
tree that does not hold the key `(1, 119003)`.  The leaf the key belongs to, at offset 737280
(where the specified descent stops), has 170 strictly ascending keys.  After the call this
leaf is byte for byte as before, still with 170 keys and without the key, and the leaf at
offset 745472 has been rewritten: it has 171 keys instead of 170 and starts with
`(1, 119003)`. -/
theorem insert_skips_target_leaf :
    tree_ok tree_image.1 36864 = true ∧
    tree_lacks tree_image.1 36864 (4294967296 + 119003) = true ∧
    spec_descend tree_image.1.data ⟨1, 119003⟩ 8 (sb_root tree_image.2) = some 737280 ∧
    (nd_isLeaf (getBytes tree_image.1.data 737280 4096),
      nd_size (getBytes tree_image.1.data 737280 4096),
      keys_ascending (getBytes tree_image.1.data 737280 4096) 169 0,
      keys_lack (getBytes tree_image.1.data 737280 4096) (4294967296 + 119003) 170 0)
      = (1, 170, true, true) ∧
    tree_insert_170.map (fun r =>
        (decide (r.2 = tree_image.2),
          decide (getBytes r.1.data 737280 4096 = getBytes tree_image.1.data 737280 4096),
          nd_size (getBytes r.1.data 737280 4096),
          keys_lack (getBytes r.1.data 737280 4096) (4294967296 + 119003) 170 0))
        = some (true, true, 170, true) ∧
    tree_insert_170.map (fun r =>
        (decide (getBytes r.1.data 745472 4096 = getBytes tree_image.1.data 745472 4096),
          nd_size (getBytes tree_image.1.data 745472 4096),
          nd_size (getBytes r.1.data 745472 4096), nd_key (getBytes r.1.data 745472 4096) 0))
        = some (false, 170, 171, ⟨1, 119003⟩) := by
  have h := tree_target_leaf_eval
  have d := tree_descent_eval
  simp only [Bool.and_eq_true, decide_eq_true_eq] at h d
  exact ⟨tree_image_ok, tree_image_lacks_119003, d.1, h.1, h.2.1, h.2.2⟩

/-! ## The split of a leaf without a left neighbour (C23) -/

theorem edge_insert_eval :
    (tree_ok edge_image.1 36864 && (tree_lacks edge_image.1 36864 (4294967296 + 3) &&
    (decide (spec_descend edge_image.1.data ⟨1, 3⟩ 8 (sb_root edge_image.2) = some 40960) &&
    (decide ((nd_size (getBytes edge_image.1.data 40960 4096),
        nd_left (getBytes edge_image.1.data 40960 4096),
        nd_right (getBytes edge_image.1.data 40960 4096),
        nd_key (getBytes edge_image.1.data 40960 4096) 0) = (339, -1, 45056, ⟨1, 2⟩)) &&
    (decide (edge_insert.map (fun r =>
        (sb_root r.2, nd_size (getBytes r.1.data 36864 4096),
          nd_link (getBytes r.1.data 36864 4096) 0, nd_link (getBytes r.1.data 36864 4096) 1,
          nd_key (getBytes r.1.data 36864 4096) 0)) = some (36864, 2, 49152, 53248, ⟨1, 340⟩)) &&
    (decide (edge_insert.map (fun r =>
        (nd_isLeaf (getBytes r.1.data 53248 4096), nd_size (getBytes r.1.data 53248 4096),
          nd_left (getBytes r.1.data 53248 4096),
          nd_key (getBytes r.1.data 53248 4096) 0, nd_key (getBytes r.1.data 53248 4096) 169))
        = some (1, 170, 49152, ⟨1, 340⟩, ⟨1, 678⟩)) &&
    (decide (edge_insert.map (fun r =>
        (decide (getBytes r.1.data 49152 4096
            = nd_set_left (getBytes edge_image.1.data 45056 4096) 53248),
          nd_size (getBytes r.1.data 49152 4096),
          nd_key (getBytes r.1.data 49152 4096) 0, nd_key (getBytes r.1.data 49152 4096) 1,
          nd_key (getBytes r.1.data 49152 4096) 169))
        = some (true, 170, ⟨1, 702⟩, ⟨1, 704⟩, ⟨1, 1040⟩)) &&
    decide (0 < comparator ⟨1, 702⟩ ⟨1, 340⟩)))))))) = true := by
  decide!

/-- C23 (failing input): `insert(p, 3, 1, 12288, sb)` on `edge_image`, a well-formed tree
that does not hold the key.  The key `(1, 3)` belongs to the leaf at offset 40960, which is
full (339 keys from `(1, 2)` on) and has no left neighbour (`left = -1`) and the right
neighbour at 45056.  After the call the root has the links 49152 (`L1`) and 53248 (`L2`)
around the key `(1, 340)`, and the block at 53248 is a leaf with the 170 keys `(1, 340)` to
`(1, 678)`.  But the block at 49152 is the former right neighbour with `left = 53248`: its
170 keys run from `(1, 702)` to `(1, 1040)`, the keys `(1, 2), (1, 3), ..` of `L1` are in no
leaf, and its first key is above the first key of `L2`. -/
theorem split_overwrites_left_leaf :
    tree_ok edge_image.1 36864 = true ∧
    tree_lacks edge_image.1 36864 (4294967296 + 3) = true ∧
    spec_descend edge_image.1.data ⟨1, 3⟩ 8 (sb_root edge_image.2) = some 40960 ∧
    (nd_size (getBytes edge_image.1.data 40960 4096),
      nd_left (getBytes edge_image.1.data 40960 4096),
      nd_right (getBytes edge_image.1.data 40960 4096),
      nd_key (getBytes edge_image.1.data 40960 4096) 0) = (339, -1, 45056, ⟨1, 2⟩) ∧
    edge_insert.map (fun r =>
        (sb_root r.2, nd_size (getBytes r.1.data 36864 4096),
          nd_link (getBytes r.1.data 36864 4096) 0, nd_link (getBytes r.1.data 36864 4096) 1,
          nd_key (getBytes r.1.data 36864 4096) 0)) = some (36864, 2, 49152, 53248, ⟨1, 340⟩) ∧
    edge_insert.map (fun r =>
        (nd_isLeaf (getBytes r.1.data 53248 4096), nd_size (getBytes r.1.data 53248 4096),
          nd_left (getBytes r.1.data 53248 4096),
          nd_key (getBytes r.1.data 53248 4096) 0, nd_key (getBytes r.1.data 53248 4096) 169))
        = some (1, 170, 49152, ⟨1, 340⟩, ⟨1, 678⟩) ∧
    edge_insert.map (fun r =>
        (decide (getBytes r.1.data 49152 4096
            = nd_set_left (getBytes edge_image.1.data 45056 4096) 53248),
          nd_size (getBytes r.1.data 49152 4096),
          nd_key (getBytes r.1.data 49152 4096) 0, nd_key (getBytes r.1.data 49152 4096) 1,
          nd_key (getBytes r.1.data 49152 4096) 169))
        = some (true, 170, ⟨1, 702⟩, ⟨1, 704⟩, ⟨1, 1040⟩) ∧
    0 < comparator ⟨1, 702⟩ ⟨1, 340⟩ := by
  have h := edge_insert_eval
  simp only [Bool.and_eq_true, decide_eq_true_eq] at h
  exact ⟨h.1, h.2.1, h.2.2.1, h.2.2.2.1, h.2.2.2.2.1, h.2.2.2.2.2.1, h.2.2.2.2.2.2.1,
    h.2.2.2.2.2.2.2⟩

/-! ## promote with keys that differ by more than 2^31 (C27) -/

theorem forall_lt_of_all (n : Nat) (P : Nat → Prop) [DecidablePred P]
    (h : (List.range n).all (fun j => decide (P j)) = true) : ∀ j, j < n → P j := by
  intro j hj
  rw [List.all_eq_true] at h
  have := h j (List.mem_range.mpr hj)
  rw [decide_eq_true_eq] at this
  exact this

end Btreefs
